import Mathlib

/-!
# XCSF: conditions, computed predictions and the host wrapper

A shallow embedding of `src/xcsf/cond_rectangle.c`, `src/xcsf/pred_nlms.c`,
`src/pred_rls.c`, the mutation of `src/xcsf/cond_gp.c`, `xcsf_predict` of
`src/xcsf/main.c` and the methods `fit` and `predict` of
`src/xcsf/python_wrapper.cpp`.

Conventions of the embedding.
* A C `double` is an exact rational (`ℚ`): comparisons and arithmetic are the
  ideal ones, without rounding, infinities or NaN.
* A C `int` is an `Int`; values stay inside the range of `int`.
* A C array (`double *`) is a memory `Nat → ℚ` from index to value; a write
  `a[i] = v` is `Function.update a i v`.
* `for(int i = 0; i < n; i++)` visits `List.range n.toNat` in order.
* `drand()` reads the next value of a stream of draws and advances it.
* A helper whose source is not at hand (`sam_adapt`, `tree_mutation`, the set
  operations of `cl_set.c`) is a function parameter of the definition that
  calls it.
-/

namespace Xcsf

/-! ## Parameters and the random source -/

/-- The fields of the global parameter record `XCSF` that the embedded code
reads or writes (`data_structures.h`). -/
structure XCSF where
  num_x_vars : Int
  num_y_vars : Int
  MIN_CON : ℚ
  MAX_CON : ℚ
  P_CROSSOVER : ℚ
  P_MUTATION : ℚ
  S_MUTATION : ℚ
  NUM_SAM : Int
  PRED_TYPE : Int
  XCSF_X0 : ℚ
  XCSF_ETA : ℚ
  MAX_TRIALS : Int := 0
  PERF_AVG_TRIALS : Int := 0
  time : Int := 0

/-- The state of the random source: the stream of values `drand()` is going to
return, and how many of them have been consumed. -/
structure Rng where
  draws : Nat → ℚ
  pos : Nat

/-- One call `drand()`: the value drawn and the advanced source. -/
def drand (r : Rng) : ℚ × Rng :=
  (r.draws r.pos, { r with pos := r.pos + 1 })

/-! ## `cond_rectangle.c` -/

/-- The record `COND_RECTANGLE`. -/
structure COND_RECTANGLE where
  lower : Nat → ℚ
  upper : Nat → ℚ
  m : Bool
  mu : Nat → ℚ

/-- The loop of `cond_rectangle_match` over the remaining dimensions: `false`
at the first dimension whose interval excludes `x[i]`, `true` when the loop
runs to its end. -/
def cond_rectangle_match_loop (cond : COND_RECTANGLE) (x : Nat → ℚ) : List Nat → Bool
  | [] => true
  | i :: rest =>
    if cond.lower i > x i ∨ cond.upper i < x i then false
    else cond_rectangle_match_loop cond x rest

/-- The function `cond_rectangle_match`: the returned boolean and the condition
with its match flag `m` written. -/
def cond_rectangle_match (xcsf : XCSF) (cond : COND_RECTANGLE) (x : Nat → ℚ) :
    Bool × COND_RECTANGLE :=
  if cond_rectangle_match_loop cond x (List.range xcsf.num_x_vars.toNat) then
    (true, { cond with m := true })
  else
    (false, { cond with m := false })

/-- The function `cond_rectangle_match_state`. -/
def cond_rectangle_match_state (_xcsf : XCSF) (cond : COND_RECTANGLE) : Bool :=
  cond.m

/-- The function `cond_rectangle_bounds` on the two values its pointers refer to:
each bound is clamped to `[MIN_CON, MAX_CON]`, then the two are exchanged when
the lower one exceeds the upper one. The pair is the new `(*l, *u)`. -/
def cond_rectangle_bounds (xcsf : XCSF) (l u : ℚ) : ℚ × ℚ :=
  let l1 := if l < xcsf.MIN_CON then xcsf.MIN_CON
            else if l > xcsf.MAX_CON then xcsf.MAX_CON else l
  let u1 := if u < xcsf.MIN_CON then xcsf.MIN_CON
            else if u > xcsf.MAX_CON then xcsf.MAX_CON else u
  if l1 > u1 then (u1, l1) else (l1, u1)

/-- The call `cond_rectangle_bounds(xcsf, &cond->lower[i], &cond->upper[i])`. -/
def cond_rectangle_bounds_at (xcsf : XCSF) (cond : COND_RECTANGLE) (i : Nat) :
    COND_RECTANGLE :=
  let b := cond_rectangle_bounds xcsf (cond.lower i) (cond.upper i)
  { cond with lower := Function.update cond.lower i b.1,
              upper := Function.update cond.upper i b.2 }

/-- One iteration of the loop of `cond_rectangle_rand`. -/
def cond_rectangle_rand_step (xcsf : XCSF) (s : COND_RECTANGLE × Rng) (i : Nat) :
    COND_RECTANGLE × Rng :=
  let d1 := drand s.2
  let l := ((xcsf.MAX_CON - xcsf.MIN_CON) * d1.1) + xcsf.MIN_CON
  let c1 : COND_RECTANGLE := { s.1 with lower := Function.update s.1.lower i l }
  let d2 := drand d1.2
  let u := ((xcsf.MAX_CON - xcsf.MIN_CON) * d2.1) + xcsf.MIN_CON
  let c2 : COND_RECTANGLE := { c1 with upper := Function.update c1.upper i u }
  (cond_rectangle_bounds_at xcsf c2 i, d2.2)

/-- The function `cond_rectangle_rand`. -/
def cond_rectangle_rand (xcsf : XCSF) (cond : COND_RECTANGLE) (rng : Rng) :
    COND_RECTANGLE × Rng :=
  (List.range xcsf.num_x_vars.toNat).foldl (cond_rectangle_rand_step xcsf) (cond, rng)

/-- One iteration of the loop of `cond_rectangle_cover`. -/
def cond_rectangle_cover_step (xcsf : XCSF) (x : Nat → ℚ) (s : COND_RECTANGLE × Rng)
    (i : Nat) : COND_RECTANGLE × Rng :=
  let d1 := drand s.2
  let l := x i - ((xcsf.MAX_CON - xcsf.MIN_CON) * d1.1 * (1 / 2))
  let c1 : COND_RECTANGLE := { s.1 with lower := Function.update s.1.lower i l }
  let d2 := drand d1.2
  let u := x i + ((xcsf.MAX_CON - xcsf.MIN_CON) * d2.1 * (1 / 2))
  let c2 : COND_RECTANGLE := { c1 with upper := Function.update c1.upper i u }
  (cond_rectangle_bounds_at xcsf c2 i, d2.2)

/-- The function `cond_rectangle_cover`. -/
def cond_rectangle_cover (xcsf : XCSF) (cond : COND_RECTANGLE) (x : Nat → ℚ) (rng : Rng) :
    COND_RECTANGLE × Rng :=
  (List.range xcsf.num_x_vars.toNat).foldl (cond_rectangle_cover_step xcsf x) (cond, rng)

/-- The state of the loop of `cond_rectangle_crossover`. -/
structure CrossoverState where
  changed : Bool
  cond1 : COND_RECTANGLE
  cond2 : COND_RECTANGLE
  rng : Rng

/-- One iteration of the loop of `cond_rectangle_crossover`. -/
def cond_rectangle_crossover_step (xcsf : XCSF) (s : CrossoverState) (i : Nat) :
    CrossoverState :=
  let d1 := drand s.rng
  let s1 : CrossoverState :=
    if d1.1 < 1 / 2 then
      { changed := true,
        cond1 := { s.cond1 with lower := Function.update s.cond1.lower i (s.cond2.lower i) },
        cond2 := { s.cond2 with lower := Function.update s.cond2.lower i (s.cond1.lower i) },
        rng := d1.2 }
    else { s with rng := d1.2 }
  let d2 := drand s1.rng
  let s2 : CrossoverState :=
    if d2.1 < 1 / 2 then
      { changed := true,
        cond1 := { s1.cond1 with upper := Function.update s1.cond1.upper i (s1.cond2.upper i) },
        cond2 := { s1.cond2 with upper := Function.update s1.cond2.upper i (s1.cond1.upper i) },
        rng := d2.2 }
    else { s1 with rng := d2.2 }
  { s2 with cond1 := cond_rectangle_bounds_at xcsf s2.cond1 i,
            cond2 := cond_rectangle_bounds_at xcsf s2.cond2 i }

/-- The function `cond_rectangle_crossover`: the returned `changed` flag, both
conditions and the random source afterwards. -/
def cond_rectangle_crossover (xcsf : XCSF) (cond1 cond2 : COND_RECTANGLE) (rng : Rng) :
    CrossoverState :=
  let d := drand rng
  if d.1 < xcsf.P_CROSSOVER then
    (List.range xcsf.num_x_vars.toNat).foldl (cond_rectangle_crossover_step xcsf)
      { changed := false, cond1 := cond1, cond2 := cond2, rng := d.2 }
  else
    { changed := false, cond1 := cond1, cond2 := cond2, rng := d.2 }

/-- The state of the loop of `cond_rectangle_mutate`. -/
structure MutateState where
  changed : Bool
  cond : COND_RECTANGLE
  rng : Rng

/-- One iteration of the loop of `cond_rectangle_mutate`; `xcsf` is the parameter
record as it stands when the loop runs and `step` the local of that name. -/
def cond_rectangle_mutate_step (xcsf : XCSF) (step : ℚ) (s : MutateState) (i : Nat) :
    MutateState :=
  let d1 := drand s.rng
  let s1 : MutateState :=
    if d1.1 < xcsf.P_MUTATION then
      let e := drand d1.2
      let l := s.cond.lower i + ((e.1 * 2) - 1) * step
      { changed := true,
        cond := { s.cond with lower := Function.update s.cond.lower i l },
        rng := e.2 }
    else { s with rng := d1.2 }
  let d2 := drand s1.rng
  let s2 : MutateState :=
    if d2.1 < xcsf.P_MUTATION then
      let e := drand d2.2
      let u := s1.cond.upper i + ((e.1 * 2) - 1) * step
      { changed := true,
        cond := { s1.cond with upper := Function.update s1.cond.upper i u },
        rng := e.2 }
    else { s1 with rng := d2.2 }
  { s2 with cond := cond_rectangle_bounds_at xcsf s2.cond i }

/-- The result of `cond_rectangle_mutate`: the returned `changed` flag, the global
parameter record, the condition and the random source afterwards. -/
structure MutateResult where
  changed : Bool
  xcsf : XCSF
  cond : COND_RECTANGLE
  rng : Rng

/-- The loop of `cond_rectangle_mutate` and its `return changed`. -/
def cond_rectangle_mutate_loop (xcsf : XCSF) (step : ℚ) (cond : COND_RECTANGLE) (rng : Rng) :
    MutateResult :=
  let s := (List.range xcsf.num_x_vars.toNat).foldl (cond_rectangle_mutate_step xcsf step)
    { changed := false, cond := cond, rng := rng }
  { changed := s.changed, xcsf := xcsf, cond := s.cond, rng := s.rng }

/-- The function `cond_rectangle_mutate`. The helper `sam_adapt` (`sam.c`) is a
parameter: from the parameter record, the rates `mu` and the random source it
gives the adapted rates and the random source it leaves. -/
def cond_rectangle_mutate (sam_adapt : XCSF → (Nat → ℚ) → Rng → (Nat → ℚ) × Rng)
    (xcsf : XCSF) (cond : COND_RECTANGLE) (rng : Rng) : MutateResult :=
  if xcsf.NUM_SAM > 0 then
    let a := sam_adapt xcsf cond.mu rng
    let xcsf1 : XCSF := { xcsf with P_MUTATION := a.1 0 }
    let step : ℚ := if xcsf.NUM_SAM > 1 then a.1 1 else xcsf.S_MUTATION
    cond_rectangle_mutate_loop xcsf1 step { cond with mu := a.1 } a.2
  else
    cond_rectangle_mutate_loop xcsf xcsf.S_MUTATION cond rng

/-- The loop of `cond_rectangle_general` over the remaining dimensions. -/
def cond_rectangle_general_loop (cond1 cond2 : COND_RECTANGLE) : List Nat → Bool
  | [] => true
  | i :: rest =>
    if cond1.lower i > cond2.lower i ∨ cond1.upper i < cond2.upper i then false
    else cond_rectangle_general_loop cond1 cond2 rest

/-- The function `cond_rectangle_general`. -/
def cond_rectangle_general (xcsf : XCSF) (cond1 cond2 : COND_RECTANGLE) : Bool :=
  cond_rectangle_general_loop cond1 cond2 (List.range xcsf.num_x_vars.toNat)

/-- The bounds law of a condition: every dimension `i < num_x_vars` has
`MIN_CON ≤ lower[i] ≤ upper[i] ≤ MAX_CON`. -/
def RectBounded (xcsf : XCSF) (cond : COND_RECTANGLE) : Prop :=
  ∀ i : Nat, (i : Int) < xcsf.num_x_vars →
    xcsf.MIN_CON ≤ cond.lower i ∧ cond.lower i ≤ cond.upper i ∧ cond.upper i ≤ xcsf.MAX_CON

/-- The bounds law at one dimension. -/
def BoundedAt (xcsf : XCSF) (cond : COND_RECTANGLE) (j : Nat) : Prop :=
  xcsf.MIN_CON ≤ cond.lower j ∧ cond.lower j ≤ cond.upper j ∧ cond.upper j ≤ xcsf.MAX_CON

/-- The record `PRED_NLMS`: `weights var` is the row `weights[var]`. -/
structure PRED_NLMS where
  weights_length : Int
  weights : Nat → Nat → ℚ
  pre : Nat → ℚ

/-- The expression that `pred_nlms_init` assigns to `weights_length`, evaluated
in the integers without the limits of `int`; the division is the integer
division of C. -/
def pred_nlms_weights_length (xcsf : XCSF) : Int :=
  if xcsf.PRED_TYPE = 1 then
    1 + 2 * xcsf.num_x_vars + (xcsf.num_x_vars * (xcsf.num_x_vars - 1)).tdiv 2
  else
    xcsf.num_x_vars + 1

/-- The largest value of the 32-bit type `int`. -/
def INT_MAX : Int := 2147483647

/-- The value an `int` holds when the exact result of an operation is `z`. Signed
overflow is undefined in C; the value taken here is the one a two's complement
machine gives, `z` reduced into `[−2³¹, 2³¹)`. -/
def int_wrap (z : Int) : Int :=
  (z + 2147483648) % 4294967296 - 2147483648

/-- The value `pred_nlms_init` stores in `weights_length`: the same expression
with every operation carried out in `int`. -/
def pred_nlms_init_length (xcsf : XCSF) : Int :=
  if xcsf.PRED_TYPE = 1 then
    int_wrap (int_wrap (1 + int_wrap (2 * xcsf.num_x_vars)) +
      (int_wrap (xcsf.num_x_vars * int_wrap (xcsf.num_x_vars - 1))).tdiv 2)
  else
    int_wrap (xcsf.num_x_vars + 1)

/-- The function `pred_nlms_init`; `fresh` is the content of the memory that
`malloc` hands out. -/
def pred_nlms_init (xcsf : XCSF) (fresh : PRED_NLMS) : PRED_NLMS :=
  let len := pred_nlms_init_length xcsf
  let weights := (List.range xcsf.num_y_vars.toNat).foldl
    (fun w var => Function.update w var
      ((List.range' 1 (len.toNat - 1)).foldl (fun row i => Function.update row i 0)
        (Function.update (w var) 0 xcsf.XCSF_X0)))
    fresh.weights
  { weights_length := len, weights := weights, pre := fresh.pre }

/-- The locals of `pred_nlms_compute` inside the loop over `var`: the sum `pre`,
the running `index`, and (a ghost) the weight indices read so far, in order. -/
structure ComputeState where
  pre : ℚ
  index : Nat
  visited : List Nat

/-- The statement `pre += pred->weights[var][index++] * x[i]`. -/
def pred_nlms_compute_linear (w x : Nat → ℚ) (s : ComputeState) (i : Nat) : ComputeState :=
  { pre := s.pre + w s.index * x i, index := s.index + 1, visited := s.visited ++ [s.index] }

/-- The statement `pre += pred->weights[var][index++] * x[i] * x[j]`. -/
def pred_nlms_compute_quadratic (w x : Nat → ℚ) (i : Nat) (s : ComputeState) (j : Nat) :
    ComputeState :=
  { pre := s.pre + w s.index * x i * x j, index := s.index + 1,
    visited := s.visited ++ [s.index] }

/-- The body of the loop over `var` of `pred_nlms_compute`, up to the store
into `pred->pre[var]`. -/
def pred_nlms_compute_var (xcsf : XCSF) (pred : PRED_NLMS) (x : Nat → ℚ) (var : Nat) :
    ComputeState :=
  let w := pred.weights var
  let d := xcsf.num_x_vars.toNat
  let s0 : ComputeState := { pre := xcsf.XCSF_X0 * w 0, index := 1, visited := [0] }
  let s1 := (List.range d).foldl (pred_nlms_compute_linear w x) s0
  if xcsf.PRED_TYPE = 1 then
    (List.range d).foldl
      (fun s i => (List.range' i (d - i)).foldl (pred_nlms_compute_quadratic w x i) s) s1
  else
    s1

/-- The function `pred_nlms_compute`: the predictor with `pre` filled in; the
array the C function returns is its field `pre`. -/
def pred_nlms_compute (xcsf : XCSF) (pred : PRED_NLMS) (x : Nat → ℚ) : PRED_NLMS :=
  (List.range xcsf.num_y_vars.toNat).foldl
    (fun p var =>
      { p with pre := Function.update p.pre var (pred_nlms_compute_var xcsf p x var).pre })
    pred

/-- The function `pred_nlms_pre`. -/
def pred_nlms_pre (_xcsf : XCSF) (pred : PRED_NLMS) (p : Nat) : ℚ :=
  pred.pre p

/-- The normaliser `norm` of `pred_nlms_update`. -/
def pred_nlms_norm (xcsf : XCSF) (x : Nat → ℚ) : ℚ :=
  (List.range xcsf.num_x_vars.toNat).foldl (fun norm i => norm + x i * x i)
    (xcsf.XCSF_X0 * xcsf.XCSF_X0)

/-- The locals of `pred_nlms_update` inside the loop over `var`: the row
`weights[var]`, the running `index`, and (a ghost) the weight indices written
so far, in order. -/
structure UpdateState where
  weights : Nat → ℚ
  index : Nat
  visited : List Nat

/-- The statement `pred->weights[var][index++] += correction * x[i]`. -/
def pred_nlms_update_linear (correction : ℚ) (x : Nat → ℚ) (s : UpdateState) (i : Nat) :
    UpdateState :=
  { weights := Function.update s.weights s.index (s.weights s.index + correction * x i),
    index := s.index + 1, visited := s.visited ++ [s.index] }

/-- The statement `pred->weights[var][index++] += correction * x[i] * x[j]`. -/
def pred_nlms_update_quadratic (correction : ℚ) (x : Nat → ℚ) (i : Nat) (s : UpdateState)
    (j : Nat) : UpdateState :=
  { weights := Function.update s.weights s.index (s.weights s.index + correction * x i * x j),
    index := s.index + 1, visited := s.visited ++ [s.index] }

/-- The local `correction` of `pred_nlms_update` for output `var`. -/
def pred_nlms_correction (xcsf : XCSF) (pred : PRED_NLMS) (y x : Nat → ℚ) (var : Nat) : ℚ :=
  (xcsf.XCSF_ETA * (y var - pred.pre var)) / pred_nlms_norm xcsf x

/-- The body of the loop over `var` of `pred_nlms_update`. -/
def pred_nlms_update_var (xcsf : XCSF) (pred : PRED_NLMS) (y x : Nat → ℚ) (var : Nat) :
    UpdateState :=
  let correction := pred_nlms_correction xcsf pred y x var
  let w := pred.weights var
  let d := xcsf.num_x_vars.toNat
  let s0 : UpdateState :=
    { weights := Function.update w 0 (w 0 + xcsf.XCSF_X0 * correction), index := 1,
      visited := [0] }
  let s1 := (List.range d).foldl (pred_nlms_update_linear correction x) s0
  if xcsf.PRED_TYPE = 1 then
    (List.range d).foldl
      (fun s i => (List.range' i (d - i)).foldl (pred_nlms_update_quadratic correction x i) s) s1
  else
    s1

/-- The function `pred_nlms_update`. -/
def pred_nlms_update (xcsf : XCSF) (pred : PRED_NLMS) (y x : Nat → ℚ) : PRED_NLMS :=
  (List.range xcsf.num_y_vars.toNat).foldl
    (fun p var =>
      { p with weights :=
          Function.update p.weights var (pred_nlms_update_var xcsf p y x var).weights })
    pred

/-- What `pred_rls.c` takes from outside: the globals `state_length` and
`XCSF_X0` (`cons.h`) and whether the build defines `QUADRATIC`. -/
structure RLS_CONS where
  state_length : Int
  XCSF_X0 : ℚ
  QUADRATIC : Bool

/-- The constant `RLS_SCALE_FACTOR`. -/
def RLS_SCALE_FACTOR : ℚ := 1000

/-- The constant `RLS_LAMBDA`. -/
def RLS_LAMBDA : ℚ := 1

/-- The fields of the record `PRED` (`cl.h`) that `pred_rls.c` uses; `matrix` is
the flat array behind the gain matrix. -/
structure PRED where
  weights_length : Int
  weights : Nat → ℚ
  matrix : Nat → ℚ
  pre : ℚ

/-- The file-scope scratch arrays of `pred_rls.c`. -/
structure RLS_TMP where
  tmp_input : Nat → ℚ
  tmp_vec : Nat → ℚ
  tmp_matrix1 : Nat → ℚ
  tmp_matrix2 : Nat → ℚ

/-- The array index `i*state_length+j` that the source computes. -/
def rls_index (cons : RLS_CONS) (i j : Nat) : Nat :=
  ((i : Int) * cons.state_length + (j : Int)).toNat

/-- The function `init_matrix`. -/
def init_matrix (cons : RLS_CONS) (matrix : Nat → ℚ) : Nat → ℚ :=
  (List.range cons.state_length.toNat).foldl
    (fun m row => (List.range cons.state_length.toNat).foldl
      (fun m col =>
        if row ≠ col then Function.update m (rls_index cons row col) 0
        else Function.update m (rls_index cons row col) RLS_SCALE_FACTOR)
      m)
    matrix

/-- The value `pred_init` gives to `weights_length`. -/
def pred_weights_length (cons : RLS_CONS) : Int :=
  if cons.QUADRATIC then
    1 + 2 * cons.state_length + (cons.state_length * (cons.state_length - 1)).tdiv 2
  else
    cons.state_length + 1

/-- The function `pred_init`; `fresh` is the content of the memory that `malloc`
hands out. -/
def pred_init (cons : RLS_CONS) (fresh : PRED) : PRED :=
  let len := pred_weights_length cons
  let weights := (List.range' 1 (len.toNat - 1)).foldl
    (fun w i => Function.update w i 0) (Function.update fresh.weights 0 cons.XCSF_X0)
  { weights_length := len, weights := weights, matrix := init_matrix cons fresh.matrix,
    pre := fresh.pre }

/-- The function `matrix_vector_multiply`: the array `dest` afterwards. -/
def matrix_vector_multiply (cons : RLS_CONS) (srcm srcv dest : Nat → ℚ) (n : Int) : Nat → ℚ :=
  (List.range n.toNat).foldl
    (fun dest i =>
      (List.range' 1 (n.toNat - 1)).foldl
        (fun dest j => Function.update dest i (dest i + srcm (rls_index cons i j) * srcv j))
        (Function.update dest i (srcm (rls_index cons i 0) * srcv 0)))
    dest

/-- The function `matrix_matrix_multiply`: the array `dest` afterwards. -/
def matrix_matrix_multiply (cons : RLS_CONS) (srca srcb dest : Nat → ℚ) (n : Int) : Nat → ℚ :=
  (List.range n.toNat).foldl
    (fun dest i => (List.range n.toNat).foldl
      (fun dest j =>
        (List.range n.toNat).foldl
          (fun dest k => Function.update dest (rls_index cons i j)
            (dest (rls_index cons i j) +
              srca (rls_index cons i k) * srcb (rls_index cons k j)))
          (Function.update dest (rls_index cons i j) (srca (rls_index cons i 0) * srcb j)))
      dest)
    dest

/-- The locals of the first part of `pred_update`: the array `tmp_input`, the
running `index`, and (a ghost) the indices of `tmp_input` written so far. -/
structure InputState where
  tmp_input : Nat → ℚ
  index : Nat
  visited : List Nat

/-- The first part of `pred_update`, which fills `tmp_input`. -/
def pred_update_input (cons : RLS_CONS) (tmp_input : Nat → ℚ) (state : Nat → ℚ) :
    InputState :=
  let s0 : InputState :=
    { tmp_input := Function.update tmp_input 0 cons.XCSF_X0, index := 1, visited := [0] }
  let s1 := (List.range cons.state_length.toNat).foldl
    (fun s i => { tmp_input := Function.update s.tmp_input s.index (state i),
                  index := s.index + 1, visited := s.visited ++ [s.index] })
    s0
  if cons.QUADRATIC then
    (List.range cons.state_length.toNat).foldl
      (fun s i => (List.range cons.state_length.toNat).foldl
        (fun s _j => { tmp_input := Function.update s.tmp_input s.index (state i ^ 2),
                       index := s.index + 1, visited := s.visited ++ [s.index] })
        s)
      s1
  else
    s1

/-- The local `divisor` of `pred_update`. -/
def pred_update_divisor (tmp_input tmp_vec : Nat → ℚ) (n : Int) : ℚ :=
  (List.range n.toNat).foldl (fun divisor i => divisor + tmp_input i * tmp_vec i) RLS_LAMBDA

/-- The function `pred_update`: the predictor and the scratch arrays afterwards. -/
def pred_update (cons : RLS_CONS) (pred : PRED) (tmp : RLS_TMP) (p : ℚ) (state : Nat → ℚ) :
    PRED × RLS_TMP :=
  let n := pred.weights_length
  let tmp_input := (pred_update_input cons tmp.tmp_input state).tmp_input
  let vec0 := matrix_vector_multiply cons pred.matrix tmp_input tmp.tmp_vec n
  let divisor := pred_update_divisor tmp_input vec0 n
  let tmp_vec := (List.range n.toNat).foldl
    (fun v i => Function.update v i (v i / divisor)) vec0
  let error := p - pred.pre
  let weights := (List.range n.toNat).foldl
    (fun w i => Function.update w i (w i + error * tmp_vec i)) pred.weights
  let tmp_matrix1 := (List.range n.toNat).foldl
    (fun m i => (List.range n.toNat).foldl
      (fun m j =>
        if i = j then Function.update m (rls_index cons i j) (1 - tmp_vec i * tmp_input j)
        else Function.update m (rls_index cons i j) (-(tmp_vec i * tmp_input j)))
      m)
    tmp.tmp_matrix1
  let tmp_matrix2 := matrix_matrix_multiply cons tmp_matrix1 pred.matrix tmp.tmp_matrix2 n
  let matrix := (List.range n.toNat).foldl
    (fun m row => (List.range n.toNat).foldl
      (fun m col => Function.update m (rls_index cons row col)
        (tmp_matrix2 (rls_index cons row col) / RLS_LAMBDA))
      m)
    pred.matrix
  ({ pred with weights := weights, matrix := matrix },
   { tmp_input := tmp_input, tmp_vec := tmp_vec, tmp_matrix1 := tmp_matrix1,
     tmp_matrix2 := tmp_matrix2 })

/-- The function `pred_compute`: the returned sum and the predictor with `pre`
stored. The loop statements are those of `pred_nlms_compute`, word for word. -/
def pred_compute (cons : RLS_CONS) (pred : PRED) (state : Nat → ℚ) : ℚ × PRED :=
  let d := cons.state_length.toNat
  let s0 : ComputeState := { pre := cons.XCSF_X0 * pred.weights 0, index := 1, visited := [0] }
  let s1 := (List.range d).foldl (pred_nlms_compute_linear pred.weights state) s0
  let s2 :=
    if cons.QUADRATIC then
      (List.range d).foldl
        (fun s i => (List.range' i (d - i)).foldl
          (pred_nlms_compute_quadratic pred.weights state i) s) s1
    else
      s1
  (s2.pre, { pred with pre := s2.pre })

/-! ## `cond_gp.c` -/

/-- The record `COND_GP`; the tree type `GP_TREE` (`gp.h`) is the parameter
`Tree`. -/
structure COND_GP (Tree : Type) where
  gp : Tree
  m : Bool
  mu : Nat → ℚ

/-- The result of `cond_gp_mutate`: the returned boolean, the global parameter
record, the condition and the random source afterwards. -/
structure GpMutateResult (Tree : Type) where
  changed : Bool
  xcsf : XCSF
  cond : COND_GP Tree
  rng : Rng

/-- The last statement of `cond_gp_mutate`: one draw against `P_MUTATION`
decides whether `tree_mutation` runs. -/
def cond_gp_mutate_tree {Tree : Type} (tree_mutation : XCSF → Tree → ℚ → Rng → Tree × Rng)
    (xcsf : XCSF) (cond : COND_GP Tree) (rng : Rng) : GpMutateResult Tree :=
  let d := drand rng
  if d.1 < xcsf.P_MUTATION then
    let t := tree_mutation xcsf cond.gp xcsf.P_MUTATION d.2
    { changed := true, xcsf := xcsf, cond := { cond with gp := t.1 }, rng := t.2 }
  else
    { changed := false, xcsf := xcsf, cond := cond, rng := d.2 }

/-- The function `cond_gp_mutate`. The helpers `sam_adapt` (`sam.c`) and
`tree_mutation` (`gp.c`) are parameters; `tree_mutation` gets the parameter
record, the tree, the rate and the random source and gives the mutated tree and
the random source it leaves. -/
def cond_gp_mutate {Tree : Type} (sam_adapt : XCSF → (Nat → ℚ) → Rng → (Nat → ℚ) × Rng)
    (tree_mutation : XCSF → Tree → ℚ → Rng → Tree × Rng)
    (xcsf : XCSF) (cond : COND_GP Tree) (rng : Rng) : GpMutateResult Tree :=
  if xcsf.NUM_SAM > 0 then
    let a := sam_adapt xcsf cond.mu rng
    let xcsf1 : XCSF := { xcsf with P_MUTATION := a.1 0 }
    let xcsf2 : XCSF := if xcsf.NUM_SAM > 1 then { xcsf1 with S_MUTATION := a.1 1 } else xcsf1
    cond_gp_mutate_tree tree_mutation xcsf2 { cond with mu := a.1 } a.2
  else
    cond_gp_mutate_tree tree_mutation xcsf cond rng

/-- The record `GP_TREE` (`gp.h`) as far as `cond_gp.c` looks into it: the
position `p`, which `cond_gp_match` resets, and the rest of the tree, `code`. -/
structure GP_TREE (Code : Type) where
  code : Code
  p : Int

/-- The function `cond_gp_match`: the returned boolean and the condition
afterwards. The helper `tree_eval` (`gp.c`) is a parameter: from the parameter
record, the tree and the input it gives the value of the tree and the tree as
the evaluation leaves it. -/
def cond_gp_match {Code : Type}
    (tree_eval : XCSF → GP_TREE Code → (Nat → ℚ) → ℚ × GP_TREE Code)
    (xcsf : XCSF) (cond : COND_GP (GP_TREE Code)) (state : Nat → ℚ) :
    Bool × COND_GP (GP_TREE Code) :=
  let gp0 : GP_TREE Code := { cond.gp with p := 0 }
  let r := tree_eval xcsf gp0 state
  if r.1 > 1 / 2 then (true, { cond with gp := r.2, m := true })
  else (false, { cond with gp := r.2, m := false })

/-- The function `cond_gp_match_state`. -/
def cond_gp_match_state {Tree : Type} (_xcsf : XCSF) (cond : COND_GP Tree) : Bool :=
  cond.m

/-- The function `cond_gp_subsumes`. -/
def cond_gp_subsumes {Tree : Type} (_xcsf : XCSF) (_c1 _c2 : COND_GP Tree) : Bool :=
  false

/-- The function `cond_gp_general`. -/
def cond_gp_general {Tree : Type} (_xcsf : XCSF) (_c1 _c2 : COND_GP Tree) : Bool :=
  false

/-- The function `cond_gp_rand`: `tree_free` drops the tree and `tree_rand`
(`gp.c`, a parameter) makes a new one from the parameter record and the random
source. -/
def cond_gp_rand {Code : Type} (tree_rand : XCSF → Rng → GP_TREE Code × Rng)
    (xcsf : XCSF) (cond : COND_GP (GP_TREE Code)) (rng : Rng) :
    COND_GP (GP_TREE Code) × Rng :=
  let t := tree_rand xcsf rng
  ({ cond with gp := t.1 }, t.2)

/-- What `cond_gp_cover` leaves when it returns: the condition, the random
source, and (a ghost) the number of passes through its loop body. -/
structure GpCoverResult (Code : Type) where
  cond : COND_GP (GP_TREE Code)
  rng : Rng
  rounds : Nat

/-- The `do … while` loop of `cond_gp_cover`, run for at most `fuel` passes;
`rounds` counts the passes made before. -/
def cond_gp_cover_loop {Code : Type} (tree_rand : XCSF → Rng → GP_TREE Code × Rng)
    (tree_eval : XCSF → GP_TREE Code → (Nat → ℚ) → ℚ × GP_TREE Code)
    (xcsf : XCSF) (state : Nat → ℚ) :
    Nat → COND_GP (GP_TREE Code) → Rng → Nat → Option (GpCoverResult Code)
  | 0, _, _, _ => none
  | fuel + 1, cond, rng, rounds =>
    let c := cond_gp_rand tree_rand xcsf cond rng
    let m := cond_gp_match tree_eval xcsf c.1 state
    if !m.1 then cond_gp_cover_loop tree_rand tree_eval xcsf state fuel m.2 c.2 (rounds + 1)
    else some { cond := m.2, rng := c.2, rounds := rounds + 1 }

/-- The function `cond_gp_cover`, with a bound `fuel` on the passes through its
loop: `none` when the bound is reached before a tree matches. -/
def cond_gp_cover {Code : Type} (tree_rand : XCSF → Rng → GP_TREE Code × Rng)
    (tree_eval : XCSF → GP_TREE Code → (Nat → ℚ) → ℚ × GP_TREE Code)
    (xcsf : XCSF) (cond : COND_GP (GP_TREE Code)) (state : Nat → ℚ) (rng : Rng) (fuel : Nat) :
    Option (GpCoverResult Code) :=
  cond_gp_cover_loop tree_rand tree_eval xcsf state fuel cond rng 0

/-! ## `main.c` and `python_wrapper.cpp`: prediction and fitting through the wrapper -/

/-- The function `xcsf_predict`: the engine state and the array `output`
afterwards. The helpers of `cl_set.c` are not among the sources; what
`set_match`, `set_pred`, `set_kill` and `set_free` do for one input row is the
parameter `predict_row`: from the engine state and the row it gives the engine
state afterwards and the system prediction, which `set_pred` writes to the
`num_y_vars` entries from `&output[row*num_y_vars]` on. -/
def xcsf_predict {S : Type} (predict_row : S → (Nat → ℚ) → S × (Nat → ℚ)) (xcsf : XCSF)
    (st : S) (input output : Nat → ℚ) (rows : Int) : S × (Nat → ℚ) :=
  (List.range rows.toNat).foldl
    (fun s row =>
      let r := predict_row s.1 (fun i => input (((row : Int) * xcsf.num_x_vars).toNat + i))
      let base := ((row : Int) * xcsf.num_y_vars).toNat
      (r.1, fun k => if base ≤ k ∧ ((k - base : Nat) : Int) < xcsf.num_y_vars
                     then r.2 (k - base) else s.2 k))
    (st, output)

/-- A two-dimensional `numpy` array of doubles as the wrapper sees it: the
buffer, the shape, and the strides in bytes. -/
structure NDArray where
  data : Nat → ℚ
  shape : Int × Int
  strides : Int × Int

/-- The size of a double in bytes. -/
def sizeof_double : Int := 8

/-- Element `(r, v)` of an array: the double at byte offset
`r*strides[0] + v*strides[1]` of the buffer. -/
def NDArray.get (a : NDArray) (r v : Nat) : ℚ :=
  a.data (((r : Int) * a.strides.1 + (v : Int) * a.strides.2) / sizeof_double).toNat

/-- The method `XCS::predict`: the engine state afterwards and the array
returned; `fresh` is the content of the buffer that `malloc` hands out. -/
def XCS_predict {S : Type} (predict_row : S → (Nat → ℚ) → S × (Nat → ℚ)) (xcs : XCSF)
    (st : S) (fresh : Nat → ℚ) (T : NDArray) : S × NDArray :=
  let rows := T.shape.1
  let r := xcsf_predict predict_row xcs st T.data fresh rows
  (r.1, { data := r.2, shape := (rows, xcs.num_y_vars),
          strides := (sizeof_double, sizeof_double) })

/-- The record `INPUT` (`input.h`). -/
structure INPUT where
  rows : Int
  x_cols : Int
  y_cols : Int
  x : Nat → ℚ
  y : Nat → ℚ

/-- The object `XCS` of the wrapper: the parameter record `xcs`, its counter
`xcs.pop_num`, the rest of the engine state, and the two data sets. -/
structure XCS (S : Type) where
  xcs : XCSF
  pop_num : Int
  engine : S
  train_data : INPUT
  test_data : INPUT

/-- The four messages that `XCS::fit` prints before it returns early. -/
inductive FitError where
  | train_rows_not_equal
  | test_rows_not_equal
  | x_cols_not_equal
  | y_cols_not_equal

/-- The outcome of `XCS::fit`: the message printed, if any, and the object
afterwards. -/
structure FitResult (S : Type) where
  error : Option FitError
  self : XCS S

/-- The method `XCS::fit` with training data only. The functions `pop_init` and
`xcsf_fit1` are parameters acting on the object. -/
def XCS_fit1 {S : Type} (pop_init : XCS S → XCS S) (xcsf_fit1 : XCS S → Bool → XCS S)
    (self : XCS S) (train_X train_Y : NDArray) (shuffle : Bool) : FitResult S :=
  if train_X.shape.1 ≠ train_Y.shape.1 then
    { error := some FitError.train_rows_not_equal, self := self }
  else
    let s1 : XCS S := { self with train_data :=
      { rows := train_X.shape.1, x_cols := train_X.shape.2, y_cols := train_Y.shape.2,
        x := train_X.data, y := train_Y.data } }
    let s2 : XCS S := if s1.pop_num = 0 then pop_init s1 else s1
    { error := none, self := xcsf_fit1 s2 shuffle }

/-- The method `XCS::fit` with training and test data. The functions `pop_init`
and `xcsf_fit2` are parameters acting on the object. -/
def XCS_fit2 {S : Type} (pop_init : XCS S → XCS S) (xcsf_fit2 : XCS S → Bool → XCS S)
    (self : XCS S) (train_X train_Y test_X test_Y : NDArray) (shuffle : Bool) : FitResult S :=
  if train_X.shape.1 ≠ train_Y.shape.1 then
    { error := some FitError.train_rows_not_equal, self := self }
  else if test_X.shape.1 ≠ test_Y.shape.1 then
    { error := some FitError.test_rows_not_equal, self := self }
  else if train_X.shape.2 ≠ test_X.shape.2 then
    { error := some FitError.x_cols_not_equal, self := self }
  else if train_Y.shape.2 ≠ test_Y.shape.2 then
    { error := some FitError.y_cols_not_equal, self := self }
  else
    let s1 : XCS S := { self with
      train_data :=
        { rows := train_X.shape.1, x_cols := train_X.shape.2, y_cols := train_Y.shape.2,
          x := train_X.data, y := train_Y.data },
      test_data :=
        { rows := test_X.shape.1, x_cols := test_X.shape.2, y_cols := test_Y.shape.2,
          x := test_X.data, y := test_Y.data } }
    let s2 : XCS S := if s1.pop_num = 0 then pop_init s1 else s1
    { error := none, self := xcsf_fit2 s2 shuffle }

/-! ## `main.c`: the trials and the driver loop -/

/-- The engine functions that the trials call; they are ghost-logged by name. -/
inductive EngineCall where
  | set_match
  | set_pred
  | set_update
  | ga
  | set_kill
  | set_free

/-- The functions of `cl_set.c` and `ga.c` that the trials call, as parameters
acting on the engine state `S` (population, match and kill sets). They read the
parameter record; `set_pred` also gives the system prediction it writes to its
output array. -/
structure EngineOps (S : Type) where
  set_match : XCSF → S → (Nat → ℚ) → S
  set_pred : XCSF → S → (Nat → ℚ) → S × (Nat → ℚ)
  set_update : XCSF → S → (Nat → ℚ) → (Nat → ℚ) → S
  ga : XCSF → S → S
  set_kill : XCSF → S → S
  set_free : XCSF → S → S

/-- The state a trial works on: the parameter record (with the counter `time`),
the engine state, and (a ghost) the log of the engine functions called. -/
structure TrialState (S : Type) where
  xcsf : XCSF
  engine : S
  calls : List EngineCall

/-- What a trial gives back: the returned error, the array `pred`, and the state
afterwards. -/
structure TrialResult (S : Type) where
  error : ℚ
  pred : Nat → ℚ
  state : TrialState S

/-- The last statements of both trials: the squared differences are summed
over the outputs and divided by `num_y_vars`. -/
def trial_error (xcsf : XCSF) (y pred : Nat → ℚ) : ℚ :=
  (List.range xcsf.num_y_vars.toNat).foldl
    (fun error i => error + (y i - pred i) * (y i - pred i)) 0 / (xcsf.num_y_vars : ℚ)

/-- The function `xcsf_learn_trial`. -/
def xcsf_learn_trial {S : Type} (ops : EngineOps S) (st : TrialState S) (x y : Nat → ℚ) :
    TrialResult S :=
  let e1 := ops.set_match st.xcsf st.engine x
  let r := ops.set_pred st.xcsf e1 x
  let e3 := ops.set_update st.xcsf r.1 x y
  let e4 := ops.ga st.xcsf e3
  let xcsf1 : XCSF := { st.xcsf with time := st.xcsf.time + 1 }
  let e5 := ops.set_kill xcsf1 e4
  let e6 := ops.set_free xcsf1 e5
  let calls := st.calls ++ [EngineCall.set_match, EngineCall.set_pred, EngineCall.set_update,
    EngineCall.ga, EngineCall.set_kill, EngineCall.set_free]
  { error := trial_error xcsf1 y r.2, pred := r.2,
    state := { xcsf := xcsf1, engine := e6, calls := calls } }

/-- The function `xcsf_test_trial`. -/
def xcsf_test_trial {S : Type} (ops : EngineOps S) (st : TrialState S) (x y : Nat → ℚ) :
    TrialResult S :=
  let e1 := ops.set_match st.xcsf st.engine x
  let r := ops.set_pred st.xcsf e1 x
  let e3 := ops.set_kill st.xcsf r.1
  let e4 := ops.set_free st.xcsf e3
  let calls := st.calls ++ [EngineCall.set_match, EngineCall.set_pred, EngineCall.set_kill,
    EngineCall.set_free]
  { error := trial_error st.xcsf y r.2, pred := r.2,
    state := { xcsf := st.xcsf, engine := e4, calls := calls } }

/-- The body of the loop of `xcsf_predict`, in the form `xcsf_predict` takes it:
the state afterwards and the system prediction of the row. -/
def xcsf_predict_row {S : Type} (ops : EngineOps S) (st : TrialState S) (x : Nat → ℚ) :
    TrialState S × (Nat → ℚ) :=
  let e1 := ops.set_match st.xcsf st.engine x
  let r := ops.set_pred st.xcsf e1 x
  let e3 := ops.set_kill st.xcsf r.1
  let e4 := ops.set_free st.xcsf e3
  let calls := st.calls ++ [EngineCall.set_match, EngineCall.set_pred, EngineCall.set_kill,
    EngineCall.set_free]
  ({ xcsf := st.xcsf, engine := e4, calls := calls }, r.2)

/-- The state of the source of random integers: the raw values to come and the
number of calls of `irand` so far. -/
structure IRng where
  draws : Nat → Int
  pos : Nat

/-- Modelled from the spec: the function `irand(min, max)` of `random.c`, which
is not among the sources. The random source gives uniform integers in
`[min, max)`: the next raw value is reduced into that range. -/
def irand (r : IRng) (min max : Int) : Int × IRng :=
  (min + r.draws r.pos % (max - min), { r with pos := r.pos + 1 })

/-- The locals of `xcsf_fit2` across its loop, with ghosts: the number of
`irand` calls made for the training row and for the test row, the rows chosen,
the errors of all trials, and the reports made (the counter `cnt` with the two
buffers as shown). -/
structure FitState (S : Type) where
  irng : IRng
  trial : TrialState S
  err : Nat → ℚ
  terr : Nat → ℚ
  pred : Nat → ℚ
  row : Int
  train_draws : Nat
  test_draws : Nat
  train_rows : List Int
  test_rows : List Int
  train_errors : List ℚ
  test_errors : List ℚ
  reports : List (Int × (Nat → ℚ) × (Nat → ℚ))

/-- The row `&data[row * cols]` of a flat array. -/
def row_ptr (data : Nat → ℚ) (row cols : Int) : Nat → ℚ :=
  fun i => data ((row * cols).toNat + i)

/-- One iteration of the loop of `xcsf_fit2`, for the counter value `cnt`. -/
def xcsf_fit2_step {S : Type} (ops : EngineOps S) (train_data test_data : INPUT)
    (shuffle : Bool) (s : FitState S) (cnt : Nat) : FitState S :=
  let xcsf := s.trial.xcsf
  let r1 : Int × IRng :=
    if shuffle then irand s.irng 0 train_data.rows
    else ((((cnt : Int).tmod train_data.rows) + train_data.rows).tmod train_data.rows, s.irng)
  let t := xcsf_learn_trial ops s.trial
    (row_ptr train_data.x r1.1 train_data.x_cols) (row_ptr train_data.y r1.1 train_data.y_cols)
  let err := Function.update s.err ((cnt : Int).tmod xcsf.PERF_AVG_TRIALS).toNat t.error
  let r2 : Int × IRng := irand r1.2 0 test_data.rows
  let r3 : Int × IRng :=
    if shuffle then irand r2.2 0 test_data.rows
    else ((((cnt : Int).tmod test_data.rows) + test_data.rows).tmod test_data.rows, r2.2)
  let tt := xcsf_test_trial ops t.state
    (row_ptr test_data.x r3.1 test_data.x_cols) (row_ptr test_data.y r3.1 test_data.y_cols)
  let terr := Function.update s.terr ((cnt : Int).tmod xcsf.PERF_AVG_TRIALS).toNat tt.error
  { irng := r3.2, trial := tt.state, err := err, terr := terr, pred := tt.pred, row := r3.1,
    train_draws := s.train_draws + (if shuffle then 1 else 0),
    test_draws := s.test_draws + 1 + (if shuffle then 1 else 0),
    train_rows := s.train_rows ++ [r1.1],
    test_rows := s.test_rows ++ [r3.1],
    train_errors := s.train_errors ++ [t.error],
    test_errors := s.test_errors ++ [tt.error],
    reports :=
      if (cnt : Int).tmod xcsf.PERF_AVG_TRIALS = 0 ∧ (cnt : Int) > 0 then
        s.reports ++ [((cnt : Int), err, terr)]
      else s.reports }

/-- The function `xcsf_fit2`; `s` holds the state at entry (fresh buffers, row
`0`, empty ghosts). -/
def xcsf_fit2 {S : Type} (ops : EngineOps S) (train_data test_data : INPUT) (shuffle : Bool)
    (s : FitState S) : FitState S :=
  (List.range s.trial.xcsf.MAX_TRIALS.toNat).foldl
    (xcsf_fit2_step ops train_data test_data shuffle) s

/-- The locals of `xcsf_fit1` across its loop, with ghosts: the number of
`irand` calls made, the rows chosen, the errors of all trials, and the reports
made (the counter `cnt` with the buffer as shown). -/
structure Fit1State (S : Type) where
  irng : IRng
  trial : TrialState S
  err : Nat → ℚ
  pred : Nat → ℚ
  row : Int
  train_draws : Nat
  train_rows : List Int
  train_errors : List ℚ
  reports : List (Int × (Nat → ℚ))

/-- One iteration of the loop of `xcsf_fit1`, for the counter value `cnt`. -/
def xcsf_fit1_step {S : Type} (ops : EngineOps S) (train_data : INPUT)
    (shuffle : Bool) (s : Fit1State S) (cnt : Nat) : Fit1State S :=
  let xcsf := s.trial.xcsf
  let r1 : Int × IRng :=
    if shuffle then irand s.irng 0 train_data.rows
    else ((((cnt : Int).tmod train_data.rows) + train_data.rows).tmod train_data.rows, s.irng)
  let t := xcsf_learn_trial ops s.trial
    (row_ptr train_data.x r1.1 train_data.x_cols) (row_ptr train_data.y r1.1 train_data.y_cols)
  let err := Function.update s.err ((cnt : Int).tmod xcsf.PERF_AVG_TRIALS).toNat t.error
  { irng := r1.2, trial := t.state, err := err, pred := t.pred, row := r1.1,
    train_draws := s.train_draws + (if shuffle then 1 else 0),
    train_rows := s.train_rows ++ [r1.1],
    train_errors := s.train_errors ++ [t.error],
    reports :=
      if (cnt : Int).tmod xcsf.PERF_AVG_TRIALS = 0 ∧ (cnt : Int) > 0 then
        s.reports ++ [((cnt : Int), err)]
      else s.reports }

/-- The function `xcsf_fit1`; `s` holds the state at entry (fresh buffers, row
`0`, empty ghosts). -/
def xcsf_fit1 {S : Type} (ops : EngineOps S) (train_data : INPUT) (shuffle : Bool)
    (s : Fit1State S) : Fit1State S :=
  (List.range s.trial.xcsf.MAX_TRIALS.toNat).foldl (xcsf_fit1_step ops train_data shuffle) s

/-! ## Crossover, dimension by dimension -/

/-- What crossover leaves in one dimension of a condition `own` crossed with
`other`, when the draw for the lower bounds is `d1` and the draw for the upper
bounds is `d2`: a bound is the other condition's when its draw is below `1/2`,
and the pair then goes through `cond_rectangle_bounds`. -/
def crossover_pair (xcsf : XCSF) (own other : COND_RECTANGLE) (d1 d2 : ℚ) (i : Nat) : ℚ × ℚ :=
  cond_rectangle_bounds xcsf
    (if d1 < 1 / 2 then other.lower i else own.lower i)
    (if d2 < 1 / 2 then other.upper i else own.upper i)

/-! ## The feature vector of the specification -/

/-- The pairs `(i, j)` with `j` from `i` to `d - 1`, for the rows `i` listed. -/
def quad_pairs_from (d : Nat) : List Nat → List (Nat × Nat)
  | [] => []
  | i :: rest => (List.range' i (d - i)).map (fun j => (i, j)) ++ quad_pairs_from d rest

/-- The pairs `(i, j)`, `i ≤ j < d`, row by row: `(0,0), (0,1), …, (1,1), …`. -/
def quad_pairs (d : Nat) : List (Nat × Nat) :=
  quad_pairs_from d (List.range d)

/-- The feature vector `φ(x)`: `X0`, then `x[0], …, x[d-1]`, then, when
`PRED_TYPE = 1`, the products `x[i]·x[j]` over `quad_pairs d`. -/
def nlms_features (xcsf : XCSF) (x : Nat → ℚ) : List ℚ :=
  xcsf.XCSF_X0 :: ((List.range xcsf.num_x_vars.toNat).map x ++
    (if xcsf.PRED_TYPE = 1 then
      (quad_pairs xcsf.num_x_vars.toNat).map (fun p => x p.1 * x p.2)
    else []))

/-- One step of a running dot product: the weight at the running index times
the feature `f` is added, the index advances and is recorded. -/
def dot_step (w : Nat → ℚ) (s : ComputeState) (f : ℚ) : ComputeState :=
  { pre := s.pre + w s.index * f, index := s.index + 1, visited := s.visited ++ [s.index] }

/-- One step of a running weight correction: the weight at the running index
grows by `c` times the feature `f`, the index advances and is recorded. -/
def upd_step (c : ℚ) (s : UpdateState) (f : ℚ) : UpdateState :=
  { weights := Function.update s.weights s.index (s.weights s.index + c * f),
    index := s.index + 1, visited := s.visited ++ [s.index] }

/-- The pairs `(i, j)` with `i < j < d`, for the rows `i` listed. -/
def mixed_pairs_from (d : Nat) : List Nat → List (Nat × Nat)
  | [] => []
  | i :: rest =>
    (List.range' (i + 1) (d - (i + 1))).map (fun j => (i, j)) ++ mixed_pairs_from d rest

/-- The quadratic feature list in the order the specification words it: `X0`,
then `x[0], …, x[d-1]`, then the squared diagonal `x[0]², …, x[d-1]²`, then the
mixed products `x[i]·x[j]` for `i < j`. -/
def nlms_features_diag_first (xcsf : XCSF) (x : Nat → ℚ) : List ℚ :=
  xcsf.XCSF_X0 :: ((List.range xcsf.num_x_vars.toNat).map x ++
    ((List.range xcsf.num_x_vars.toNat).map (fun i => x i * x i) ++
      (mixed_pairs_from xcsf.num_x_vars.toNat (List.range xcsf.num_x_vars.toNat)).map
        (fun p => x p.1 * x p.2)))

/-! ## The recursive least squares recursion of the specification -/

/-- Entry `(r, c)` of the flat array `matrix` read as an `L×L` row-major matrix. -/
def rls_entry (L : Nat) (matrix : Nat → ℚ) (r c : Nat) : ℚ :=
  matrix (r * L + c)

/-- The gain vector of the specification, `k = P·φ / (RLS_LAMBDA + φᵀ·P·φ)`,
with `P` the `L×L` row-major reading of `matrix`. -/
def rls_gain_spec (L : Nat) (matrix phi : Nat → ℚ) (i : Nat) : ℚ :=
  (∑ j in Finset.range L, rls_entry L matrix i j * phi j) /
    (RLS_LAMBDA +
      ∑ r in Finset.range L, ∑ c in Finset.range L, phi r * rls_entry L matrix r c * phi c)

/-! ## Concrete inputs -/

/-- A parameter record with one input and one output variable, the legal range
`[0, 1]` and the usual default rates. -/
def xcsf_unit : XCSF :=
  { num_x_vars := 1, num_y_vars := 1, MIN_CON := 0, MAX_CON := 1,
    P_CROSSOVER := 4 / 5, P_MUTATION := 1 / 25, S_MUTATION := 1 / 10,
    NUM_SAM := 0, PRED_TYPE := 0, XCSF_X0 := 1, XCSF_ETA := 1 / 10 }

/-- The condition whose interval is `(l, u)` in every dimension. -/
def rect (l u : ℚ) : COND_RECTANGLE :=
  { lower := fun _ => l, upper := fun _ => u, m := false, mu := fun _ => 0 }

/-- The random source that returns `v` at every draw. -/
def rng_const (v : ℚ) : Rng :=
  { draws := fun _ => v, pos := 0 }

/-- A stand-in for `sam_adapt` that leaves the rates and the source as they are. -/
def sam_adapt_id (_xcsf : XCSF) (mu : Nat → ℚ) (rng : Rng) : (Nat → ℚ) × Rng :=
  (mu, rng)

/-- A parameter record with two inputs, one output and quadratic features. -/
def xcsf_quad : XCSF :=
  { xcsf_unit with num_x_vars := 2, PRED_TYPE := 1 }

/-- A parameter record whose offset input `XCSF_X0` is zero. -/
def xcsf_x0_zero : XCSF :=
  { xcsf_unit with XCSF_X0 := 0 }

/-- A predictor whose weight `k` is `k + 1` in every row and whose cached
prediction is zero. -/
def pred_sample : PRED_NLMS :=
  { weights_length := 6, weights := fun _ k => (k : ℚ) + 1, pre := fun _ => 0 }

/-- The input `[2, 3, 4, …]`. -/
def x_sample : Nat → ℚ :=
  fun i => (i : ℚ) + 2

/-- A condition with bounds `i` and `i + 1` in dimension `i`. -/
def cond_sample : COND_RECTANGLE :=
  { lower := fun i => (i : ℚ), upper := fun i => (i : ℚ) + 1, m := true, mu := fun _ => 1 / 2 }

/-- The RLS build with one input and linear features. -/
def rls_cons1 : RLS_CONS :=
  { state_length := 1, XCSF_X0 := 1, QUADRATIC := false }

/-- The RLS build with two inputs and linear features. -/
def rls_cons2 : RLS_CONS :=
  { state_length := 2, XCSF_X0 := 1, QUADRATIC := false }

/-- The RLS build with two inputs and quadratic features. -/
def rls_cons2q : RLS_CONS :=
  { state_length := 2, XCSF_X0 := 1, QUADRATIC := true }

/-- Scratch arrays filled with zeros. -/
def rls_tmp_zero : RLS_TMP :=
  { tmp_input := fun _ => 0, tmp_vec := fun _ => 0, tmp_matrix1 := fun _ => 0,
    tmp_matrix2 := fun _ => 0 }

/-- A predictor for one input: zero weights and the `2×2` row-major gain matrix
`1000·I`. -/
def rls_pred_id2 : PRED :=
  { weights_length := 2, weights := fun _ => 0,
    matrix := fun i => if i = 0 ∨ i = 3 then 1000 else 0, pre := 0 }

/-- A predictor for two inputs: zero weights and the `3×3` row-major gain matrix
`1000·I`. -/
def rls_pred_id3 : PRED :=
  { weights_length := 3, weights := fun _ => 0,
    matrix := fun i => if i % 4 = 0 then 1000 else 0, pre := 0 }

/-- A predictor for one input whose gain array starts with `-3`. -/
def rls_pred_neg : PRED :=
  { weights_length := 2, weights := fun _ => 0,
    matrix := fun i => if i = 0 then -3 else 0, pre := 0 }

/-- An RLS predictor whose only non-zero weight is weight `4`. -/
def rls_pred_unit4 : PRED :=
  { weights_length := 6, weights := fun k => if k = 4 then 1 else 0,
    matrix := fun _ => 0, pre := 0 }

/-- A parameter record with one input and two outputs. -/
def xcsf_two_out : XCSF :=
  { xcsf_unit with num_y_vars := 2 }

/-- A stand-in for the match-and-predict step of the engine: on the input row
`x` the system prediction is `[10·x[0], 10·x[0] + 1, …]`. -/
def predict_row_sample (st : Unit) (x : Nat → ℚ) : Unit × (Nat → ℚ) :=
  (st, fun v => 10 * x 0 + (v : ℚ))

/-- The `2×1` input array with the rows `[0]` and `[1]`. -/
def ndarray_two_rows : NDArray :=
  { data := fun i => (i : ℚ), shape := (2, 1), strides := (8, 8) }

/-- A parameter record with two self-adaptive rates. -/
def xcsf_sam2 : XCSF :=
  { xcsf_unit with NUM_SAM := 2 }

/-- A stand-in for `sam_adapt` that sets every rate to `1/2`. -/
def sam_adapt_half (_xcsf : XCSF) (_mu : Nat → ℚ) (rng : Rng) : (Nat → ℚ) × Rng :=
  (fun _ => 1 / 2, rng)

/-- A stand-in for `tree_mutation` on a tree without content. -/
def tree_mutation_unit (_xcsf : XCSF) (t : Unit) (_rate : ℚ) (rng : Rng) : Unit × Rng :=
  (t, rng)

/-- A wrapper object with one declared input and output, an empty population
and no data loaded. -/
def xcs_object : XCS Unit :=
  { xcs := xcsf_unit, pop_num := 0, engine := (),
    train_data := { rows := 0, x_cols := 0, y_cols := 0, x := fun _ => 0, y := fun _ => 0 },
    test_data := { rows := 0, x_cols := 0, y_cols := 0, x := fun _ => 0, y := fun _ => 0 } }

/-- An array of zeros with the given shape. -/
def ndarray_zeros (rows cols : Int) : NDArray :=
  { data := fun _ => 0, shape := (rows, cols), strides := (cols * 8, 8) }

/-- An NLMS predictor whose only non-zero weight is weight `4` of every row. -/
def pred_unit4 : PRED_NLMS :=
  { weights_length := 6, weights := fun _ k => if k = 4 then 1 else 0, pre := fun _ => 0 }

/-- A stand-in for `tree_rand`: the new tree holds the next draw as its
content. -/
def tree_rand_sample (_xcsf : XCSF) (rng : Rng) : GP_TREE ℚ × Rng :=
  ({ code := (drand rng).1, p := 7 }, (drand rng).2)

/-- A stand-in for `tree_eval`: the value of a tree is its content, and the
evaluation advances the position. -/
def tree_eval_sample (_xcsf : XCSF) (t : GP_TREE ℚ) (_state : Nat → ℚ) : ℚ × GP_TREE ℚ :=
  (t.code, { t with p := t.p + 1 })

/-- The random source whose first draw is `0` and whose later draws are `1`. -/
def rng_zero_then_one : Rng :=
  { draws := fun n => if n = 0 then 0 else 1, pos := 0 }

/-- A tree condition whose tree holds `0`. -/
def cond_gp_sample : COND_GP (GP_TREE ℚ) :=
  { gp := { code := 0, p := 3 }, m := false, mu := fun _ => 0 }

/-- Stand-ins for the engine functions: they leave the (empty) engine state as
it is, and the system prediction for the row `x` is `[10·x[0], 10·x[0] + 1, …]`. -/
def engine_ops_sample : EngineOps Unit :=
  { set_match := fun _ s _ => s
    set_pred := fun _ s x => (s, fun v => 10 * x 0 + (v : ℚ))
    set_update := fun _ s _ _ => s
    ga := fun _ s => s
    set_kill := fun _ s => s
    set_free := fun _ s => s }

/-- A parameter record for a run of one trial. -/
def xcsf_one_trial : XCSF :=
  { xcsf_unit with MAX_TRIALS := 1, PERF_AVG_TRIALS := 1 }

/-- A data set of three rows, `x = [i]` and `y = [2·i + 1]` in row `i`. -/
def input_sample : INPUT :=
  { rows := 3, x_cols := 1, y_cols := 1, x := fun i => (i : ℚ), y := fun i => 2 * (i : ℚ) + 1 }

/-- The state of `xcsf_fit2` at entry for a run of one trial; the raw random
integers to come are `5, 7, 9, 0, 0, …`. -/
def fit_state_sample : FitState Unit :=
  { irng := { draws := fun n => [5, 7, 9].getD n 0, pos := 0 }
    trial := { xcsf := xcsf_one_trial, engine := (), calls := [] }
    err := fun _ => 0
    terr := fun _ => 0
    pred := fun _ => 0
    row := 0
    train_draws := 0
    test_draws := 0
    train_rows := []
    test_rows := []
    train_errors := []
    test_errors := []
    reports := [] }

/-- The state of a trial at the start: the parameter record `xcsf_unit`, an
empty engine state and an empty log. -/
def trial_state_sample : TrialState Unit :=
  { xcsf := xcsf_unit, engine := (), calls := [] }

/-- A parameter record for a run of five trials with a window of two. -/
def xcsf_five_trials : XCSF :=
  { xcsf_unit with MAX_TRIALS := 5, PERF_AVG_TRIALS := 2 }

/-- The state of `xcsf_fit2` at entry for a run of five trials. -/
def fit_state_five : FitState Unit :=
  { fit_state_sample with trial := { xcsf := xcsf_five_trials, engine := (), calls := [] } }

/-- The state of `xcsf_fit1` at entry for a run of five trials. -/
def fit1_state_five : Fit1State Unit :=
  { irng := { draws := fun n => [5, 7, 9].getD n 0, pos := 0 }
    trial := { xcsf := xcsf_five_trials, engine := (), calls := [] }
    err := fun _ => 0
    pred := fun _ => 0
    row := 0
    train_draws := 0
    train_rows := []
    train_errors := []
    reports := [] }

/-- The `2×2` identity matrix as a row-major array. -/
def matrix_id2 : Nat → ℚ :=
  fun i => if i = 0 ∨ i = 3 then 1 else 0

/-- A parameter record with quadratic features and `46342` inputs, the least
number for which `num_x_vars * (num_x_vars - 1)` exceeds `INT_MAX`. -/
def xcsf_quad_large : XCSF :=
  { xcsf_quad with num_x_vars := 46342 }

/-! ## Theorems -/

theorem cond_rectangle_match_loop_iff (cond : COND_RECTANGLE) (x : Nat → ℚ) (l : List Nat) :
    cond_rectangle_match_loop cond x l = true ↔
      ∀ i ∈ l, cond.lower i ≤ x i ∧ x i ≤ cond.upper i := by
  induction l with
  | nil => simp [cond_rectangle_match_loop]
  | cons j rest ih =>
    by_cases h : cond.lower j > x j ∨ cond.upper j < x j
    · simp only [cond_rectangle_match_loop, if_pos h, List.mem_cons, forall_eq_or_imp]
      constructor
      · intro hf
        exact absurd hf (by decide)
      · rintro ⟨⟨h1, h2⟩, -⟩
        rcases h with h | h
        · exact absurd h1 (not_le.mpr h)
        · exact absurd h2 (not_le.mpr h)
    · simp only [cond_rectangle_match_loop, if_neg h, List.mem_cons, forall_eq_or_imp, ih]
      have h' : cond.lower j ≤ x j ∧ x j ≤ cond.upper j := by
        constructor
        · exact not_lt.mp (fun hh => h (Or.inl hh))
        · exact not_lt.mp (fun hh => h (Or.inr hh))
      exact ⟨fun hr => ⟨h', hr⟩, fun hr => hr.2⟩

theorem cond_rectangle_match_fst_iff (xcsf : XCSF) (cond : COND_RECTANGLE) (x : Nat → ℚ) :
    (cond_rectangle_match xcsf cond x).1 = true ↔
      ∀ i : Nat, (i : Int) < xcsf.num_x_vars → cond.lower i ≤ x i ∧ x i ≤ cond.upper i := by
  have hmem : ∀ i : Nat, i ∈ List.range xcsf.num_x_vars.toNat ↔ (i : Int) < xcsf.num_x_vars := by
    intro i
    rw [List.mem_range]
    omega
  unfold cond_rectangle_match
  split
  · rename_i h
    simp only [true_iff]
    intro i hi
    exact (cond_rectangle_match_loop_iff cond x _).mp h i ((hmem i).mpr hi)
  · rename_i h
    simp only [Bool.false_eq_true, false_iff]
    intro hall
    exact h ((cond_rectangle_match_loop_iff cond x _).mpr (fun i hi => hall i ((hmem i).mp hi)))

/-- C1: `cond_rectangle_match` returns true exactly when every dimension
`i < num_x_vars` has `lower[i] ≤ x[i] ≤ upper[i]`; the returned boolean is the
one stored in the match flag, so `cond_rectangle_match_state` on the resulting
condition returns it again, and the bounds are not touched. -/
theorem C1_match_iff_and_cached (xcsf : XCSF) (cond : COND_RECTANGLE) (x : Nat → ℚ) :
    ((cond_rectangle_match xcsf cond x).1 = true ↔
      ∀ i : Nat, (i : Int) < xcsf.num_x_vars → cond.lower i ≤ x i ∧ x i ≤ cond.upper i) ∧
    (cond_rectangle_match xcsf cond x).2.m = (cond_rectangle_match xcsf cond x).1 ∧
    cond_rectangle_match_state xcsf (cond_rectangle_match xcsf cond x).2 =
      (cond_rectangle_match xcsf cond x).1 ∧
    (cond_rectangle_match xcsf cond x).2.lower = cond.lower ∧
    (cond_rectangle_match xcsf cond x).2.upper = cond.upper := by
  refine ⟨cond_rectangle_match_fst_iff xcsf cond x, ?_, ?_, ?_, ?_⟩ <;>
    (simp only [cond_rectangle_match, cond_rectangle_match_state]; split <;> rfl)

/-! ### The bounds law -/

theorem cond_rectangle_bounds_spec (xcsf : XCSF) (h : xcsf.MIN_CON ≤ xcsf.MAX_CON) (l u : ℚ) :
    xcsf.MIN_CON ≤ (cond_rectangle_bounds xcsf l u).1 ∧
    (cond_rectangle_bounds xcsf l u).1 ≤ (cond_rectangle_bounds xcsf l u).2 ∧
    (cond_rectangle_bounds xcsf l u).2 ≤ xcsf.MAX_CON := by
  unfold cond_rectangle_bounds
  dsimp only
  split_ifs <;> refine ⟨?_, ?_, ?_⟩ <;> linarith

theorem cond_rectangle_bounds_at_same (xcsf : XCSF) (cond : COND_RECTANGLE) (i : Nat) :
    (cond_rectangle_bounds_at xcsf cond i).lower i =
      (cond_rectangle_bounds xcsf (cond.lower i) (cond.upper i)).1 ∧
    (cond_rectangle_bounds_at xcsf cond i).upper i =
      (cond_rectangle_bounds xcsf (cond.lower i) (cond.upper i)).2 := by
  simp [cond_rectangle_bounds_at]

theorem cond_rectangle_bounds_at_other (xcsf : XCSF) (cond : COND_RECTANGLE) (i j : Nat)
    (hji : j ≠ i) :
    (cond_rectangle_bounds_at xcsf cond i).lower j = cond.lower j ∧
    (cond_rectangle_bounds_at xcsf cond i).upper j = cond.upper j := by
  simp [cond_rectangle_bounds_at, Function.update_noteq hji]

/-- The interval of dimension `j` lies inside `[MIN_CON, MAX_CON]` and is not
inverted. -/
theorem cond_rectangle_bounds_at_ok (xcsf : XCSF) (h : xcsf.MIN_CON ≤ xcsf.MAX_CON)
    (cond : COND_RECTANGLE) (i j : Nat)
    (hj : j ≠ i → xcsf.MIN_CON ≤ cond.lower j ∧ cond.lower j ≤ cond.upper j ∧
      cond.upper j ≤ xcsf.MAX_CON) :
    xcsf.MIN_CON ≤ (cond_rectangle_bounds_at xcsf cond i).lower j ∧
    (cond_rectangle_bounds_at xcsf cond i).lower j ≤ (cond_rectangle_bounds_at xcsf cond i).upper j ∧
    (cond_rectangle_bounds_at xcsf cond i).upper j ≤ xcsf.MAX_CON := by
  by_cases hji : j = i
  · subst hji
    rw [(cond_rectangle_bounds_at_same xcsf cond j).1, (cond_rectangle_bounds_at_same xcsf cond j).2]
    exact cond_rectangle_bounds_spec xcsf h _ _
  · rw [(cond_rectangle_bounds_at_other xcsf cond i j hji).1,
      (cond_rectangle_bounds_at_other xcsf cond i j hji).2]
    exact hj hji

/-- A loop whose iteration `i` establishes `Q` at `i` and keeps `Q` wherever it
held establishes `Q` at every index it visits. -/
theorem foldl_establishes {σ : Type} (f : σ → Nat → σ) (Q : σ → Nat → Prop)
    (hest : ∀ s i, Q (f s i) i) (hpres : ∀ s i j, Q s j → Q (f s i) j) :
    ∀ (l : List Nat) (s : σ), ∀ j ∈ l, Q (l.foldl f s) j := by
  have keep : ∀ (l : List Nat) (s : σ) (j : Nat), Q s j → Q (l.foldl f s) j := by
    intro l
    induction l with
    | nil => intro s j hq; exact hq
    | cons a rest ih => intro s j hq; exact ih (f s a) j (hpres s a j hq)
  intro l
  induction l with
  | nil => intro s j hj; exact absurd hj (List.not_mem_nil j)
  | cons a rest ih =>
    intro s j hj
    rcases List.mem_cons.mp hj with hja | hjr
    · subst hja
      exact keep rest (f s j) j (hest s j)
    · exact ih (f s a) j hjr

theorem mem_range_toNat (n : Int) (i : Nat) : i ∈ List.range n.toNat ↔ (i : Int) < n := by
  rw [List.mem_range]
  omega

theorem boundedAt_bounds_at (xcsf : XCSF) (h : xcsf.MIN_CON ≤ xcsf.MAX_CON)
    (cond : COND_RECTANGLE) (i j : Nat) (hj : j ≠ i → BoundedAt xcsf cond j) :
    BoundedAt xcsf (cond_rectangle_bounds_at xcsf cond i) j :=
  cond_rectangle_bounds_at_ok xcsf h cond i j hj

theorem rectBounded_of_range (xcsf : XCSF) (cond : COND_RECTANGLE)
    (h : ∀ j ∈ List.range xcsf.num_x_vars.toNat, BoundedAt xcsf cond j) :
    RectBounded xcsf cond :=
  fun i hi => h i ((mem_range_toNat _ i).mpr hi)

theorem rand_step_bounded (xcsf : XCSF) (h : xcsf.MIN_CON ≤ xcsf.MAX_CON)
    (s : COND_RECTANGLE × Rng) (i j : Nat) (hj : j ≠ i → BoundedAt xcsf s.1 j) :
    BoundedAt xcsf (cond_rectangle_rand_step xcsf s i).1 j := by
  unfold cond_rectangle_rand_step
  apply boundedAt_bounds_at xcsf h
  intro hji
  have := hj hji
  simpa [BoundedAt, Function.update_noteq hji] using this

theorem cover_step_bounded (xcsf : XCSF) (h : xcsf.MIN_CON ≤ xcsf.MAX_CON) (x : Nat → ℚ)
    (s : COND_RECTANGLE × Rng) (i j : Nat) (hj : j ≠ i → BoundedAt xcsf s.1 j) :
    BoundedAt xcsf (cond_rectangle_cover_step xcsf x s i).1 j := by
  unfold cond_rectangle_cover_step
  apply boundedAt_bounds_at xcsf h
  intro hji
  have := hj hji
  simpa [BoundedAt, Function.update_noteq hji] using this

theorem mutate_step_bounded (xcsf1 xcsf : XCSF) (hmin : xcsf1.MIN_CON = xcsf.MIN_CON)
    (hmax : xcsf1.MAX_CON = xcsf.MAX_CON) (h : xcsf.MIN_CON ≤ xcsf.MAX_CON) (step : ℚ)
    (s : MutateState) (i j : Nat) (hj : j ≠ i → BoundedAt xcsf s.cond j) :
    BoundedAt xcsf (cond_rectangle_mutate_step xcsf1 step s i).cond j := by
  have key : ∀ c : COND_RECTANGLE, (j ≠ i → BoundedAt xcsf c j) →
      BoundedAt xcsf (cond_rectangle_bounds_at xcsf1 c i) j := by
    intro c hc
    have h1 : xcsf1.MIN_CON ≤ xcsf1.MAX_CON := by rw [hmin, hmax]; exact h
    have := boundedAt_bounds_at xcsf1 h1 c i j (by
      intro hji
      have := hc hji
      simpa [BoundedAt, hmin, hmax] using this)
    simpa [BoundedAt, hmin, hmax] using this
  unfold cond_rectangle_mutate_step
  apply key
  intro hji
  have := hj hji
  dsimp only [drand]
  split_ifs <;> simpa [BoundedAt, Function.update_noteq hji] using this

theorem crossover_step_bounded (xcsf : XCSF) (h : xcsf.MIN_CON ≤ xcsf.MAX_CON)
    (s : CrossoverState) (i j : Nat)
    (hj : j ≠ i → BoundedAt xcsf s.cond1 j ∧ BoundedAt xcsf s.cond2 j) :
    BoundedAt xcsf (cond_rectangle_crossover_step xcsf s i).cond1 j ∧
    BoundedAt xcsf (cond_rectangle_crossover_step xcsf s i).cond2 j := by
  unfold cond_rectangle_crossover_step
  dsimp only [drand]
  constructor
  · apply boundedAt_bounds_at xcsf h
    intro hji
    have := (hj hji).1
    split_ifs <;> simpa [BoundedAt, Function.update_noteq hji] using this
  · apply boundedAt_bounds_at xcsf h
    intro hji
    have := (hj hji).2
    split_ifs <;> simpa [BoundedAt, Function.update_noteq hji] using this

theorem cond_rectangle_rand_bounded (xcsf : XCSF) (h : xcsf.MIN_CON ≤ xcsf.MAX_CON)
    (cond : COND_RECTANGLE) (rng : Rng) :
    RectBounded xcsf (cond_rectangle_rand xcsf cond rng).1 := by
  apply rectBounded_of_range
  exact foldl_establishes (cond_rectangle_rand_step xcsf) (fun s j => BoundedAt xcsf s.1 j)
    (fun s i => rand_step_bounded xcsf h s i i (fun hne => absurd rfl hne))
    (fun s i j hq => rand_step_bounded xcsf h s i j (fun _ => hq)) _ (cond, rng)

theorem cond_rectangle_cover_bounded (xcsf : XCSF) (h : xcsf.MIN_CON ≤ xcsf.MAX_CON)
    (cond : COND_RECTANGLE) (x : Nat → ℚ) (rng : Rng) :
    RectBounded xcsf (cond_rectangle_cover xcsf cond x rng).1 := by
  apply rectBounded_of_range
  exact foldl_establishes (cond_rectangle_cover_step xcsf x) (fun s j => BoundedAt xcsf s.1 j)
    (fun s i => cover_step_bounded xcsf h x s i i (fun hne => absurd rfl hne))
    (fun s i j hq => cover_step_bounded xcsf h x s i j (fun _ => hq)) _ (cond, rng)

theorem cond_rectangle_mutate_loop_bounded (xcsf1 xcsf : XCSF)
    (hn : xcsf1.num_x_vars = xcsf.num_x_vars) (hmin : xcsf1.MIN_CON = xcsf.MIN_CON)
    (hmax : xcsf1.MAX_CON = xcsf.MAX_CON) (h : xcsf.MIN_CON ≤ xcsf.MAX_CON) (step : ℚ)
    (cond : COND_RECTANGLE) (rng : Rng) :
    RectBounded xcsf (cond_rectangle_mutate_loop xcsf1 step cond rng).cond := by
  apply rectBounded_of_range
  unfold cond_rectangle_mutate_loop
  dsimp only
  rw [hn]
  exact foldl_establishes (cond_rectangle_mutate_step xcsf1 step)
    (fun s j => BoundedAt xcsf s.cond j)
    (fun s i => mutate_step_bounded xcsf1 xcsf hmin hmax h step s i i (fun hne => absurd rfl hne))
    (fun s i j hq => mutate_step_bounded xcsf1 xcsf hmin hmax h step s i j (fun _ => hq)) _ _

theorem cond_rectangle_mutate_bounded (sam_adapt : XCSF → (Nat → ℚ) → Rng → (Nat → ℚ) × Rng)
    (xcsf : XCSF) (h : xcsf.MIN_CON ≤ xcsf.MAX_CON) (cond : COND_RECTANGLE) (rng : Rng) :
    RectBounded xcsf (cond_rectangle_mutate sam_adapt xcsf cond rng).cond := by
  unfold cond_rectangle_mutate
  split
  · dsimp only
    refine cond_rectangle_mutate_loop_bounded _ xcsf ?_ ?_ ?_ h _ _ _ <;> rfl
  · refine cond_rectangle_mutate_loop_bounded _ xcsf ?_ ?_ ?_ h _ _ _ <;> rfl

theorem cond_rectangle_crossover_bounded (xcsf : XCSF) (h : xcsf.MIN_CON ≤ xcsf.MAX_CON)
    (cond1 cond2 : COND_RECTANGLE) (rng : Rng)
    (h1 : RectBounded xcsf cond1) (h2 : RectBounded xcsf cond2) :
    RectBounded xcsf (cond_rectangle_crossover xcsf cond1 cond2 rng).cond1 ∧
    RectBounded xcsf (cond_rectangle_crossover xcsf cond1 cond2 rng).cond2 := by
  unfold cond_rectangle_crossover
  dsimp only
  split_ifs
  · have key := foldl_establishes (cond_rectangle_crossover_step xcsf)
      (fun s j => BoundedAt xcsf s.cond1 j ∧ BoundedAt xcsf s.cond2 j)
      (fun s i => crossover_step_bounded xcsf h s i i (fun hne => absurd rfl hne))
      (fun s i j hq => crossover_step_bounded xcsf h s i j (fun _ => hq))
      (List.range xcsf.num_x_vars.toNat)
      { changed := false, cond1 := cond1, cond2 := cond2, rng := (drand rng).2 }
    exact ⟨rectBounded_of_range _ _ (fun j hj => (key j hj).1),
      rectBounded_of_range _ _ (fun j hj => (key j hj).2)⟩
  · exact ⟨h1, h2⟩

/-- C4: with `MIN_CON ≤ MAX_CON`, the bounds law (every dimension has
`MIN_CON ≤ lower[i] ≤ upper[i] ≤ MAX_CON`) holds after `cond_rectangle_rand` and
after `cond_rectangle_cover` for every starting condition, input and stream
of draws; it holds after `cond_rectangle_mutate` for the mutated condition
(whatever `sam_adapt` returns); and `cond_rectangle_crossover` keeps it
for both conditions. -/
theorem C4_bounds_law (sam_adapt : XCSF → (Nat → ℚ) → Rng → (Nat → ℚ) × Rng)
    (xcsf : XCSF) (h : xcsf.MIN_CON ≤ xcsf.MAX_CON) :
    (∀ (cond : COND_RECTANGLE) (rng : Rng),
      RectBounded xcsf (cond_rectangle_rand xcsf cond rng).1) ∧
    (∀ (cond : COND_RECTANGLE) (x : Nat → ℚ) (rng : Rng),
      RectBounded xcsf (cond_rectangle_cover xcsf cond x rng).1) ∧
    (∀ (cond : COND_RECTANGLE) (rng : Rng), RectBounded xcsf cond →
      RectBounded xcsf (cond_rectangle_mutate sam_adapt xcsf cond rng).cond) ∧
    (∀ (cond1 cond2 : COND_RECTANGLE) (rng : Rng),
      RectBounded xcsf cond1 → RectBounded xcsf cond2 →
      RectBounded xcsf (cond_rectangle_crossover xcsf cond1 cond2 rng).cond1 ∧
      RectBounded xcsf (cond_rectangle_crossover xcsf cond1 cond2 rng).cond2) :=
  ⟨cond_rectangle_rand_bounded xcsf h, cond_rectangle_cover_bounded xcsf h,
    fun cond rng _ => cond_rectangle_mutate_bounded sam_adapt xcsf h cond rng,
    fun cond1 cond2 rng => cond_rectangle_crossover_bounded xcsf h cond1 cond2 rng⟩

theorem rectBounded_rect (l u : ℚ) (h0 : 0 ≤ l) (hlu : l ≤ u) (h1 : u ≤ 1) :
    RectBounded xcsf_unit (rect l u) := by
  intro i _
  exact ⟨h0, hlu, h1⟩

/-- A concrete instance of C4: range `[0, 1]`, one dimension, every draw `1/2`;
the starting conditions of `rand` and `cover` are outside the range. -/
theorem C4_bounds_law_witness :
    xcsf_unit.MIN_CON ≤ xcsf_unit.MAX_CON ∧
    RectBounded xcsf_unit (cond_rectangle_rand xcsf_unit (rect 5 (-3)) (rng_const (1 / 2))).1 ∧
    RectBounded xcsf_unit
      (cond_rectangle_cover xcsf_unit (rect 5 (-3)) (fun _ => 2) (rng_const (1 / 2))).1 ∧
    RectBounded xcsf_unit
      (cond_rectangle_mutate sam_adapt_id xcsf_unit (rect 0 1) (rng_const 0)).cond ∧
    RectBounded xcsf_unit
      (cond_rectangle_crossover xcsf_unit (rect 0 1) (rect (1 / 4) (3 / 4)) (rng_const 0)).cond1 ∧
    RectBounded xcsf_unit
      (cond_rectangle_crossover xcsf_unit (rect 0 1) (rect (1 / 4) (3 / 4)) (rng_const 0)).cond2 :=
  have hle : xcsf_unit.MIN_CON ≤ xcsf_unit.MAX_CON := by norm_num [xcsf_unit]
  have key := C4_bounds_law sam_adapt_id xcsf_unit hle
  have ha : RectBounded xcsf_unit (rect 0 1) := rectBounded_rect 0 1 (by norm_num) (by norm_num)
    (by norm_num)
  have hb : RectBounded xcsf_unit (rect (1 / 4) (3 / 4)) :=
    rectBounded_rect (1 / 4) (3 / 4) (by norm_num) (by norm_num) (by norm_num)
  ⟨hle, key.1 _ _, key.2.1 _ _ _, key.2.2.1 _ _ ha,
    (key.2.2.2 _ _ (rng_const 0) ha hb).1, (key.2.2.2 _ _ (rng_const 0) ha hb).2⟩

/-! ### Generality -/

theorem cond_rectangle_general_loop_iff (cond1 cond2 : COND_RECTANGLE) (l : List Nat) :
    cond_rectangle_general_loop cond1 cond2 l = true ↔
      ∀ i ∈ l, cond1.lower i ≤ cond2.lower i ∧ cond2.upper i ≤ cond1.upper i := by
  induction l with
  | nil => simp [cond_rectangle_general_loop]
  | cons j rest ih =>
    by_cases h : cond1.lower j > cond2.lower j ∨ cond1.upper j < cond2.upper j
    · simp only [cond_rectangle_general_loop, if_pos h, List.mem_cons, forall_eq_or_imp]
      constructor
      · intro hf
        exact absurd hf (by decide)
      · rintro ⟨⟨h1, h2⟩, -⟩
        rcases h with h | h
        · exact absurd h1 (not_le.mpr h)
        · exact absurd h2 (not_le.mpr h)
    · simp only [cond_rectangle_general_loop, if_neg h, List.mem_cons, forall_eq_or_imp, ih]
      have h' : cond1.lower j ≤ cond2.lower j ∧ cond2.upper j ≤ cond1.upper j := by
        constructor
        · exact not_lt.mp (fun hh => h (Or.inl hh))
        · exact not_lt.mp (fun hh => h (Or.inr hh))
      exact ⟨fun hr => ⟨h', hr⟩, fun hr => hr.2⟩

theorem cond_rectangle_general_iff (xcsf : XCSF) (cond1 cond2 : COND_RECTANGLE) :
    cond_rectangle_general xcsf cond1 cond2 = true ↔
      ∀ i : Nat, (i : Int) < xcsf.num_x_vars →
        cond1.lower i ≤ cond2.lower i ∧ cond2.upper i ≤ cond1.upper i := by
  unfold cond_rectangle_general
  rw [cond_rectangle_general_loop_iff]
  exact ⟨fun hh i hi => hh i ((mem_range_toNat _ i).mpr hi),
    fun hh i hi => hh i ((mem_range_toNat _ i).mp hi)⟩

/-- C2: the generality law. If `cond_rectangle_general(a, b)` returns true, then
every input that `cond_rectangle_match` accepts for `b` is accepted for `a`. -/
theorem C2_generality_law (xcsf : XCSF) (a b : COND_RECTANGLE) (x : Nat → ℚ)
    (hg : cond_rectangle_general xcsf a b = true)
    (hb : (cond_rectangle_match xcsf b x).1 = true) :
    (cond_rectangle_match xcsf a x).1 = true := by
  rw [cond_rectangle_match_fst_iff] at hb ⊢
  rw [cond_rectangle_general_iff] at hg
  intro i hi
  exact ⟨le_trans (hg i hi).1 (hb i hi).1, le_trans (hb i hi).2 (hg i hi).2⟩

/-- A concrete instance of C2: `(0, 1)` is more general than `(1/4, 3/4)`, the
input `1/2` matches the second, and so it matches the first. -/
theorem C2_generality_law_witness :
    cond_rectangle_general xcsf_unit (rect 0 1) (rect (1 / 4) (3 / 4)) = true ∧
    (cond_rectangle_match xcsf_unit (rect (1 / 4) (3 / 4)) (fun _ => 1 / 2)).1 = true ∧
    (cond_rectangle_match xcsf_unit (rect 0 1) (fun _ => 1 / 2)).1 = true :=
  have hg : cond_rectangle_general xcsf_unit (rect 0 1) (rect (1 / 4) (3 / 4)) = true := by
    norm_num [cond_rectangle_general, cond_rectangle_general_loop, xcsf_unit, rect,
      List.range_succ]
  have hb : (cond_rectangle_match xcsf_unit (rect (1 / 4) (3 / 4)) (fun _ => 1 / 2)).1 = true := by
    norm_num [cond_rectangle_match, cond_rectangle_match_loop, xcsf_unit, rect,
      List.range_succ]
  ⟨hg, hb, C2_generality_law xcsf_unit (rect 0 1) (rect (1 / 4) (3 / 4)) (fun _ => 1 / 2) hg hb⟩

/-- C3: `cond_rectangle_general(a, b)` returns true exactly when every dimension
`i < num_x_vars` has `a.lower[i] ≤ b.lower[i]` and `a.upper[i] ≥ b.upper[i]`.
In one dimension, `(0, 1)` is general over `(1/4, 3/4)` and not the reverse. -/
theorem C3_general_iff (xcsf : XCSF) (a b : COND_RECTANGLE) :
    (cond_rectangle_general xcsf a b = true ↔
      ∀ i : Nat, (i : Int) < xcsf.num_x_vars →
        a.lower i ≤ b.lower i ∧ a.upper i ≥ b.upper i) ∧
    cond_rectangle_general xcsf_unit (rect 0 1) (rect (1 / 4) (3 / 4)) = true ∧
    cond_rectangle_general xcsf_unit (rect (1 / 4) (3 / 4)) (rect 0 1) = false := by
  refine ⟨cond_rectangle_general_iff xcsf a b, ?_, ?_⟩ <;>
    norm_num [cond_rectangle_general, cond_rectangle_general_loop, xcsf_unit, rect,
      List.range_succ]

/-! ### Covering -/

theorem cover_step_spec (xcsf : XCSF) (x : Nat → ℚ) (s : COND_RECTANGLE × Rng) (i : Nat) :
    (cond_rectangle_cover_step xcsf x s i).2.pos = s.2.pos + 2 ∧
    (cond_rectangle_cover_step xcsf x s i).2.draws = s.2.draws ∧
    (cond_rectangle_cover_step xcsf x s i).1.lower i =
      (cond_rectangle_bounds xcsf
        (x i - ((xcsf.MAX_CON - xcsf.MIN_CON) * s.2.draws s.2.pos * (1 / 2)))
        (x i + ((xcsf.MAX_CON - xcsf.MIN_CON) * s.2.draws (s.2.pos + 1) * (1 / 2)))).1 ∧
    (cond_rectangle_cover_step xcsf x s i).1.upper i =
      (cond_rectangle_bounds xcsf
        (x i - ((xcsf.MAX_CON - xcsf.MIN_CON) * s.2.draws s.2.pos * (1 / 2)))
        (x i + ((xcsf.MAX_CON - xcsf.MIN_CON) * s.2.draws (s.2.pos + 1) * (1 / 2)))).2 ∧
    ∀ j, j ≠ i → (cond_rectangle_cover_step xcsf x s i).1.lower j = s.1.lower j ∧
      (cond_rectangle_cover_step xcsf x s i).1.upper j = s.1.upper j := by
  refine ⟨rfl, rfl, ?_, ?_, ?_⟩
  · simp [cond_rectangle_cover_step, cond_rectangle_bounds_at, drand]
  · simp [cond_rectangle_cover_step, cond_rectangle_bounds_at, drand]
  · intro j hji
    simp [cond_rectangle_cover_step, cond_rectangle_bounds_at, Function.update_noteq hji]

/-- What the loop of `cond_rectangle_cover` has done after `k` iterations:
`2·k` draws are consumed and dimension `i < k` holds the bounds made from draws
`2·i` and `2·i + 1`. -/
theorem cover_fold_spec (xcsf : XCSF) (x : Nat → ℚ) (cond : COND_RECTANGLE) (rng : Rng) :
    ∀ k : Nat,
    ((List.range k).foldl (cond_rectangle_cover_step xcsf x) (cond, rng)).2.pos
      = rng.pos + 2 * k ∧
    ((List.range k).foldl (cond_rectangle_cover_step xcsf x) (cond, rng)).2.draws
      = rng.draws ∧
    ∀ i, i < k →
      ((List.range k).foldl (cond_rectangle_cover_step xcsf x) (cond, rng)).1.lower i =
        (cond_rectangle_bounds xcsf
          (x i - ((xcsf.MAX_CON - xcsf.MIN_CON) * rng.draws (rng.pos + 2 * i) * (1 / 2)))
          (x i + ((xcsf.MAX_CON - xcsf.MIN_CON) * rng.draws (rng.pos + 2 * i + 1) * (1 / 2)))).1 ∧
      ((List.range k).foldl (cond_rectangle_cover_step xcsf x) (cond, rng)).1.upper i =
        (cond_rectangle_bounds xcsf
          (x i - ((xcsf.MAX_CON - xcsf.MIN_CON) * rng.draws (rng.pos + 2 * i) * (1 / 2)))
          (x i + ((xcsf.MAX_CON - xcsf.MIN_CON) * rng.draws (rng.pos + 2 * i + 1) * (1 / 2)))).2 := by
  intro k
  induction k with
  | zero =>
    refine ⟨rfl, rfl, ?_⟩
    intro i hi
    exact absurd hi (Nat.not_lt_zero i)
  | succ k ih =>
    obtain ⟨hpos, hdraws, hval⟩ := ih
    rw [List.range_succ, List.foldl_append]
    simp only [List.foldl_cons, List.foldl_nil]
    obtain ⟨spos, sdraws, slow, sup, sother⟩ :=
      cover_step_spec xcsf x ((List.range k).foldl (cond_rectangle_cover_step xcsf x) (cond, rng)) k
    refine ⟨?_, ?_, ?_⟩
    · rw [spos, hpos]; ring
    · rw [sdraws, hdraws]
    · intro i hi
      by_cases hik : i = k
      · subst hik
        rw [slow, sup, hdraws, hpos]
        exact ⟨rfl, rfl⟩
      · have hlt : i < k := by omega
        rw [(sother i hik).1, (sother i hik).2]
        exact hval i hlt

theorem clamp_eq_max_min (lo hi a : ℚ) (h : lo ≤ hi) :
    (if a < lo then lo else if a > hi then hi else a) = max lo (min hi a) := by
  split_ifs with h1 h2
  · rw [max_eq_left]
    exact le_trans (min_le_right _ _) h1.le
  · rw [min_eq_left h2.le, max_eq_right h]
  · rw [min_eq_right (not_lt.mp h2), max_eq_right (not_lt.mp h1)]

/-- Inside the legal range, `cond_rectangle_bounds` only clamps: a lower value
at most `v` and an upper value at least `v` keep `v` between them. -/
theorem cond_rectangle_bounds_around (xcsf : XCSF) (l u v : ℚ)
    (hv : xcsf.MIN_CON ≤ v ∧ v ≤ xcsf.MAX_CON) (hl : l ≤ v) (hu : v ≤ u) :
    (cond_rectangle_bounds xcsf l u).1 = max xcsf.MIN_CON (min xcsf.MAX_CON l) ∧
    (cond_rectangle_bounds xcsf l u).2 = max xcsf.MIN_CON (min xcsf.MAX_CON u) ∧
    xcsf.MIN_CON ≤ (cond_rectangle_bounds xcsf l u).1 ∧
    (cond_rectangle_bounds xcsf l u).1 ≤ v ∧
    v ≤ (cond_rectangle_bounds xcsf l u).2 ∧
    (cond_rectangle_bounds xcsf l u).2 ≤ xcsf.MAX_CON := by
  obtain ⟨hv1, hv2⟩ := hv
  have hmm : xcsf.MIN_CON ≤ xcsf.MAX_CON := le_trans hv1 hv2
  have hL : max xcsf.MIN_CON (min xcsf.MAX_CON l) ≤ v :=
    max_le hv1 (le_trans (min_le_right _ _) hl)
  have hU : v ≤ max xcsf.MIN_CON (min xcsf.MAX_CON u) :=
    le_trans (le_min hv2 hu) (le_max_right _ _)
  have hU2 : max xcsf.MIN_CON (min xcsf.MAX_CON u) ≤ xcsf.MAX_CON :=
    max_le hmm (min_le_left _ _)
  unfold cond_rectangle_bounds
  dsimp only
  rw [clamp_eq_max_min _ _ l hmm, clamp_eq_max_min _ _ u hmm,
    if_neg (not_lt.mpr (le_trans hL hU))]
  exact ⟨rfl, rfl, le_max_left _ _, hL, hU, hU2⟩

/-- Covering an input inside the legal range with non-negative draws: every
dimension gets the clamped values around `x[i]`. -/
theorem cond_rectangle_cover_in_range (xcsf : XCSF) (cond : COND_RECTANGLE) (x : Nat → ℚ)
    (rng : Rng)
    (hx : ∀ i : Nat, (i : Int) < xcsf.num_x_vars → xcsf.MIN_CON ≤ x i ∧ x i ≤ xcsf.MAX_CON)
    (hd : ∀ k : Nat, 0 ≤ rng.draws k) (i : Nat) (hi : (i : Int) < xcsf.num_x_vars) :
    (cond_rectangle_cover xcsf cond x rng).1.lower i =
      max xcsf.MIN_CON (min xcsf.MAX_CON
        (x i - rng.draws (rng.pos + 2 * i) * ((xcsf.MAX_CON - xcsf.MIN_CON) / 2))) ∧
    (cond_rectangle_cover xcsf cond x rng).1.upper i =
      max xcsf.MIN_CON (min xcsf.MAX_CON
        (x i + rng.draws (rng.pos + 2 * i + 1) * ((xcsf.MAX_CON - xcsf.MIN_CON) / 2))) ∧
    xcsf.MIN_CON ≤ (cond_rectangle_cover xcsf cond x rng).1.lower i ∧
    (cond_rectangle_cover xcsf cond x rng).1.lower i ≤ x i ∧
    x i ≤ (cond_rectangle_cover xcsf cond x rng).1.upper i ∧
    (cond_rectangle_cover xcsf cond x rng).1.upper i ≤ xcsf.MAX_CON := by
  have hik : i < xcsf.num_x_vars.toNat := by omega
  obtain ⟨hlo, hup⟩ := (cover_fold_spec xcsf x cond rng xcsf.num_x_vars.toNat).2.2 i hik
  have hxi := hx i hi
  have hw : 0 ≤ xcsf.MAX_CON - xcsf.MIN_CON := by linarith [hxi.1, hxi.2]
  have e1 : (xcsf.MAX_CON - xcsf.MIN_CON) * rng.draws (rng.pos + 2 * i) * (1 / 2) =
      rng.draws (rng.pos + 2 * i) * ((xcsf.MAX_CON - xcsf.MIN_CON) / 2) := by ring
  have e2 : (xcsf.MAX_CON - xcsf.MIN_CON) * rng.draws (rng.pos + 2 * i + 1) * (1 / 2) =
      rng.draws (rng.pos + 2 * i + 1) * ((xcsf.MAX_CON - xcsf.MIN_CON) / 2) := by ring
  have p1 : 0 ≤ rng.draws (rng.pos + 2 * i) * ((xcsf.MAX_CON - xcsf.MIN_CON) / 2) :=
    mul_nonneg (hd _) (by linarith)
  have p2 : 0 ≤ rng.draws (rng.pos + 2 * i + 1) * ((xcsf.MAX_CON - xcsf.MIN_CON) / 2) :=
    mul_nonneg (hd _) (by linarith)
  unfold cond_rectangle_cover
  rw [hlo, hup, e1, e2]
  exact cond_rectangle_bounds_around xcsf _ _ (x i) hxi (by linarith) (by linarith)

/-- C5: covering inside the legal range. If every `x[i]` lies in
`[MIN_CON, MAX_CON]` and every draw lies in `[0, 1)`, then after
`cond_rectangle_cover(x)` every dimension has
`MIN_CON ≤ lower[i] ≤ x[i] ≤ upper[i] ≤ MAX_CON`, with `lower[i]` the clamped
`x[i] − draw·(MAX_CON − MIN_CON)/2` and `upper[i]` the clamped
`x[i] + draw·(MAX_CON − MIN_CON)/2`, and `cond_rectangle_match(x)` returns true.
For `MIN_CON = 0`, `MAX_CON = 1`, `x = [1/2]`: `lower ∈ [0, 1/2]`,
`upper ∈ [1/2, 1]` and the input matches. -/
theorem C5_cover_inside_range (xcsf : XCSF) (cond : COND_RECTANGLE) (x : Nat → ℚ) (rng : Rng)
    (hx : ∀ i : Nat, (i : Int) < xcsf.num_x_vars → xcsf.MIN_CON ≤ x i ∧ x i ≤ xcsf.MAX_CON)
    (hd : ∀ k : Nat, 0 ≤ rng.draws k ∧ rng.draws k < 1) :
    ((∀ i : Nat, (i : Int) < xcsf.num_x_vars →
        xcsf.MIN_CON ≤ (cond_rectangle_cover xcsf cond x rng).1.lower i ∧
        (cond_rectangle_cover xcsf cond x rng).1.lower i ≤ x i ∧
        x i ≤ (cond_rectangle_cover xcsf cond x rng).1.upper i ∧
        (cond_rectangle_cover xcsf cond x rng).1.upper i ≤ xcsf.MAX_CON ∧
        (cond_rectangle_cover xcsf cond x rng).1.lower i =
          max xcsf.MIN_CON (min xcsf.MAX_CON
            (x i - rng.draws (rng.pos + 2 * i) * ((xcsf.MAX_CON - xcsf.MIN_CON) / 2))) ∧
        (cond_rectangle_cover xcsf cond x rng).1.upper i =
          max xcsf.MIN_CON (min xcsf.MAX_CON
            (x i + rng.draws (rng.pos + 2 * i + 1) * ((xcsf.MAX_CON - xcsf.MIN_CON) / 2)))) ∧
      (cond_rectangle_match xcsf (cond_rectangle_cover xcsf cond x rng).1 x).1 = true) ∧
    (0 ≤ (cond_rectangle_cover xcsf_unit cond (fun _ => 1 / 2) rng).1.lower 0 ∧
      (cond_rectangle_cover xcsf_unit cond (fun _ => 1 / 2) rng).1.lower 0 ≤ 1 / 2 ∧
      1 / 2 ≤ (cond_rectangle_cover xcsf_unit cond (fun _ => 1 / 2) rng).1.upper 0 ∧
      (cond_rectangle_cover xcsf_unit cond (fun _ => 1 / 2) rng).1.upper 0 ≤ 1 ∧
      (cond_rectangle_match xcsf_unit
        (cond_rectangle_cover xcsf_unit cond (fun _ => 1 / 2) rng).1 (fun _ => 1 / 2)).1 = true) := by
  have hd0 : ∀ k : Nat, 0 ≤ rng.draws k := fun k => (hd k).1
  have hxu : ∀ i : Nat, (i : Int) < xcsf_unit.num_x_vars →
      xcsf_unit.MIN_CON ≤ (fun _ : Nat => (1 / 2 : ℚ)) i ∧
      (fun _ : Nat => (1 / 2 : ℚ)) i ≤ xcsf_unit.MAX_CON := by
    intro i _
    norm_num [xcsf_unit]
  refine ⟨⟨?_, ?_⟩, ?_⟩
  · intro i hi
    obtain ⟨a, b, c, d, e, f⟩ := cond_rectangle_cover_in_range xcsf cond x rng hx hd0 i hi
    exact ⟨c, d, e, f, a, b⟩
  · rw [cond_rectangle_match_fst_iff]
    intro i hi
    obtain ⟨-, -, -, d, e, -⟩ := cond_rectangle_cover_in_range xcsf cond x rng hx hd0 i hi
    exact ⟨d, e⟩
  · have h0 : ((0 : Nat) : Int) < xcsf_unit.num_x_vars := by norm_num [xcsf_unit]
    obtain ⟨-, -, c, d, e, f⟩ :=
      cond_rectangle_cover_in_range xcsf_unit cond (fun _ => 1 / 2) rng hxu hd0 0 h0
    refine ⟨c, d, e, f, ?_⟩
    rw [cond_rectangle_match_fst_iff]
    intro i hi
    obtain ⟨-, -, -, d', e', -⟩ :=
      cond_rectangle_cover_in_range xcsf_unit cond (fun _ => 1 / 2) rng hxu hd0 i hi
    exact ⟨d', e'⟩

/-- A concrete instance of C5: range `[0, 1]`, input `[1/2]`, every draw `1/2`. -/
theorem C5_cover_inside_range_witness :
    (cond_rectangle_cover xcsf_unit (rect 0 0) (fun _ => 1 / 2) (rng_const (1 / 2))).1.lower 0
      = 1 / 4 ∧
    (cond_rectangle_cover xcsf_unit (rect 0 0) (fun _ => 1 / 2) (rng_const (1 / 2))).1.upper 0
      = 3 / 4 ∧
    (cond_rectangle_match xcsf_unit
      (cond_rectangle_cover xcsf_unit (rect 0 0) (fun _ => 1 / 2) (rng_const (1 / 2))).1
      (fun _ => 1 / 2)).1 = true := by
  have key := C5_cover_inside_range xcsf_unit (rect 0 0) (fun _ => 1 / 2) (rng_const (1 / 2))
    (by intro i _; norm_num [xcsf_unit]) (by intro k; norm_num [rng_const])
  have h0 : ((0 : Nat) : Int) < xcsf_unit.num_x_vars := by norm_num [xcsf_unit]
  obtain ⟨-, -, -, -, hl, hu⟩ := key.1.1 0 h0
  refine ⟨?_, ?_, key.1.2⟩
  · rw [hl]; norm_num [xcsf_unit, rng_const]
  · rw [hu]; norm_num [xcsf_unit, rng_const]

/-- C6 as stated fails: with range `[0, 1]` the input `[2]` is covered by the
clamped interval `(1, 1)`, which does not match it. -/
theorem C6_cover_outside_range_counterexample :
    (cond_rectangle_match xcsf_unit
      (cond_rectangle_cover xcsf_unit (rect 0 0) (fun _ => 2) (rng_const (1 / 2))).1
      (fun _ => 2)).1 = false := by
  norm_num [cond_rectangle_match, cond_rectangle_match_loop, cond_rectangle_cover,
    cond_rectangle_cover_step, cond_rectangle_bounds_at, cond_rectangle_bounds, drand,
    xcsf_unit, rect, rng_const, List.range_succ]

/-- C6, amended: for every input with `MIN_CON ≤ x[i] ≤ MAX_CON` in every
dimension and every stream of non-negative draws (those of `drand` lie in
`[0, 1)`), `cond_rectangle_match(x)` returns true right after
`cond_rectangle_cover(x)`. -/
theorem C6_cover_then_match (xcsf : XCSF) (cond : COND_RECTANGLE) (x : Nat → ℚ) (rng : Rng)
    (hx : ∀ i : Nat, (i : Int) < xcsf.num_x_vars → xcsf.MIN_CON ≤ x i ∧ x i ≤ xcsf.MAX_CON)
    (hd : ∀ k : Nat, 0 ≤ rng.draws k) :
    (cond_rectangle_match xcsf (cond_rectangle_cover xcsf cond x rng).1 x).1 = true := by
  rw [cond_rectangle_match_fst_iff]
  intro i hi
  obtain ⟨-, -, -, d, e, -⟩ := cond_rectangle_cover_in_range xcsf cond x rng hx hd i hi
  exact ⟨d, e⟩

/-- A concrete instance of the amended C6: range `[0, 1]`, input `[1]`, every
draw `0`. -/
theorem C6_cover_then_match_witness :
    (cond_rectangle_match xcsf_unit
      (cond_rectangle_cover xcsf_unit (rect 0 0) (fun _ => 1) (rng_const 0)).1
      (fun _ => 1)).1 = true :=
  C6_cover_then_match xcsf_unit (rect 0 0) (fun _ => 1) (rng_const 0)
    (by intro i _; norm_num [xcsf_unit]) (by intro k; norm_num [rng_const])

/-! ### NLMS: the loops as running sums over the feature vector -/

theorem dot_fold (w : Nat → ℚ) (fs : List ℚ) :
    ∀ s : ComputeState,
    (fs.foldl (dot_step w) s).pre =
      s.pre + ∑ k in Finset.range fs.length, w (s.index + k) * fs.getD k 0 ∧
    (fs.foldl (dot_step w) s).index = s.index + fs.length ∧
    (fs.foldl (dot_step w) s).visited = s.visited ++ List.range' s.index fs.length := by
  induction fs with
  | nil => intro s; simp
  | cons f rest ih =>
    intro s
    obtain ⟨h1, h2, h3⟩ := ih (dot_step w s f)
    simp only [List.foldl_cons, List.length_cons]
    refine ⟨?_, ?_, ?_⟩
    · rw [h1, Finset.sum_range_succ']
      simp only [dot_step, List.getD_cons_succ, List.getD_cons_zero, Nat.add_zero]
      have : ∀ k, s.index + 1 + k = s.index + (k + 1) := fun k => by omega
      simp only [this]
      ring
    · rw [h2]
      simp only [dot_step]
      omega
    · rw [h3]
      simp [dot_step, List.range'_succ]

theorem compute_linear_fold (w x : Nat → ℚ) (l : List Nat) (s : ComputeState) :
    l.foldl (pred_nlms_compute_linear w x) s = (l.map x).foldl (dot_step w) s := by
  rw [List.foldl_map]
  rfl

theorem compute_quadratic_fold (w x : Nat → ℚ) (i : Nat) (l : List Nat) (s : ComputeState) :
    l.foldl (pred_nlms_compute_quadratic w x i) s =
      ((l.map (fun j => (i, j))).map (fun p => x p.1 * x p.2)).foldl (dot_step w) s := by
  rw [List.map_map, List.foldl_map]
  congr 1
  funext s j
  simp [pred_nlms_compute_quadratic, dot_step, mul_assoc]

theorem compute_nested_fold (w x : Nat → ℚ) (d : Nat) (l : List Nat) :
    ∀ s : ComputeState,
    l.foldl (fun s i => (List.range' i (d - i)).foldl (pred_nlms_compute_quadratic w x i) s) s =
      ((quad_pairs_from d l).map (fun p => x p.1 * x p.2)).foldl (dot_step w) s := by
  induction l with
  | nil => intro s; rfl
  | cons i rest ih =>
    intro s
    simp only [List.foldl_cons, quad_pairs_from, List.map_append, List.foldl_append]
    rw [ih, compute_quadratic_fold]

/-- The features after the constant one. -/
theorem nlms_features_eq (xcsf : XCSF) (x : Nat → ℚ) :
    nlms_features xcsf x = xcsf.XCSF_X0 :: (nlms_features xcsf x).tail := rfl

theorem pred_nlms_compute_var_eq (xcsf : XCSF) (pred : PRED_NLMS) (x : Nat → ℚ) (var : Nat) :
    pred_nlms_compute_var xcsf pred x var =
      (nlms_features xcsf x).tail.foldl (dot_step (pred.weights var))
        { pre := xcsf.XCSF_X0 * pred.weights var 0, index := 1, visited := [0] } := by
  unfold pred_nlms_compute_var nlms_features
  dsimp only [List.tail_cons]
  split_ifs
  · rw [compute_nested_fold, compute_linear_fold, List.foldl_append]
    rfl
  · rw [compute_linear_fold, List.append_nil]

theorem dot_fold_head (w : Nat → ℚ) (c : ℚ) (T : List ℚ) :
    (T.foldl (dot_step w) { pre := c * w 0, index := 1, visited := [0] }).pre =
      ∑ k in Finset.range (c :: T).length, w k * (c :: T).getD k 0 ∧
    (T.foldl (dot_step w) { pre := c * w 0, index := 1, visited := [0] }).index =
      (c :: T).length ∧
    (T.foldl (dot_step w) { pre := c * w 0, index := 1, visited := [0] }).visited =
      List.range (c :: T).length := by
  obtain ⟨h1, h2, h3⟩ := dot_fold w T { pre := c * w 0, index := 1, visited := [0] }
  refine ⟨?_, ?_, ?_⟩
  · rw [h1, List.length_cons, Finset.sum_range_succ']
    simp only [List.getD_cons_succ, List.getD_cons_zero]
    have : ∀ k, 1 + k = k + 1 := fun k => by omega
    simp only [this]
    ring
  · rw [h2, List.length_cons]
    exact Nat.add_comm 1 T.length
  · rw [h3, List.length_cons, List.range_eq_range', List.range'_succ]
    rfl

/-- The loop body of `pred_nlms_compute` for one output: the sum is the dot
product of the weight row with the feature vector, and the running index goes
through `0, 1, …` up to the number of features. -/
theorem pred_nlms_compute_var_spec (xcsf : XCSF) (pred : PRED_NLMS) (x : Nat → ℚ) (var : Nat) :
    (pred_nlms_compute_var xcsf pred x var).pre =
      ∑ k in Finset.range (nlms_features xcsf x).length,
        pred.weights var k * (nlms_features xcsf x).getD k 0 ∧
    (pred_nlms_compute_var xcsf pred x var).index = (nlms_features xcsf x).length ∧
    (pred_nlms_compute_var xcsf pred x var).visited =
      List.range (nlms_features xcsf x).length := by
  rw [pred_nlms_compute_var_eq]
  exact dot_fold_head (pred.weights var) xcsf.XCSF_X0 (nlms_features xcsf x).tail

theorem quad_pairs_from_append (d : Nat) (l1 l2 : List Nat) :
    quad_pairs_from d (l1 ++ l2) = quad_pairs_from d l1 ++ quad_pairs_from d l2 := by
  induction l1 with
  | nil => rfl
  | cons i rest ih => simp [quad_pairs_from, ih]

/-- The first `k` rows hold `k·d − k·(k−1)/2` pairs. -/
theorem quad_pairs_from_range_length (d k : Nat) (hk : k ≤ d) :
    2 * (quad_pairs_from d (List.range k)).length + k * k = 2 * k * d + k := by
  induction k with
  | zero => simp [quad_pairs_from]
  | succ k ih =>
    have ih' := ih (by omega)
    rw [List.range_succ, quad_pairs_from_append]
    simp only [quad_pairs_from, List.length_append, List.length_map, List.length_range',
      List.length_nil, Nat.add_zero]
    have hsub : d - k + k = d := Nat.sub_add_cancel (by omega)
    nlinarith [ih', hsub]

/-- There are `d·(d+1)/2` pairs `i ≤ j < d`. -/
theorem quad_pairs_length (d : Nat) : 2 * (quad_pairs d).length = d * d + d := by
  have := quad_pairs_from_range_length d d (le_refl d)
  unfold quad_pairs
  nlinarith [this]

theorem nlms_features_length (xcsf : XCSF) (x : Nat → ℚ) :
    (nlms_features xcsf x).length =
      1 + xcsf.num_x_vars.toNat +
        (if xcsf.PRED_TYPE = 1 then (quad_pairs xcsf.num_x_vars.toNat).length else 0) := by
  unfold nlms_features
  split_ifs <;> simp <;> omega

/-- The exact value of the length expression of `pred_nlms_init` is the number of
features. -/
theorem pred_nlms_weights_length_eq (xcsf : XCSF) (x : Nat → ℚ) (hd : 0 ≤ xcsf.num_x_vars) :
    pred_nlms_weights_length xcsf = ((nlms_features xcsf x).length : Int) := by
  rw [nlms_features_length]
  have hq := quad_pairs_length xcsf.num_x_vars.toNat
  have hcast : ((xcsf.num_x_vars.toNat : Nat) : Int) = xcsf.num_x_vars := Int.toNat_of_nonneg hd
  unfold pred_nlms_weights_length
  split_ifs
  · have hq' : (2 : Int) * ((quad_pairs xcsf.num_x_vars.toNat).length : Int) =
        xcsf.num_x_vars * xcsf.num_x_vars + xcsf.num_x_vars := by
      have := congrArg (fun n : Nat => (n : Int)) hq
      simp only [Nat.cast_mul, Nat.cast_add, Nat.cast_ofNat, hcast] at this
      exact this
    have hprod : xcsf.num_x_vars * (xcsf.num_x_vars - 1) =
        2 * (((quad_pairs xcsf.num_x_vars.toNat).length : Int) - xcsf.num_x_vars) := by
      linarith [hq']
    rw [hprod, Int.mul_tdiv_cancel_left _ (by norm_num : (2 : Int) ≠ 0)]
    push_cast
    rw [hcast]
    ring
  · push_cast
    rw [hcast]
    ring

theorem upd_fold (c : ℚ) (fs : List ℚ) :
    ∀ s : UpdateState,
    (∀ k, (fs.foldl (upd_step c) s).weights k =
      if s.index ≤ k ∧ k < s.index + fs.length then
        s.weights k + c * fs.getD (k - s.index) 0
      else s.weights k) ∧
    (fs.foldl (upd_step c) s).index = s.index + fs.length ∧
    (fs.foldl (upd_step c) s).visited = s.visited ++ List.range' s.index fs.length := by
  induction fs with
  | nil =>
    intro s
    refine ⟨?_, rfl, by simp⟩
    intro k
    have : ¬ (s.index ≤ k ∧ k < s.index + ([] : List ℚ).length) := by
      simp only [List.length_nil, Nat.add_zero]
      omega
    rw [if_neg this]
    rfl
  | cons f rest ih =>
    intro s
    obtain ⟨h1, h2, h3⟩ := ih (upd_step c s f)
    simp only [List.foldl_cons, List.length_cons]
    refine ⟨?_, ?_, ?_⟩
    · intro k
      rw [h1 k]
      have hidx : (upd_step c s f).index = s.index + 1 := rfl
      have hw : ∀ t, (upd_step c s f).weights t =
          if t = s.index then s.weights s.index + c * f else s.weights t := by
        intro t
        simp only [upd_step, Function.update_apply]
      rw [hidx, hw k]
      by_cases hlt : k < s.index
      · rw [if_neg (by omega), if_neg (by omega), if_neg (by omega)]
      · by_cases heq : k = s.index
        · subst heq
          rw [if_neg (by omega), if_pos rfl, if_pos (by omega), Nat.sub_self,
            List.getD_cons_zero]
        · by_cases hin : k < s.index + 1 + rest.length
          · rw [if_pos (by omega), if_neg heq, if_pos (by omega)]
            have : k - s.index = (k - (s.index + 1)) + 1 := by omega
            rw [this, List.getD_cons_succ]
          · rw [if_neg (by omega), if_neg heq, if_neg (by omega)]
    · rw [h2]
      simp only [upd_step]
      omega
    · rw [h3]
      simp [upd_step, List.range'_succ]

theorem update_linear_fold (c : ℚ) (x : Nat → ℚ) (l : List Nat) (s : UpdateState) :
    l.foldl (pred_nlms_update_linear c x) s = (l.map x).foldl (upd_step c) s := by
  rw [List.foldl_map]
  rfl

theorem update_quadratic_fold (c : ℚ) (x : Nat → ℚ) (i : Nat) (l : List Nat) (s : UpdateState) :
    l.foldl (pred_nlms_update_quadratic c x i) s =
      ((l.map (fun j => (i, j))).map (fun p => x p.1 * x p.2)).foldl (upd_step c) s := by
  rw [List.map_map, List.foldl_map]
  congr 1
  funext s j
  simp [pred_nlms_update_quadratic, upd_step, mul_assoc]

theorem update_nested_fold (c : ℚ) (x : Nat → ℚ) (d : Nat) (l : List Nat) :
    ∀ s : UpdateState,
    l.foldl (fun s i => (List.range' i (d - i)).foldl (pred_nlms_update_quadratic c x i) s) s =
      ((quad_pairs_from d l).map (fun p => x p.1 * x p.2)).foldl (upd_step c) s := by
  induction l with
  | nil => intro s; rfl
  | cons i rest ih =>
    intro s
    simp only [List.foldl_cons, quad_pairs_from, List.map_append, List.foldl_append]
    rw [ih, update_quadratic_fold]

theorem pred_nlms_update_var_eq (xcsf : XCSF) (pred : PRED_NLMS) (y x : Nat → ℚ) (var : Nat) :
    pred_nlms_update_var xcsf pred y x var =
      (nlms_features xcsf x).tail.foldl (upd_step (pred_nlms_correction xcsf pred y x var))
        { weights := Function.update (pred.weights var) 0
            (pred.weights var 0 + xcsf.XCSF_X0 * pred_nlms_correction xcsf pred y x var),
          index := 1, visited := [0] } := by
  unfold pred_nlms_update_var nlms_features
  dsimp only [List.tail_cons]
  split_ifs
  · rw [update_nested_fold, update_linear_fold, List.foldl_append]
    rfl
  · rw [update_linear_fold, List.append_nil]

theorem upd_fold_head (w : Nat → ℚ) (c X0 : ℚ) (T : List ℚ) :
    (∀ k, (T.foldl (upd_step c)
        { weights := Function.update w 0 (w 0 + X0 * c), index := 1, visited := [0] }).weights k =
      if k < (X0 :: T).length then w k + c * (X0 :: T).getD k 0 else w k) ∧
    (T.foldl (upd_step c)
        { weights := Function.update w 0 (w 0 + X0 * c), index := 1, visited := [0] }).index =
      (X0 :: T).length ∧
    (T.foldl (upd_step c)
        { weights := Function.update w 0 (w 0 + X0 * c), index := 1, visited := [0] }).visited =
      List.range (X0 :: T).length := by
  obtain ⟨h1, h2, h3⟩ := upd_fold c T
    { weights := Function.update w 0 (w 0 + X0 * c), index := 1, visited := [0] }
  refine ⟨?_, ?_, ?_⟩
  · intro k
    rw [h1 k]
    simp only [List.length_cons, Function.update_apply]
    by_cases hk0 : k = 0
    · subst hk0
      rw [if_neg (by omega), if_pos rfl, if_pos (by omega), List.getD_cons_zero]
      ring
    · obtain ⟨m, rfl⟩ : ∃ m, k = m + 1 := ⟨k - 1, by omega⟩
      by_cases hin : m + 1 < T.length + 1
      · rw [if_pos (by omega), if_neg hk0, if_pos hin, List.getD_cons_succ, Nat.add_sub_cancel]
      · rw [if_neg (by omega), if_neg hk0, if_neg hin]
  · rw [h2, List.length_cons]
    exact Nat.add_comm 1 T.length
  · rw [h3, List.length_cons, List.range_eq_range', List.range'_succ]
    rfl

/-- The loop body of `pred_nlms_update` for one output: every weight below the
number of features grows by `correction` times its feature, the others stay,
and the running index goes through `0, 1, …` up to the number of features. -/
theorem pred_nlms_update_var_spec (xcsf : XCSF) (pred : PRED_NLMS) (y x : Nat → ℚ) (var : Nat) :
    (∀ k, (pred_nlms_update_var xcsf pred y x var).weights k =
      if k < (nlms_features xcsf x).length then
        pred.weights var k +
          pred_nlms_correction xcsf pred y x var * (nlms_features xcsf x).getD k 0
      else pred.weights var k) ∧
    (pred_nlms_update_var xcsf pred y x var).index = (nlms_features xcsf x).length ∧
    (pred_nlms_update_var xcsf pred y x var).visited =
      List.range (nlms_features xcsf x).length := by
  rw [pred_nlms_update_var_eq]
  exact upd_fold_head (pred.weights var) (pred_nlms_correction xcsf pred y x var)
    xcsf.XCSF_X0 (nlms_features xcsf x).tail

/-! ### NLMS: the loops over the output variables -/

theorem pred_nlms_compute_var_congr (xcsf : XCSF) (p q : PRED_NLMS) (x : Nat → ℚ) (var : Nat)
    (h : p.weights var = q.weights var) :
    pred_nlms_compute_var xcsf p x var = pred_nlms_compute_var xcsf q x var := by
  unfold pred_nlms_compute_var
  rw [h]

theorem pred_nlms_update_var_congr (xcsf : XCSF) (p q : PRED_NLMS) (y x : Nat → ℚ) (var : Nat)
    (h : p.weights var = q.weights var) (hp : p.pre = q.pre) :
    pred_nlms_update_var xcsf p y x var = pred_nlms_update_var xcsf q y x var := by
  unfold pred_nlms_update_var pred_nlms_correction
  rw [h, hp]

theorem pred_nlms_compute_fold (xcsf : XCSF) (pred : PRED_NLMS) (x : Nat → ℚ) :
    ∀ n : Nat,
    ((List.range n).foldl (fun p var =>
        { p with pre := Function.update p.pre var (pred_nlms_compute_var xcsf p x var).pre })
      pred).weights = pred.weights ∧
    ((List.range n).foldl (fun p var =>
        { p with pre := Function.update p.pre var (pred_nlms_compute_var xcsf p x var).pre })
      pred).weights_length = pred.weights_length ∧
    ∀ v, ((List.range n).foldl (fun p var =>
        { p with pre := Function.update p.pre var (pred_nlms_compute_var xcsf p x var).pre })
      pred).pre v =
      if v < n then (pred_nlms_compute_var xcsf pred x v).pre else pred.pre v := by
  intro n
  induction n with
  | zero => exact ⟨rfl, rfl, fun v => by simp⟩
  | succ n ih =>
    obtain ⟨hw, hl, hp⟩ := ih
    rw [List.range_succ, List.foldl_append]
    simp only [List.foldl_cons, List.foldl_nil]
    refine ⟨hw, hl, ?_⟩
    intro v
    rw [Function.update_apply, hp v,
      pred_nlms_compute_var_congr xcsf _ pred x n (by rw [hw])]
    by_cases hvn : v = n
    · subst hvn
      rw [if_pos rfl, if_pos (by omega)]
    · by_cases hlt : v < n
      · rw [if_neg hvn, if_pos hlt, if_pos (by omega)]
      · rw [if_neg hvn, if_neg hlt, if_neg (by omega)]

theorem pred_nlms_update_fold (xcsf : XCSF) (pred : PRED_NLMS) (y x : Nat → ℚ) :
    ∀ n : Nat,
    ((List.range n).foldl (fun p var =>
        { p with weights :=
            Function.update p.weights var (pred_nlms_update_var xcsf p y x var).weights })
      pred).pre = pred.pre ∧
    ((List.range n).foldl (fun p var =>
        { p with weights :=
            Function.update p.weights var (pred_nlms_update_var xcsf p y x var).weights })
      pred).weights_length = pred.weights_length ∧
    ∀ v, ((List.range n).foldl (fun p var =>
        { p with weights :=
            Function.update p.weights var (pred_nlms_update_var xcsf p y x var).weights })
      pred).weights v =
      if v < n then (pred_nlms_update_var xcsf pred y x v).weights else pred.weights v := by
  intro n
  induction n with
  | zero => exact ⟨rfl, rfl, fun v => by simp⟩
  | succ n ih =>
    obtain ⟨hp, hl, hw⟩ := ih
    rw [List.range_succ, List.foldl_append]
    simp only [List.foldl_cons, List.foldl_nil]
    refine ⟨hp, hl, ?_⟩
    intro v
    rw [Function.update_apply, hw v,
      pred_nlms_update_var_congr xcsf _ pred y x n (by rw [hw n, if_neg (lt_irrefl n)]) hp]
    by_cases hvn : v = n
    · subst hvn
      rw [if_pos rfl, if_pos (by omega)]
    · by_cases hlt : v < n
      · rw [if_neg hvn, if_pos hlt, if_pos (by omega)]
      · rw [if_neg hvn, if_neg hlt, if_neg (by omega)]

/-- The function `pred_nlms_compute` stores the loop body's sum for every output
`var < num_y_vars` and writes nothing else. -/
theorem pred_nlms_compute_spec (xcsf : XCSF) (pred : PRED_NLMS) (x : Nat → ℚ) :
    (pred_nlms_compute xcsf pred x).weights = pred.weights ∧
    (pred_nlms_compute xcsf pred x).weights_length = pred.weights_length ∧
    ∀ v : Nat, (pred_nlms_compute xcsf pred x).pre v =
      if (v : Int) < xcsf.num_y_vars then (pred_nlms_compute_var xcsf pred x v).pre
      else pred.pre v := by
  obtain ⟨hw, hl, hp⟩ := pred_nlms_compute_fold xcsf pred x xcsf.num_y_vars.toNat
  refine ⟨hw, hl, ?_⟩
  intro v
  unfold pred_nlms_compute
  rw [hp v]
  by_cases h : (v : Int) < xcsf.num_y_vars
  · rw [if_pos h, if_pos (by omega)]
  · rw [if_neg h, if_neg (by omega)]

/-- The function `pred_nlms_update` stores the loop body's row for every output
`var < num_y_vars` and writes nothing else. -/
theorem pred_nlms_update_spec (xcsf : XCSF) (pred : PRED_NLMS) (y x : Nat → ℚ) :
    (pred_nlms_update xcsf pred y x).pre = pred.pre ∧
    (pred_nlms_update xcsf pred y x).weights_length = pred.weights_length ∧
    ∀ v : Nat, (pred_nlms_update xcsf pred y x).weights v =
      if (v : Int) < xcsf.num_y_vars then (pred_nlms_update_var xcsf pred y x v).weights
      else pred.weights v := by
  obtain ⟨hp, hl, hw⟩ := pred_nlms_update_fold xcsf pred y x xcsf.num_y_vars.toNat
  refine ⟨hp, hl, ?_⟩
  intro v
  unfold pred_nlms_update
  rw [hw v]
  by_cases h : (v : Int) < xcsf.num_y_vars
  · rw [if_pos h, if_pos (by omega)]
  · rw [if_neg h, if_neg (by omega)]

/-! ### NLMS: the sums written out -/

theorem getD_map_of_lt {α : Type} (f : α → ℚ) (a : α) (l : List α) :
    ∀ k, k < l.length → (l.map f).getD k 0 = f (l.getD k a) := by
  induction l with
  | nil => intro k hk; exact absurd hk (Nat.not_lt_zero k)
  | cons b rest ih =>
    intro k hk
    cases k with
    | zero => rfl
    | succ k =>
      simp only [List.map_cons, List.getD_cons_succ]
      exact ih k (by simpa using hk)

theorem getD_range_of_lt (n : Nat) : ∀ k, k < n → (List.range n).getD k 0 = k := by
  intro k hk
  rw [List.getD_eq_getElem _ _ (by simpa using hk), List.getElem_range]

theorem dot_sum_linear (w x : Nat → ℚ) (d a : Nat) :
    ∑ k in Finset.range ((List.range d).map x).length,
        w (a + k) * ((List.range d).map x).getD k 0 =
      ∑ i in Finset.range d, w (a + i) * x i := by
  rw [List.length_map, List.length_range]
  apply Finset.sum_congr rfl
  intro k hk
  have hk' : k < d := Finset.mem_range.mp hk
  rw [getD_map_of_lt x 0 (List.range d) k (by simpa using hk'), getD_range_of_lt d k hk']

theorem dot_sum_quadratic (w x : Nat → ℚ) (l : List (Nat × Nat)) (a : Nat) :
    ∑ k in Finset.range (l.map (fun p => x p.1 * x p.2)).length,
        w (a + k) * (l.map (fun p => x p.1 * x p.2)).getD k 0 =
      ∑ k in Finset.range l.length,
        w (a + k) * x (l.getD k (0, 0)).1 * x (l.getD k (0, 0)).2 := by
  rw [List.length_map]
  apply Finset.sum_congr rfl
  intro k hk
  have hk' : k < l.length := Finset.mem_range.mp hk
  rw [getD_map_of_lt (fun p => x p.1 * x p.2) (0, 0) l k hk', mul_assoc]

/-- The sum that the loop body of `pred_nlms_compute` forms, written out: the
offset term, the linear terms with weights `1 … d`, and for `PRED_TYPE = 1` the
products of the pairs in loop order with the weights from `1 + d` on. -/
theorem pred_nlms_compute_var_explicit (xcsf : XCSF) (pred : PRED_NLMS) (x : Nat → ℚ)
    (var : Nat) :
    (pred_nlms_compute_var xcsf pred x var).pre =
      xcsf.XCSF_X0 * pred.weights var 0 +
      (∑ i in Finset.range xcsf.num_x_vars.toNat, pred.weights var (1 + i) * x i) +
      (if xcsf.PRED_TYPE = 1 then
        ∑ k in Finset.range (quad_pairs xcsf.num_x_vars.toNat).length,
          pred.weights var (1 + xcsf.num_x_vars.toNat + k) *
            x ((quad_pairs xcsf.num_x_vars.toNat).getD k (0, 0)).1 *
            x ((quad_pairs xcsf.num_x_vars.toNat).getD k (0, 0)).2
      else 0) := by
  have hlin := dot_fold (pred.weights var) ((List.range xcsf.num_x_vars.toNat).map x)
    { pre := xcsf.XCSF_X0 * pred.weights var 0, index := 1, visited := [0] }
  rw [dot_sum_linear] at hlin
  have hidx : ((List.range xcsf.num_x_vars.toNat).map x).length = xcsf.num_x_vars.toNat := by
    rw [List.length_map, List.length_range]
  unfold pred_nlms_compute_var
  dsimp only
  split_ifs
  · rw [compute_nested_fold, compute_linear_fold]
    have hq := dot_fold (pred.weights var)
      ((quad_pairs_from xcsf.num_x_vars.toNat (List.range xcsf.num_x_vars.toNat)).map
        (fun p => x p.1 * x p.2))
      (((List.range xcsf.num_x_vars.toNat).map x).foldl (dot_step (pred.weights var))
        { pre := xcsf.XCSF_X0 * pred.weights var 0, index := 1, visited := [0] })
    rw [dot_sum_quadratic, hlin.2.1, hlin.1, hidx] at hq
    exact hq.1
  · rw [compute_linear_fold, hlin.1, add_zero]

theorem pred_nlms_norm_eq (xcsf : XCSF) (x : Nat → ℚ) :
    pred_nlms_norm xcsf x =
      xcsf.XCSF_X0 * xcsf.XCSF_X0 + ∑ i in Finset.range xcsf.num_x_vars.toNat, x i * x i := by
  unfold pred_nlms_norm
  induction xcsf.num_x_vars.toNat with
  | zero => simp
  | succ n ih =>
    rw [List.range_succ, List.foldl_append, ih, Finset.sum_range_succ]
    simp only [List.foldl_cons, List.foldl_nil]
    ring

theorem pred_nlms_norm_ge (xcsf : XCSF) (x : Nat → ℚ) :
    xcsf.XCSF_X0 ^ 2 ≤ pred_nlms_norm xcsf x := by
  rw [pred_nlms_norm_eq, pow_two]
  have : 0 ≤ ∑ i in Finset.range xcsf.num_x_vars.toNat, x i * x i :=
    Finset.sum_nonneg (fun i _ => mul_self_nonneg (x i))
  linarith

/-- C7: for every output `var < num_y_vars`, `pred_nlms_compute` stores
`pre[var] = X0·w[var][0] + Σ_{i<d} w[var][1+i]·x[i]`, plus, when
`PRED_TYPE = 1`, `Σ_k w[var][1+d+k]·x[i_k]·x[j_k]` where `(i_k, j_k)` is the
`k`-th pair `i ≤ j < d` in loop order; `pred_nlms_pre(var)` then returns that
stored value, and the weights and `weights_length` are as before. -/
theorem C7_compute_is_dot_product (xcsf : XCSF) (pred : PRED_NLMS) (x : Nat → ℚ) (var : Nat)
    (hvar : (var : Int) < xcsf.num_y_vars) :
    (pred_nlms_compute xcsf pred x).pre var =
      xcsf.XCSF_X0 * pred.weights var 0 +
      (∑ i in Finset.range xcsf.num_x_vars.toNat, pred.weights var (1 + i) * x i) +
      (if xcsf.PRED_TYPE = 1 then
        ∑ k in Finset.range (quad_pairs xcsf.num_x_vars.toNat).length,
          pred.weights var (1 + xcsf.num_x_vars.toNat + k) *
            x ((quad_pairs xcsf.num_x_vars.toNat).getD k (0, 0)).1 *
            x ((quad_pairs xcsf.num_x_vars.toNat).getD k (0, 0)).2
      else 0) ∧
    pred_nlms_pre xcsf (pred_nlms_compute xcsf pred x) var =
      (pred_nlms_compute xcsf pred x).pre var ∧
    (pred_nlms_compute xcsf pred x).weights = pred.weights ∧
    (pred_nlms_compute xcsf pred x).weights_length = pred.weights_length := by
  obtain ⟨hw, hl, hp⟩ := pred_nlms_compute_spec xcsf pred x
  refine ⟨?_, rfl, hw, hl⟩
  rw [hp var, if_pos hvar]
  exact pred_nlms_compute_var_explicit xcsf pred x var

/-- A concrete instance of C7: two inputs `[2, 3]`, quadratic features, weights
`1, …, 6`: the prediction is `1·1 + 2·2 + 3·3 + 4·4 + 5·6 + 6·9 = 114`. -/
theorem C7_compute_is_dot_product_witness :
    (0 : Int) < xcsf_quad.num_y_vars ∧
    (pred_nlms_compute xcsf_quad pred_sample x_sample).pre 0 = 114 ∧
    pred_nlms_pre xcsf_quad (pred_nlms_compute xcsf_quad pred_sample x_sample) 0 = 114 := by
  have hv : ((0 : Nat) : Int) < xcsf_quad.num_y_vars := by norm_num [xcsf_quad, xcsf_unit]
  have key := C7_compute_is_dot_product xcsf_quad pred_sample x_sample 0 hv
  have hq : quad_pairs 2 = [(0, 0), (0, 1), (1, 1)] := by decide
  have hd : xcsf_quad.num_x_vars.toNat = 2 := by decide
  have h114 : (pred_nlms_compute xcsf_quad pred_sample x_sample).pre 0 = 114 := by
    rw [key.1, hd, hq]
    norm_num [Finset.sum_range_succ, xcsf_quad, xcsf_unit, pred_sample, x_sample]
  refine ⟨by norm_num [xcsf_quad, xcsf_unit], h114, ?_⟩
  rw [key.2.1, h114]

/-- C8: for every output `var < num_y_vars` and either `PRED_TYPE`,
`pred_nlms_update` works with `norm = X0² + Σ_i x[i]²` and
`correction = ETA·(y[var] − pre[var])/norm`; the new weight `0` is
`w[var][0] + X0·correction`, every weight `k` below the number of features is
`w[var][k] + correction·φ_k`, and no other weight of the row changes. Here `φ`
is `nlms_features`, the vector whose dot product with the weight row is what
`pred_nlms_compute` stores, so both functions pair weight `k` with the same
feature; its first entry is `X0`. -/
theorem C8_update_is_nlms_rule (xcsf : XCSF) (pred : PRED_NLMS) (y x : Nat → ℚ) (var : Nat)
    (hvar : (var : Int) < xcsf.num_y_vars) :
    pred_nlms_norm xcsf x =
      xcsf.XCSF_X0 ^ 2 + ∑ i in Finset.range xcsf.num_x_vars.toNat, x i ^ 2 ∧
    pred_nlms_correction xcsf pred y x var =
      xcsf.XCSF_ETA * (y var - pred.pre var) / pred_nlms_norm xcsf x ∧
    (pred_nlms_update xcsf pred y x).weights var 0 =
      pred.weights var 0 + xcsf.XCSF_X0 * pred_nlms_correction xcsf pred y x var ∧
    (∀ k, k < (nlms_features xcsf x).length →
      (pred_nlms_update xcsf pred y x).weights var k =
        pred.weights var k +
          pred_nlms_correction xcsf pred y x var * (nlms_features xcsf x).getD k 0) ∧
    (∀ k, (nlms_features xcsf x).length ≤ k →
      (pred_nlms_update xcsf pred y x).weights var k = pred.weights var k) ∧
    (pred_nlms_compute xcsf pred x).pre var =
      ∑ k in Finset.range (nlms_features xcsf x).length,
        pred.weights var k * (nlms_features xcsf x).getD k 0 ∧
    (nlms_features xcsf x).getD 0 0 = xcsf.XCSF_X0 := by
  obtain ⟨-, -, hw⟩ := pred_nlms_update_spec xcsf pred y x
  obtain ⟨-, -, hp⟩ := pred_nlms_compute_spec xcsf pred x
  obtain ⟨hk, -, -⟩ := pred_nlms_update_var_spec xcsf pred y x var
  have hpos : 0 < (nlms_features xcsf x).length := by
    rw [nlms_features_length]
    omega
  refine ⟨?_, rfl, ?_, ?_, ?_, ?_, rfl⟩
  · rw [pred_nlms_norm_eq, pow_two]
    congr 1
    exact Finset.sum_congr rfl (fun i _ => (pow_two (x i)).symm)
  · rw [hw var, if_pos hvar, hk 0, if_pos hpos]
    have h0 : (nlms_features xcsf x).getD 0 0 = xcsf.XCSF_X0 := rfl
    rw [h0]
    ring
  · intro k hlt
    rw [hw var, if_pos hvar, hk k, if_pos hlt]
  · intro k hge
    rw [hw var, if_pos hvar, hk k, if_neg (by omega)]
  · rw [hp var, if_pos hvar]
    exact (pred_nlms_compute_var_spec xcsf pred x var).1

/-- A concrete instance of C8: inputs `[2, 3]`, quadratic features, weights
`1, …, 6`, cached prediction `0`, target `140`, `ETA = 1/10`: `norm = 14`,
`correction = 1`, so weight `0` becomes `2`, weight `4` becomes `5 + 2·3 = 11`,
and index `6`, beyond the row, keeps its content. -/
theorem C8_update_is_nlms_rule_witness :
    (0 : Int) < xcsf_quad.num_y_vars ∧
    pred_nlms_norm xcsf_quad x_sample = 14 ∧
    pred_nlms_correction xcsf_quad pred_sample (fun _ => 140) x_sample 0 = 1 ∧
    (pred_nlms_update xcsf_quad pred_sample (fun _ => 140) x_sample).weights 0 0 = 2 ∧
    (pred_nlms_update xcsf_quad pred_sample (fun _ => 140) x_sample).weights 0 4 = 11 ∧
    (pred_nlms_update xcsf_quad pred_sample (fun _ => 140) x_sample).weights 0 6 = 7 := by
  have hv : ((0 : Nat) : Int) < xcsf_quad.num_y_vars := by norm_num [xcsf_quad, xcsf_unit]
  obtain ⟨hn, hc, h0, hk, hout, -, -⟩ :=
    C8_update_is_nlms_rule xcsf_quad pred_sample (fun _ => 140) x_sample 0 hv
  have hd : xcsf_quad.num_x_vars.toNat = 2 := by decide
  have hq : quad_pairs 2 = [(0, 0), (0, 1), (1, 1)] := by decide
  have hnorm : pred_nlms_norm xcsf_quad x_sample = 14 := by
    rw [hn, hd]
    norm_num [Finset.sum_range_succ, xcsf_quad, xcsf_unit, x_sample]
  have hcorr : pred_nlms_correction xcsf_quad pred_sample (fun _ => 140) x_sample 0 = 1 := by
    rw [hc, hnorm]
    norm_num [xcsf_quad, xcsf_unit, pred_sample]
  have hf : nlms_features xcsf_quad x_sample = [1, 2, 3, 4, 6, 9] := by
    unfold nlms_features
    rw [hd, hq]
    norm_num [xcsf_quad, xcsf_unit, x_sample, List.range_succ]
  refine ⟨by norm_num [xcsf_quad, xcsf_unit], hnorm, hcorr, ?_, ?_, ?_⟩
  · rw [h0, hcorr]
    norm_num [xcsf_quad, xcsf_unit, pred_sample]
  · rw [hk 4 (by rw [hf]; decide), hcorr, hf]
    norm_num [pred_sample]
  · rw [hout 6 (by rw [hf]; decide)]
    norm_num [pred_sample]

theorem pred_nlms_weights_length_congr (xcsf xcsf1 : XCSF)
    (hn : xcsf1.num_x_vars = xcsf.num_x_vars) (hp : xcsf1.PRED_TYPE = xcsf.PRED_TYPE) :
    pred_nlms_weights_length xcsf1 = pred_nlms_weights_length xcsf := by
  unfold pred_nlms_weights_length
  rw [hn, hp]

theorem nlms_features_length_toNat (xcsf xcsf1 : XCSF) (x : Nat → ℚ)
    (hd : 0 ≤ xcsf.num_x_vars)
    (hn : xcsf1.num_x_vars = xcsf.num_x_vars) (hp : xcsf1.PRED_TYPE = xcsf.PRED_TYPE) :
    (nlms_features xcsf1 x).length = (pred_nlms_weights_length xcsf).toNat := by
  have h1 := pred_nlms_weights_length_eq xcsf1 x (by rw [hn]; exact hd)
  rw [pred_nlms_weights_length_congr xcsf xcsf1 hn hp] at h1
  rw [h1]
  rfl

/-- C10 as stated fails: with `XCSF_X0 = 0` and the input `[0]` the normaliser
is `0`, so `X0² > 0` does not hold and the division is by zero. -/
theorem C10_norm_zero_counterexample :
    pred_nlms_norm xcsf_x0_zero (fun _ => 0) = 0 ∧
    ¬ (xcsf_x0_zero.XCSF_X0 ^ 2 ≤ pred_nlms_norm xcsf_x0_zero (fun _ => 0) ∧
      0 < xcsf_x0_zero.XCSF_X0 ^ 2) := by
  have hn : pred_nlms_norm xcsf_x0_zero (fun _ => 0) = 0 := by
    norm_num [pred_nlms_norm, xcsf_x0_zero, xcsf_unit, List.range_succ]
  refine ⟨hn, ?_⟩
  rintro ⟨-, h⟩
  norm_num [xcsf_x0_zero] at h

/-- C10, amended: for every input `x`, the normaliser of `pred_nlms_update`
satisfies `norm ≥ X0²`; when `XCSF_X0 ≠ 0` moreover `X0² > 0`, so `norm > 0`
and the division `ETA·error/norm` is not a division by zero. -/
theorem C10_norm_positive (xcsf : XCSF) (x : Nat → ℚ) (h0 : xcsf.XCSF_X0 ≠ 0) :
    xcsf.XCSF_X0 ^ 2 ≤ pred_nlms_norm xcsf x ∧ 0 < xcsf.XCSF_X0 ^ 2 ∧
    0 < pred_nlms_norm xcsf x ∧ pred_nlms_norm xcsf x ≠ 0 := by
  have hge := pred_nlms_norm_ge xcsf x
  have hpos : 0 < xcsf.XCSF_X0 ^ 2 := by positivity
  exact ⟨hge, hpos, lt_of_lt_of_le hpos hge, ne_of_gt (lt_of_lt_of_le hpos hge)⟩

/-- A concrete instance of the amended C10: `XCSF_X0 = 1` and the input `[0]`
give `norm = 1`. -/
theorem C10_norm_positive_witness :
    xcsf_unit.XCSF_X0 ≠ 0 ∧
    xcsf_unit.XCSF_X0 ^ 2 ≤ pred_nlms_norm xcsf_unit (fun _ => 0) ∧
    0 < pred_nlms_norm xcsf_unit (fun _ => 0) :=
  have h0 : xcsf_unit.XCSF_X0 ≠ 0 := by norm_num [xcsf_unit]
  ⟨h0, (C10_norm_positive xcsf_unit (fun _ => 0) h0).1,
    (C10_norm_positive xcsf_unit (fun _ => 0) h0).2.2.1⟩

/-! ### Copies -/

/-- A loop that rewrites row `var` from its own content, for `var < n`. -/
theorem foldl_update_rows {β : Type} (g : β → Nat → β) (w : Nat → β) :
    ∀ n : Nat, ∀ v,
    ((List.range n).foldl (fun w var => Function.update w var (g (w var) var)) w) v =
      if v < n then g (w v) v else w v := by
  intro n
  induction n with
  | zero => intro v; simp
  | succ n ih =>
    intro v
    rw [List.range_succ, List.foldl_append]
    simp only [List.foldl_cons, List.foldl_nil, Function.update_apply]
    by_cases hvn : v = n
    · subst hvn
      rw [if_pos rfl, if_pos (by omega), ih v, if_neg (lt_irrefl v)]
    · rw [if_neg hvn, ih v]
      by_cases hlt : v < n
      · rw [if_pos hlt, if_pos (by omega)]
      · rw [if_neg hlt, if_neg (by omega)]

theorem range'_one_two : List.range' 1 2 = [1, 2] := rfl

theorem range'_zero_two : List.range' 0 2 = [0, 1] := rfl

/-- C14, the code at a failing input: with `state_length = 2` (linear build,
`weights_length = 3`) the weights are `[X0, 0, 0]` as claimed, but `init_matrix`
runs over `state_length × state_length` entries with row stride
`state_length`. Read as a `3×3` row-major matrix, entry `(1, 0)` is
`RLS_SCALE_FACTOR` where the claim has `0`, and entry `(1, 1)`, claimed to be
`RLS_SCALE_FACTOR`, is never written. -/
theorem C14_init_matrix_wrong_stride (fresh : PRED) :
    (pred_init rls_cons2 fresh).weights_length = 3 ∧
    (pred_init rls_cons2 fresh).weights 0 = rls_cons2.XCSF_X0 ∧
    (pred_init rls_cons2 fresh).weights 1 = 0 ∧
    (pred_init rls_cons2 fresh).weights 2 = 0 ∧
    rls_entry 3 (pred_init rls_cons2 fresh).matrix 1 0 = RLS_SCALE_FACTOR ∧
    rls_entry 3 (pred_init rls_cons2 fresh).matrix 1 1 = fresh.matrix 4 := by
  have hL : pred_weights_length rls_cons2 = 3 := by decide
  refine ⟨hL, ?_, ?_, ?_, ?_, ?_⟩
  · simp [pred_init, hL, range'_one_two, Function.update_apply]
  · simp [pred_init, hL, range'_one_two, Function.update_apply]
  · simp [pred_init, hL, range'_one_two, Function.update_apply]
  · simp [pred_init, init_matrix, rls_entry, rls_index, rls_cons2, List.range_succ,
      Function.update_apply]
  · simp [pred_init, init_matrix, rls_entry, rls_index, rls_cons2, List.range_succ,
      Function.update_apply]

/-- C15, the code at a failing input: in the `QUADRATIC` build with
`state_length = 2`, `weights_length` is `6` but `pred_update` writes `tmp_input`
at the indices `0, …, 6`, the last one beyond the array; and on the state
`[2, 3]` it puts `x_0² = 4` at index `4`, where `pred_compute` multiplies weight
`4` by `x_0·x_1 = 6`. -/
theorem C15_quadratic_features_diverge :
    pred_weights_length rls_cons2q = 6 ∧
    (pred_update_input rls_cons2q rls_tmp_zero.tmp_input x_sample).visited =
      [0, 1, 2, 3, 4, 5, 6] ∧
    (pred_update_input rls_cons2q rls_tmp_zero.tmp_input x_sample).tmp_input 4 = 4 ∧
    (pred_compute rls_cons2q rls_pred_unit4 x_sample).1 = 6 := by
  refine ⟨by decide, by decide, ?_, ?_⟩
  · simp [pred_update_input, rls_cons2q, rls_tmp_zero, x_sample, List.range_succ,
      Function.update_apply]
    norm_num
  · simp [pred_compute, pred_nlms_compute_linear, pred_nlms_compute_quadratic, rls_cons2q,
      rls_pred_unit4, x_sample, List.range_succ, range'_zero_two]
    norm_num

/-- C13, the code at a failing input: one input (`weights_length = 2`), gain
matrix `1000·I`, `X0 = 1`, state `[1]`, target `1`, cached prediction `0`. The
recursion of the specification has `k = [1000/2001, 1000/2001]` and so the new
weights `[1000/2001, 1000/2001]`; `pred_update`, which reads row `i` of the
matrix at offset `i*state_length`, produces the weights `[1000/1001, 0]`, and
its new entry `(0, 0)` is `2000/1001` where `(I − k·φᵀ)·P` has `1001000/2001`. -/
theorem C13_update_not_the_recursion :
    (pred_update rls_cons1 rls_pred_id2 rls_tmp_zero 1 (fun _ => 1)).1.weights 0 = 1000 / 1001 ∧
    (pred_update rls_cons1 rls_pred_id2 rls_tmp_zero 1 (fun _ => 1)).1.weights 1 = 0 ∧
    rls_pred_id2.weights 0 +
      (1 - rls_pred_id2.pre) * rls_gain_spec 2 rls_pred_id2.matrix (fun _ => 1) 0 = 1000 / 2001 ∧
    rls_pred_id2.weights 1 +
      (1 - rls_pred_id2.pre) * rls_gain_spec 2 rls_pred_id2.matrix (fun _ => 1) 1 = 1000 / 2001 ∧
    rls_entry 2 (pred_update rls_cons1 rls_pred_id2 rls_tmp_zero 1 (fun _ => 1)).1.matrix 0 0 =
      2000 / 1001 ∧
    (1 - rls_gain_spec 2 rls_pred_id2.matrix (fun _ => 1) 0 * 1) *
        rls_entry 2 rls_pred_id2.matrix 0 0 +
      (-(rls_gain_spec 2 rls_pred_id2.matrix (fun _ => 1) 0 * 1)) *
        rls_entry 2 rls_pred_id2.matrix 1 0 = 1001000 / 2001 := by
  have hk0 : rls_gain_spec 2 rls_pred_id2.matrix (fun _ => 1) 0 = 1000 / 2001 := by
    simp [rls_gain_spec, rls_entry, rls_pred_id2, RLS_LAMBDA, Finset.sum_range_succ]
    norm_num
  have hk1 : rls_gain_spec 2 rls_pred_id2.matrix (fun _ => 1) 1 = 1000 / 2001 := by
    simp [rls_gain_spec, rls_entry, rls_pred_id2, RLS_LAMBDA, Finset.sum_range_succ]
    norm_num
  refine ⟨?_, ?_, ?_, ?_, ?_, ?_⟩
  · simp [pred_update, pred_update_input, pred_update_divisor, matrix_vector_multiply,
      matrix_matrix_multiply, rls_index, rls_cons1, rls_pred_id2, rls_tmp_zero,
      List.range_succ, Function.update_apply, RLS_LAMBDA]
    norm_num
  · simp [pred_update, pred_update_input, pred_update_divisor, matrix_vector_multiply,
      matrix_matrix_multiply, rls_index, rls_cons1, rls_pred_id2, rls_tmp_zero,
      List.range_succ, Function.update_apply, RLS_LAMBDA]
  · rw [hk0]
    norm_num [rls_pred_id2]
  · rw [hk1]
    norm_num [rls_pred_id2]
  · simp [pred_update, pred_update_input, pred_update_divisor, matrix_vector_multiply,
      matrix_matrix_multiply, rls_index, rls_entry, rls_cons1, rls_pred_id2, rls_tmp_zero,
      List.range_succ, Function.update_apply, RLS_LAMBDA]
    norm_num
  · rw [hk0]
    norm_num [rls_entry, rls_pred_id2]

/-- C16, the code at a failing input: two inputs (`weights_length = 3`), the
gain matrix `1000·I` (symmetric, positive-definite), `X0 = 1`, state `[1, 1]`,
target `1`. After one `pred_update` the `3×3` row-major reading has entry
`(0, 2) = −3000000/3001` and entry `(2, 0) = −1000000/3001`: the matrix is no
longer symmetric. -/
theorem C16_update_breaks_symmetry :
    (∀ r c : Nat, r < 3 → c < 3 →
      rls_entry 3 rls_pred_id3.matrix r c = if r = c then RLS_SCALE_FACTOR else 0) ∧
    rls_entry 3 (pred_update rls_cons2 rls_pred_id3 rls_tmp_zero 1 (fun _ => 1)).1.matrix 0 2 =
      -3000000 / 3001 ∧
    rls_entry 3 (pred_update rls_cons2 rls_pred_id3 rls_tmp_zero 1 (fun _ => 1)).1.matrix 2 0 =
      -1000000 / 3001 ∧
    rls_entry 3 (pred_update rls_cons2 rls_pred_id3 rls_tmp_zero 1 (fun _ => 1)).1.matrix 0 2 ≠
      rls_entry 3 (pred_update rls_cons2 rls_pred_id3 rls_tmp_zero 1 (fun _ => 1)).1.matrix 2 0 := by
  have h02 : rls_entry 3
      (pred_update rls_cons2 rls_pred_id3 rls_tmp_zero 1 (fun _ => 1)).1.matrix 0 2 =
      -3000000 / 3001 := by
    simp [pred_update, pred_update_input, pred_update_divisor, matrix_vector_multiply,
      matrix_matrix_multiply, rls_index, rls_entry, rls_cons2, rls_pred_id3, rls_tmp_zero,
      List.range_succ, Function.update_apply, RLS_LAMBDA, range'_one_two]
    norm_num
  have h20 : rls_entry 3
      (pred_update rls_cons2 rls_pred_id3 rls_tmp_zero 1 (fun _ => 1)).1.matrix 2 0 =
      -1000000 / 3001 := by
    simp [pred_update, pred_update_input, pred_update_divisor, matrix_vector_multiply,
      matrix_matrix_multiply, rls_index, rls_entry, rls_cons2, rls_pred_id3, rls_tmp_zero,
      List.range_succ, Function.update_apply, RLS_LAMBDA, range'_one_two]
    norm_num
  refine ⟨?_, h02, h20, ?_⟩
  · intro r c hr hc
    interval_cases r <;> interval_cases c <;>
      simp [rls_entry, rls_pred_id3, RLS_SCALE_FACTOR]
  · rw [h02, h20]
    norm_num

/-! ### RLS: the divisor -/

/-- C17 as stated fails: with one input, a gain array starting with `-3`,
`X0 = 1`, state `[1]`, target `1` and cached prediction `0`, the divisor is
`-2`, not positive, and `pred_update` still divides by it and moves weight `0`
from `0` to `3/2`. -/
theorem C17_no_guard_counterexample :
    pred_update_divisor
      (pred_update_input rls_cons1 rls_tmp_zero.tmp_input (fun _ => 1)).tmp_input
      (matrix_vector_multiply rls_cons1 rls_pred_neg.matrix
        (pred_update_input rls_cons1 rls_tmp_zero.tmp_input (fun _ => 1)).tmp_input
        rls_tmp_zero.tmp_vec rls_pred_neg.weights_length)
      rls_pred_neg.weights_length = -2 ∧
    rls_pred_neg.weights 0 = 0 ∧
    (pred_update rls_cons1 rls_pred_neg rls_tmp_zero 1 (fun _ => 1)).1.weights 0 = 3 / 2 := by
  refine ⟨?_, rfl, ?_⟩
  · simp [pred_update_input, pred_update_divisor, matrix_vector_multiply, rls_index, rls_cons1,
      rls_pred_neg, rls_tmp_zero, List.range_succ, Function.update_apply, RLS_LAMBDA]
    norm_num
  · simp [pred_update, pred_update_input, pred_update_divisor, matrix_vector_multiply,
      matrix_matrix_multiply, rls_index, rls_cons1, rls_pred_neg, rls_tmp_zero,
      List.range_succ, Function.update_apply, RLS_LAMBDA]
    norm_num

/-- C17, amended: `pred_update` has no guard on its divisor. Whatever the value
of `divisor = RLS_LAMBDA + Σ_i tmp_input[i]·tmp_vec[i]`, every entry
`i < weights_length` of the gain vector is divided by it, and weight `i` becomes
`weights[i] + (p − pre)·tmp_vec[i]/divisor`; the update is never skipped. -/
theorem C17_update_always_divides (cons : RLS_CONS) (pred : PRED) (tmp : RLS_TMP) (p : ℚ)
    (state : Nat → ℚ) (i : Nat) (hi : (i : Int) < pred.weights_length) :
    (pred_update cons pred tmp p state).2.tmp_vec i =
      matrix_vector_multiply cons pred.matrix
          (pred_update_input cons tmp.tmp_input state).tmp_input tmp.tmp_vec
          pred.weights_length i /
        pred_update_divisor (pred_update_input cons tmp.tmp_input state).tmp_input
          (matrix_vector_multiply cons pred.matrix
            (pred_update_input cons tmp.tmp_input state).tmp_input tmp.tmp_vec
            pred.weights_length)
          pred.weights_length ∧
    (pred_update cons pred tmp p state).1.weights i =
      pred.weights i + (p - pred.pre) * (pred_update cons pred tmp p state).2.tmp_vec i := by
  have hi' : i < pred.weights_length.toNat := by omega
  constructor
  · simp only [pred_update]
    rw [foldl_update_rows (fun v _ => v / _), if_pos hi']
  · have hw : (pred_update cons pred tmp p state).1.weights =
        (List.range pred.weights_length.toNat).foldl
          (fun w k => Function.update w k
            (w k + (p - pred.pre) * (pred_update cons pred tmp p state).2.tmp_vec k))
          pred.weights := rfl
    rw [hw, foldl_update_rows
      (fun w k => w + (p - pred.pre) * (pred_update cons pred tmp p state).2.tmp_vec k),
      if_pos hi']

/-- A concrete instance of the amended C17: the input of the counterexample,
where the divisor is `-2`: the gain entry `0` is `-3 / -2 = 3/2` and weight `0`
becomes `0 + 1·3/2`. -/
theorem C17_update_always_divides_witness :
    (0 : Int) < rls_pred_neg.weights_length ∧
    (pred_update rls_cons1 rls_pred_neg rls_tmp_zero 1 (fun _ => 1)).1.weights 0 =
      rls_pred_neg.weights 0 + (1 - rls_pred_neg.pre) *
        (pred_update rls_cons1 rls_pred_neg rls_tmp_zero 1 (fun _ => 1)).2.tmp_vec 0 :=
  have h0 : ((0 : Nat) : Int) < rls_pred_neg.weights_length := by decide
  ⟨by decide, (C17_update_always_divides rls_cons1 rls_pred_neg rls_tmp_zero 1 (fun _ => 1) 0 h0).2⟩

/-! ### The wrapper and the global parameter record -/

/-- C18, the code at a failing input: two outputs, two input rows `[0]` and
`[1]`, system prediction `[10·x, 10·x + 1]`. `xcsf_predict` stores row `1`'s
prediction at `output[2], output[3]`, but `XCS::predict` declares the strides
`(sizeof(double), sizeof(double))`, so element `(1, 0)` of the array it returns
is `output[1] = 1`, component `1` of row `0`, not `output[1·2 + 0] = 10`. -/
theorem C18_predict_declares_wrong_stride :
    (XCS_predict predict_row_sample xcsf_two_out () (fun _ => 0) ndarray_two_rows).2.shape =
      (2, 2) ∧
    (XCS_predict predict_row_sample xcsf_two_out () (fun _ => 0) ndarray_two_rows).2.data 1 = 1 ∧
    (XCS_predict predict_row_sample xcsf_two_out () (fun _ => 0) ndarray_two_rows).2.data 2 = 10 ∧
    (XCS_predict predict_row_sample xcsf_two_out () (fun _ => 0) ndarray_two_rows).2.get 1 0 = 1 := by
  have hout : (xcsf_predict predict_row_sample xcsf_two_out () ndarray_two_rows.data
      (fun _ => 0) 2).2 1 = 1 ∧
      (xcsf_predict predict_row_sample xcsf_two_out () ndarray_two_rows.data
      (fun _ => 0) 2).2 2 = 10 := by
    constructor <;>
      simp [xcsf_predict, predict_row_sample, xcsf_two_out, xcsf_unit, ndarray_two_rows,
        List.range_succ]
  refine ⟨rfl, hout.1, hout.2, ?_⟩
  have hidx : (((1 : Nat) : Int) * sizeof_double + ((0 : Nat) : Int) * sizeof_double) /
      sizeof_double = 1 := by decide
  show (xcsf_predict predict_row_sample xcsf_two_out () ndarray_two_rows.data
      (fun _ => 0) 2).2
    ((((1 : Nat) : Int) * sizeof_double + ((0 : Nat) : Int) * sizeof_double) /
      sizeof_double).toNat = 1
  rw [hidx]
  exact hout.1

/-- C19, the code at a failing input: one input and one output are declared,
and `X` is `3×5`, `Y` is `3×4` (and the test arrays likewise). Both overloads
of `XCS::fit` compare row counts only (and, with test data, the training
columns with the test columns), so neither reports an error: each loads the
data with `x_cols = 5` and runs the engine. -/
theorem C19_fit_accepts_wrong_columns (pop_init : XCS Unit → XCS Unit)
    (engine_fit : XCS Unit → Bool → XCS Unit) (shuffle : Bool) :
    xcs_object.xcs.num_x_vars = 1 ∧ xcs_object.xcs.num_y_vars = 1 ∧
    (XCS_fit1 pop_init engine_fit xcs_object (ndarray_zeros 3 5) (ndarray_zeros 3 4)
      shuffle).error = none ∧
    (XCS_fit1 pop_init engine_fit xcs_object (ndarray_zeros 3 5) (ndarray_zeros 3 4)
      shuffle).self =
      engine_fit (pop_init { xcs_object with train_data :=
        { rows := 3, x_cols := 5, y_cols := 4, x := fun _ => 0, y := fun _ => 0 } }) shuffle ∧
    (XCS_fit2 pop_init engine_fit xcs_object (ndarray_zeros 3 5) (ndarray_zeros 3 4)
      (ndarray_zeros 2 5) (ndarray_zeros 2 4) shuffle).error = none ∧
    (XCS_fit2 pop_init engine_fit xcs_object (ndarray_zeros 3 5) (ndarray_zeros 3 4)
      (ndarray_zeros 2 5) (ndarray_zeros 2 4) shuffle).self =
      engine_fit (pop_init { xcs_object with
        train_data := { rows := 3, x_cols := 5, y_cols := 4, x := fun _ => 0, y := fun _ => 0 },
        test_data := { rows := 2, x_cols := 5, y_cols := 4, x := fun _ => 0, y := fun _ => 0 } })
        shuffle := by
  refine ⟨rfl, rfl, ?_, ?_, ?_, ?_⟩ <;>
    simp [XCS_fit1, XCS_fit2, ndarray_zeros, xcs_object]

/-- C20, the code at a failing input: `NUM_SAM = 2`, `sam_adapt` gives the rates
`[1/2, 1/2]`, and the globals are `P_MUTATION = 1/25`, `S_MUTATION = 1/10`.
After `cond_rectangle_mutate` the global `P_MUTATION` is `1/2` (the step is kept
in a local, so `S_MUTATION` stays); after `cond_gp_mutate` both globals are
`1/2`. -/
theorem C20_mutate_writes_globals :
    xcsf_sam2.P_MUTATION = 1 / 25 ∧ xcsf_sam2.S_MUTATION = 1 / 10 ∧
    (cond_rectangle_mutate sam_adapt_half xcsf_sam2 (rect 0 1) (rng_const 0)).xcsf.P_MUTATION
      = 1 / 2 ∧
    (cond_rectangle_mutate sam_adapt_half xcsf_sam2 (rect 0 1) (rng_const 0)).xcsf.S_MUTATION
      = 1 / 10 ∧
    (cond_gp_mutate sam_adapt_half tree_mutation_unit xcsf_sam2
      { gp := (), m := false, mu := fun _ => 0 } (rng_const 0)).xcsf.P_MUTATION = 1 / 2 ∧
    (cond_gp_mutate sam_adapt_half tree_mutation_unit xcsf_sam2
      { gp := (), m := false, mu := fun _ => 0 } (rng_const 0)).xcsf.S_MUTATION = 1 / 2 := by
  have h0 : xcsf_sam2.NUM_SAM > 0 := by decide
  have h1 : xcsf_sam2.NUM_SAM > 1 := by decide
  refine ⟨rfl, rfl, ?_, ?_, ?_, ?_⟩
  · simp only [cond_rectangle_mutate, if_pos h0, cond_rectangle_mutate_loop, sam_adapt_half]
  · simp only [cond_rectangle_mutate, if_pos h0, cond_rectangle_mutate_loop]
    rfl
  · simp only [cond_gp_mutate, if_pos h0, if_pos h1, cond_gp_mutate_tree, sam_adapt_half]
    split_ifs <;> rfl
  · simp only [cond_gp_mutate, if_pos h0, if_pos h1, cond_gp_mutate_tree, sam_adapt_half]
    split_ifs <;> rfl

/-! ### Mutation rates -/

/-- One iteration of the loop of `cond_rectangle_mutate`, bound by bound: a draw
below `P_MUTATION` adds `(2·draw − 1)·step` to the bound, then the pair goes
through `cond_rectangle_bounds`. -/
theorem cond_rectangle_mutate_step_spec (xcsf : XCSF) (step : ℚ) (s : MutateState) (i : Nat) :
    (cond_rectangle_mutate_step xcsf step s i).cond.lower i =
      (cond_rectangle_bounds xcsf
        (if s.rng.draws s.rng.pos < xcsf.P_MUTATION then
          s.cond.lower i + ((s.rng.draws (s.rng.pos + 1) * 2) - 1) * step
         else s.cond.lower i)
        (if s.rng.draws
            (if s.rng.draws s.rng.pos < xcsf.P_MUTATION then s.rng.pos + 2 else s.rng.pos + 1)
            < xcsf.P_MUTATION then
          s.cond.upper i + ((s.rng.draws
            ((if s.rng.draws s.rng.pos < xcsf.P_MUTATION then s.rng.pos + 2 else s.rng.pos + 1)
              + 1) * 2) - 1) * step
         else s.cond.upper i)).1 ∧
    (cond_rectangle_mutate_step xcsf step s i).cond.upper i =
      (cond_rectangle_bounds xcsf
        (if s.rng.draws s.rng.pos < xcsf.P_MUTATION then
          s.cond.lower i + ((s.rng.draws (s.rng.pos + 1) * 2) - 1) * step
         else s.cond.lower i)
        (if s.rng.draws
            (if s.rng.draws s.rng.pos < xcsf.P_MUTATION then s.rng.pos + 2 else s.rng.pos + 1)
            < xcsf.P_MUTATION then
          s.cond.upper i + ((s.rng.draws
            ((if s.rng.draws s.rng.pos < xcsf.P_MUTATION then s.rng.pos + 2 else s.rng.pos + 1)
              + 1) * 2) - 1) * step
         else s.cond.upper i)).2 := by
  unfold cond_rectangle_mutate_step
  dsimp only [drand]
  by_cases h1 : s.rng.draws s.rng.pos < xcsf.P_MUTATION
  · simp only [if_pos h1]
    by_cases h2 : s.rng.draws (s.rng.pos + 1 + 1) < xcsf.P_MUTATION
    · have h2' : s.rng.draws (s.rng.pos + 2) < xcsf.P_MUTATION := h2
      simp [if_pos h2, if_pos h2', cond_rectangle_bounds_at]
    · have h2' : ¬ s.rng.draws (s.rng.pos + 2) < xcsf.P_MUTATION := h2
      simp [if_neg h2, if_neg h2', cond_rectangle_bounds_at]
  · simp only [if_neg h1]
    by_cases h2 : s.rng.draws (s.rng.pos + 1) < xcsf.P_MUTATION
    · simp [if_pos h2, cond_rectangle_bounds_at]
    · simp [if_neg h2, cond_rectangle_bounds_at]

/-! ### Generality is not strict -/

/-- C22 as stated fails: `cond_rectangle_general` returns true on two conditions
with the same bounds `(0, 1)`. -/
theorem C22_general_reflexive_counterexample :
    cond_rectangle_general xcsf_unit (rect 0 1) (rect 0 1) = true := by
  norm_num [cond_rectangle_general, cond_rectangle_general_loop, xcsf_unit, rect,
    List.range_succ]

/-- C22, amended: `cond_rectangle_general(c1, c2)` reports whether `c1` is at
least as general as `c2`. It returns true whenever `c1` and `c2` have the same
lower and upper bounds in every dimension; in particular `general(c, c)` is
true. -/
theorem C22_general_on_equal_bounds (xcsf : XCSF) (c1 c2 : COND_RECTANGLE)
    (h : ∀ i : Nat, (i : Int) < xcsf.num_x_vars →
      c1.lower i = c2.lower i ∧ c1.upper i = c2.upper i) :
    cond_rectangle_general xcsf c1 c2 = true ∧ cond_rectangle_general xcsf c1 c1 = true := by
  constructor
  · rw [cond_rectangle_general_iff]
    intro i hi
    exact ⟨le_of_eq (h i hi).1, le_of_eq (h i hi).2.symm⟩
  · rw [cond_rectangle_general_iff]
    intro i _
    exact ⟨le_refl _, le_refl _⟩

/-- A concrete instance of the amended C22: two conditions that differ only in
their match flag and rates. -/
theorem C22_general_on_equal_bounds_witness :
    cond_rectangle_general xcsf_quad cond_sample { cond_sample with m := false } = true :=
  (C22_general_on_equal_bounds xcsf_quad cond_sample { cond_sample with m := false }
    (fun _ _ => ⟨rfl, rfl⟩)).1

/-! ### Crossover -/

/-- One iteration of the loop of `cond_rectangle_crossover`: two draws, the
exchanges they decide, and the clamped pairs of dimension `i`. -/
theorem crossover_step_spec (xcsf : XCSF) (s : CrossoverState) (i : Nat) :
    (cond_rectangle_crossover_step xcsf s i).rng.pos = s.rng.pos + 2 ∧
    (cond_rectangle_crossover_step xcsf s i).rng.draws = s.rng.draws ∧
    ((cond_rectangle_crossover_step xcsf s i).changed = true ↔
      (s.changed = true ∨ s.rng.draws s.rng.pos < 1 / 2 ∨ s.rng.draws (s.rng.pos + 1) < 1 / 2)) ∧
    (cond_rectangle_crossover_step xcsf s i).cond1.lower i =
      (crossover_pair xcsf s.cond1 s.cond2 (s.rng.draws s.rng.pos)
        (s.rng.draws (s.rng.pos + 1)) i).1 ∧
    (cond_rectangle_crossover_step xcsf s i).cond1.upper i =
      (crossover_pair xcsf s.cond1 s.cond2 (s.rng.draws s.rng.pos)
        (s.rng.draws (s.rng.pos + 1)) i).2 ∧
    (cond_rectangle_crossover_step xcsf s i).cond2.lower i =
      (crossover_pair xcsf s.cond2 s.cond1 (s.rng.draws s.rng.pos)
        (s.rng.draws (s.rng.pos + 1)) i).1 ∧
    (cond_rectangle_crossover_step xcsf s i).cond2.upper i =
      (crossover_pair xcsf s.cond2 s.cond1 (s.rng.draws s.rng.pos)
        (s.rng.draws (s.rng.pos + 1)) i).2 ∧
    ∀ j, j ≠ i →
      (cond_rectangle_crossover_step xcsf s i).cond1.lower j = s.cond1.lower j ∧
      (cond_rectangle_crossover_step xcsf s i).cond1.upper j = s.cond1.upper j ∧
      (cond_rectangle_crossover_step xcsf s i).cond2.lower j = s.cond2.lower j ∧
      (cond_rectangle_crossover_step xcsf s i).cond2.upper j = s.cond2.upper j := by
  unfold cond_rectangle_crossover_step crossover_pair
  dsimp only [drand]
  refine ⟨?_, ?_, ?_, ?_, ?_, ?_, ?_, ?_⟩ <;> (try intro j hji) <;>
    by_cases h1 : s.rng.draws s.rng.pos < 1 / 2 <;>
    by_cases h2 : s.rng.draws (s.rng.pos + 1) < 1 / 2 <;>
    (try simp only [h1, if_true, if_false]) <;>
    (try simp only [h2, if_true, if_false]) <;>
    first
      | done
      | simp [cond_rectangle_bounds_at, Function.update_noteq hji]
      | simp [cond_rectangle_bounds_at]

/-- What the loop of `cond_rectangle_crossover` has done after `k` iterations. -/
theorem crossover_fold_spec (xcsf : XCSF) (s0 : CrossoverState) :
    ∀ k : Nat,
    ((List.range k).foldl (cond_rectangle_crossover_step xcsf) s0).rng.pos = s0.rng.pos + 2 * k ∧
    ((List.range k).foldl (cond_rectangle_crossover_step xcsf) s0).rng.draws = s0.rng.draws ∧
    (((List.range k).foldl (cond_rectangle_crossover_step xcsf) s0).changed = true ↔
      (s0.changed = true ∨ ∃ i, i < k ∧
        (s0.rng.draws (s0.rng.pos + 2 * i) < 1 / 2 ∨
          s0.rng.draws (s0.rng.pos + 2 * i + 1) < 1 / 2))) ∧
    (∀ i, i < k →
      ((List.range k).foldl (cond_rectangle_crossover_step xcsf) s0).cond1.lower i =
        (crossover_pair xcsf s0.cond1 s0.cond2 (s0.rng.draws (s0.rng.pos + 2 * i))
          (s0.rng.draws (s0.rng.pos + 2 * i + 1)) i).1 ∧
      ((List.range k).foldl (cond_rectangle_crossover_step xcsf) s0).cond1.upper i =
        (crossover_pair xcsf s0.cond1 s0.cond2 (s0.rng.draws (s0.rng.pos + 2 * i))
          (s0.rng.draws (s0.rng.pos + 2 * i + 1)) i).2 ∧
      ((List.range k).foldl (cond_rectangle_crossover_step xcsf) s0).cond2.lower i =
        (crossover_pair xcsf s0.cond2 s0.cond1 (s0.rng.draws (s0.rng.pos + 2 * i))
          (s0.rng.draws (s0.rng.pos + 2 * i + 1)) i).1 ∧
      ((List.range k).foldl (cond_rectangle_crossover_step xcsf) s0).cond2.upper i =
        (crossover_pair xcsf s0.cond2 s0.cond1 (s0.rng.draws (s0.rng.pos + 2 * i))
          (s0.rng.draws (s0.rng.pos + 2 * i + 1)) i).2) ∧
    (∀ i, k ≤ i →
      ((List.range k).foldl (cond_rectangle_crossover_step xcsf) s0).cond1.lower i =
        s0.cond1.lower i ∧
      ((List.range k).foldl (cond_rectangle_crossover_step xcsf) s0).cond1.upper i =
        s0.cond1.upper i ∧
      ((List.range k).foldl (cond_rectangle_crossover_step xcsf) s0).cond2.lower i =
        s0.cond2.lower i ∧
      ((List.range k).foldl (cond_rectangle_crossover_step xcsf) s0).cond2.upper i =
        s0.cond2.upper i) := by
  intro k
  induction k with
  | zero =>
    refine ⟨rfl, rfl, ?_, ?_, ?_⟩
    · simp
    · intro i hi
      exact absurd hi (Nat.not_lt_zero i)
    · intro i _
      exact ⟨rfl, rfl, rfl, rfl⟩
  | succ k ih =>
    obtain ⟨hpos, hdraws, hch, hlt, hge⟩ := ih
    rw [List.range_succ, List.foldl_append]
    simp only [List.foldl_cons, List.foldl_nil]
    obtain ⟨spos, sdraws, sch, s1l, s1u, s2l, s2u, sother⟩ :=
      crossover_step_spec xcsf ((List.range k).foldl (cond_rectangle_crossover_step xcsf) s0) k
    obtain ⟨g1l, g1u, g2l, g2u⟩ := hge k (le_refl k)
    refine ⟨?_, ?_, ?_, ?_, ?_⟩
    · rw [spos, hpos]; ring
    · rw [sdraws, hdraws]
    · rw [sch, hch, hdraws, hpos]
      constructor
      · rintro (h | h | h)
        · rcases h with h | ⟨i, hi, h⟩
          · exact Or.inl h
          · exact Or.inr ⟨i, by omega, h⟩
        · exact Or.inr ⟨k, by omega, Or.inl h⟩
        · exact Or.inr ⟨k, by omega, Or.inr h⟩
      · rintro (h | ⟨i, hi, h⟩)
        · exact Or.inl (Or.inl h)
        · by_cases hik : i = k
          · subst hik
            rcases h with h | h
            · exact Or.inr (Or.inl h)
            · exact Or.inr (Or.inr h)
          · exact Or.inl (Or.inr ⟨i, by omega, h⟩)
    · intro i hi
      by_cases hik : i = k
      · subst hik
        rw [s1l, s1u, s2l, s2u, hdraws, hpos]
        simp only [crossover_pair, g1l, g1u, g2l, g2u, and_self]
      · obtain ⟨o1, o2, o3, o4⟩ := sother i hik
        rw [o1, o2, o3, o4]
        exact hlt i (by omega)
    · intro i hi
      obtain ⟨o1, o2, o3, o4⟩ := sother i (by omega)
      rw [o1, o2, o3, o4]
      exact hge i (by omega)

/-- C27: `cond_rectangle_crossover`. If the first draw is at least `P_CROSSOVER`,
both conditions stay as they are and the result is false. Otherwise dimension
`i` takes the next two draws: the first below `1/2` exchanges the two
`lower[i]`, the second below `1/2` exchanges the two `upper[i]`, and both pairs
are then clamped; the result is true exactly when some draw of some dimension
was below `1/2`, that is, when an exchange was made. -/
theorem C27_crossover_behaviour (xcsf : XCSF) (cond1 cond2 : COND_RECTANGLE) (rng : Rng) :
    (xcsf.P_CROSSOVER ≤ rng.draws rng.pos →
      (cond_rectangle_crossover xcsf cond1 cond2 rng).cond1 = cond1 ∧
      (cond_rectangle_crossover xcsf cond1 cond2 rng).cond2 = cond2 ∧
      (cond_rectangle_crossover xcsf cond1 cond2 rng).changed = false) ∧
    (rng.draws rng.pos < xcsf.P_CROSSOVER →
      (∀ i : Nat, (i : Int) < xcsf.num_x_vars →
        (cond_rectangle_crossover xcsf cond1 cond2 rng).cond1.lower i =
          (crossover_pair xcsf cond1 cond2 (rng.draws (rng.pos + 1 + 2 * i))
            (rng.draws (rng.pos + 1 + 2 * i + 1)) i).1 ∧
        (cond_rectangle_crossover xcsf cond1 cond2 rng).cond1.upper i =
          (crossover_pair xcsf cond1 cond2 (rng.draws (rng.pos + 1 + 2 * i))
            (rng.draws (rng.pos + 1 + 2 * i + 1)) i).2 ∧
        (cond_rectangle_crossover xcsf cond1 cond2 rng).cond2.lower i =
          (crossover_pair xcsf cond2 cond1 (rng.draws (rng.pos + 1 + 2 * i))
            (rng.draws (rng.pos + 1 + 2 * i + 1)) i).1 ∧
        (cond_rectangle_crossover xcsf cond1 cond2 rng).cond2.upper i =
          (crossover_pair xcsf cond2 cond1 (rng.draws (rng.pos + 1 + 2 * i))
            (rng.draws (rng.pos + 1 + 2 * i + 1)) i).2) ∧
      ((cond_rectangle_crossover xcsf cond1 cond2 rng).changed = true ↔
        ∃ i : Nat, (i : Int) < xcsf.num_x_vars ∧
          (rng.draws (rng.pos + 1 + 2 * i) < 1 / 2 ∨
            rng.draws (rng.pos + 1 + 2 * i + 1) < 1 / 2))) := by
  constructor
  · intro h
    unfold cond_rectangle_crossover
    dsimp only [drand]
    rw [if_neg (not_lt.mpr h)]
    exact ⟨rfl, rfl, rfl⟩
  · intro h
    obtain ⟨-, -, hch, hlt, -⟩ := crossover_fold_spec xcsf
      { changed := false, cond1 := cond1, cond2 := cond2, rng := (drand rng).2 }
      xcsf.num_x_vars.toNat
    have hr : cond_rectangle_crossover xcsf cond1 cond2 rng =
        (List.range xcsf.num_x_vars.toNat).foldl (cond_rectangle_crossover_step xcsf)
          { changed := false, cond1 := cond1, cond2 := cond2, rng := (drand rng).2 } := by
      unfold cond_rectangle_crossover
      dsimp only [drand]
      rw [if_pos h]
    rw [hr]
    constructor
    · intro i hi
      exact hlt i (by omega)
    · rw [hch]
      constructor
      · rintro (h0 | ⟨i, hi, hd⟩)
        · exact absurd h0 Bool.false_ne_true
        · exact ⟨i, by omega, hd⟩
      · rintro ⟨i, hi, hd⟩
        exact Or.inr ⟨i, by omega, hd⟩

/-- A concrete instance of C27: with every draw `0` (below `P_CROSSOVER = 4/5`
and below `1/2`) the conditions `(0, 1)` and `(1/4, 3/4)` exchange both bounds;
with every draw `9/10` nothing happens. -/
theorem C27_crossover_behaviour_witness :
    xcsf_unit.P_CROSSOVER ≤ (rng_const (9 / 10)).draws (rng_const (9 / 10)).pos ∧
    (rng_const 0).draws (rng_const 0).pos < xcsf_unit.P_CROSSOVER ∧
    (cond_rectangle_crossover xcsf_unit (rect 0 1) (rect (1 / 4) (3 / 4))
      (rng_const (9 / 10))).changed = false ∧
    (cond_rectangle_crossover xcsf_unit (rect 0 1) (rect (1 / 4) (3 / 4))
      (rng_const 0)).changed = true ∧
    (cond_rectangle_crossover xcsf_unit (rect 0 1) (rect (1 / 4) (3 / 4))
      (rng_const 0)).cond1.lower 0 = 1 / 4 := by
  have h9 : xcsf_unit.P_CROSSOVER ≤ (rng_const (9 / 10)).draws (rng_const (9 / 10)).pos := by
    norm_num [xcsf_unit, rng_const]
  have h0 : (rng_const 0).draws (rng_const 0).pos < xcsf_unit.P_CROSSOVER := by
    norm_num [xcsf_unit, rng_const]
  have k9 := (C27_crossover_behaviour xcsf_unit (rect 0 1) (rect (1 / 4) (3 / 4))
    (rng_const (9 / 10))).1 h9
  have k0 := (C27_crossover_behaviour xcsf_unit (rect 0 1) (rect (1 / 4) (3 / 4))
    (rng_const 0)).2 h0
  have hi : ((0 : Nat) : Int) < xcsf_unit.num_x_vars := by decide
  refine ⟨h9, h0, k9.2.2, ?_, ?_⟩
  · rw [k0.2]
    exact ⟨0, hi, Or.inl (by norm_num [rng_const])⟩
  · rw [(k0.1 0 hi).1]
    norm_num [crossover_pair, cond_rectangle_bounds, rng_const, rect, xcsf_unit]

theorem cond_rectangle_bounds_in_range (xcsf : XCSF) (l u : ℚ)
    (hl : xcsf.MIN_CON ≤ l ∧ l ≤ xcsf.MAX_CON) (hu : xcsf.MIN_CON ≤ u ∧ u ≤ xcsf.MAX_CON) :
    cond_rectangle_bounds xcsf l u = if l > u then (u, l) else (l, u) := by
  unfold cond_rectangle_bounds
  dsimp only
  rw [if_neg (not_lt.mpr hl.1), if_neg (not_lt.mpr hl.2), if_neg (not_lt.mpr hu.1),
    if_neg (not_lt.mpr hu.2)]

/-- The four bounds of one dimension are the same before and after the clamped
exchanges, when all four lie in the legal range. -/
theorem crossover_pair_multiset (xcsf : XCSF) (c1 c2 : COND_RECTANGLE) (d1 d2 : ℚ) (i : Nat)
    (h1 : BoundedAt xcsf c1 i) (h2 : BoundedAt xcsf c2 i) :
    ({(crossover_pair xcsf c1 c2 d1 d2 i).1, (crossover_pair xcsf c1 c2 d1 d2 i).2,
      (crossover_pair xcsf c2 c1 d1 d2 i).1, (crossover_pair xcsf c2 c1 d1 d2 i).2} :
        Multiset ℚ) =
      {c1.lower i, c1.upper i, c2.lower i, c2.upper i} := by
  obtain ⟨a1, a2, a3⟩ := h1
  obtain ⟨b1, b2, b3⟩ := h2
  have r1l : xcsf.MIN_CON ≤ c1.lower i ∧ c1.lower i ≤ xcsf.MAX_CON := ⟨a1, by linarith⟩
  have r1u : xcsf.MIN_CON ≤ c1.upper i ∧ c1.upper i ≤ xcsf.MAX_CON := ⟨by linarith, a3⟩
  have r2l : xcsf.MIN_CON ≤ c2.lower i ∧ c2.lower i ≤ xcsf.MAX_CON := ⟨b1, by linarith⟩
  have r2u : xcsf.MIN_CON ≤ c2.upper i ∧ c2.upper i ≤ xcsf.MAX_CON := ⟨by linarith, b3⟩
  unfold crossover_pair
  by_cases hd1 : d1 < 1 / 2 <;> by_cases hd2 : d2 < 1 / 2 <;>
    simp only [hd1, hd2, if_true, if_false] <;>
    rw [cond_rectangle_bounds_in_range xcsf _ _ (by assumption) (by assumption),
      cond_rectangle_bounds_in_range xcsf _ _ (by assumption) (by assumption)] <;>
    split_ifs <;>
    simp only [Multiset.insert_eq_cons, ← Multiset.singleton_add] <;>
    ac_rfl

/-- C28: crossover conserves bound values. If `MIN_CON ≤ MAX_CON` and both
conditions satisfy the bounds law beforehand, then for every stream of draws
and every dimension `i < num_x_vars` the multiset of the four values
`c1.lower[i], c1.upper[i], c2.lower[i], c2.upper[i]` is the same after
`cond_rectangle_crossover` as before. -/
theorem C28_crossover_conserves_bounds (xcsf : XCSF) (cond1 cond2 : COND_RECTANGLE) (rng : Rng)
    (_h : xcsf.MIN_CON ≤ xcsf.MAX_CON) (h1 : RectBounded xcsf cond1)
    (h2 : RectBounded xcsf cond2) (i : Nat) (hi : (i : Int) < xcsf.num_x_vars) :
    ({(cond_rectangle_crossover xcsf cond1 cond2 rng).cond1.lower i,
      (cond_rectangle_crossover xcsf cond1 cond2 rng).cond1.upper i,
      (cond_rectangle_crossover xcsf cond1 cond2 rng).cond2.lower i,
      (cond_rectangle_crossover xcsf cond1 cond2 rng).cond2.upper i} : Multiset ℚ) =
      {cond1.lower i, cond1.upper i, cond2.lower i, cond2.upper i} := by
  by_cases hd : rng.draws rng.pos < xcsf.P_CROSSOVER
  · obtain ⟨-, -, -, hlt, -⟩ := crossover_fold_spec xcsf
      { changed := false, cond1 := cond1, cond2 := cond2, rng := (drand rng).2 }
      xcsf.num_x_vars.toNat
    have hr : cond_rectangle_crossover xcsf cond1 cond2 rng =
        (List.range xcsf.num_x_vars.toNat).foldl (cond_rectangle_crossover_step xcsf)
          { changed := false, cond1 := cond1, cond2 := cond2, rng := (drand rng).2 } := by
      unfold cond_rectangle_crossover
      dsimp only [drand]
      rw [if_pos hd]
    obtain ⟨e1, e2, e3, e4⟩ := hlt i (by omega)
    rw [hr, e1, e2, e3, e4]
    exact crossover_pair_multiset xcsf cond1 cond2 _ _ i (h1 i hi) (h2 i hi)
  · have hr : cond_rectangle_crossover xcsf cond1 cond2 rng =
        { changed := false, cond1 := cond1, cond2 := cond2, rng := (drand rng).2 } := by
      unfold cond_rectangle_crossover
      dsimp only [drand]
      rw [if_neg hd]
    rw [hr]

/-- A concrete instance of C28: `(0, 1)` crossed with `(1/4, 3/4)` in the range
`[0, 1]`, every draw `0`. -/
theorem C28_crossover_conserves_bounds_witness :
    xcsf_unit.MIN_CON ≤ xcsf_unit.MAX_CON ∧
    ({(cond_rectangle_crossover xcsf_unit (rect 0 1) (rect (1 / 4) (3 / 4))
        (rng_const 0)).cond1.lower 0,
      (cond_rectangle_crossover xcsf_unit (rect 0 1) (rect (1 / 4) (3 / 4))
        (rng_const 0)).cond1.upper 0,
      (cond_rectangle_crossover xcsf_unit (rect 0 1) (rect (1 / 4) (3 / 4))
        (rng_const 0)).cond2.lower 0,
      (cond_rectangle_crossover xcsf_unit (rect 0 1) (rect (1 / 4) (3 / 4))
        (rng_const 0)).cond2.upper 0} : Multiset ℚ) =
      {(rect 0 1).lower 0, (rect 0 1).upper 0, (rect (1 / 4) (3 / 4)).lower 0,
        (rect (1 / 4) (3 / 4)).upper 0} :=
  have hle : xcsf_unit.MIN_CON ≤ xcsf_unit.MAX_CON := by norm_num [xcsf_unit]
  ⟨hle, C28_crossover_conserves_bounds xcsf_unit (rect 0 1) (rect (1 / 4) (3 / 4)) (rng_const 0)
    hle (rectBounded_rect 0 1 (by norm_num) (by norm_num) (by norm_num))
    (rectBounded_rect (1 / 4) (3 / 4) (by norm_num) (by norm_num) (by norm_num)) 0
    (by decide)⟩

/-! ### NLMS: one step contracts the error -/

/-- With linear features the squares of the features add up to `norm`. -/
theorem nlms_features_sq_sum_linear (xcsf : XCSF) (x : Nat → ℚ) (hlin : xcsf.PRED_TYPE ≠ 1) :
    ∑ k in Finset.range (nlms_features xcsf x).length,
        (nlms_features xcsf x).getD k 0 * (nlms_features xcsf x).getD k 0 =
      pred_nlms_norm xcsf x := by
  have hf : nlms_features xcsf x =
      xcsf.XCSF_X0 :: (List.range xcsf.num_x_vars.toNat).map x := by
    unfold nlms_features
    rw [if_neg hlin, List.append_nil]
  rw [hf, pred_nlms_norm_eq, List.length_cons, Finset.sum_range_succ', List.length_map,
    List.length_range]
  simp only [List.getD_cons_succ, List.getD_cons_zero]
  rw [add_comm]
  congr 1
  apply Finset.sum_congr rfl
  intro k hk
  have hk' : k < xcsf.num_x_vars.toNat := Finset.mem_range.mp hk
  rw [getD_map_of_lt x 0 (List.range xcsf.num_x_vars.toNat) k (by simpa using hk'),
    getD_range_of_lt _ k hk']

/-- C29: one NLMS step with linear features. If `norm = X0² + Σ x[i]²` is not
zero, then after `compute(x)`, `update(y, x)`, `compute(x)` on one predictor,
every output `var < num_y_vars` has
`y[var] − pre_new[var] = (1 − ETA)·(y[var] − pre_old[var])`. With `ETA = 1` the
new prediction is `y[var]`, and when the error `y[var] − pre_old[var]` is zero
the update leaves the weight row as it was. -/
theorem C29_nlms_error_contraction (xcsf : XCSF) (pred : PRED_NLMS) (y x : Nat → ℚ) (var : Nat)
    (hlin : xcsf.PRED_TYPE ≠ 1) (hnorm : pred_nlms_norm xcsf x ≠ 0)
    (hvar : (var : Int) < xcsf.num_y_vars) :
    y var - (pred_nlms_compute xcsf
        (pred_nlms_update xcsf (pred_nlms_compute xcsf pred x) y x) x).pre var =
      (1 - xcsf.XCSF_ETA) * (y var - (pred_nlms_compute xcsf pred x).pre var) ∧
    (xcsf.XCSF_ETA = 1 →
      (pred_nlms_compute xcsf
        (pred_nlms_update xcsf (pred_nlms_compute xcsf pred x) y x) x).pre var = y var) ∧
    (y var - (pred_nlms_compute xcsf pred x).pre var = 0 →
      (pred_nlms_update xcsf (pred_nlms_compute xcsf pred x) y x).weights var =
        (pred_nlms_compute xcsf pred x).weights var) := by
  obtain ⟨hw1, -, hp1⟩ := pred_nlms_compute_spec xcsf pred x
  obtain ⟨-, -, hw2⟩ := pred_nlms_update_spec xcsf (pred_nlms_compute xcsf pred x) y x
  obtain ⟨-, -, hp3⟩ := pred_nlms_compute_spec xcsf
    (pred_nlms_update xcsf (pred_nlms_compute xcsf pred x) y x) x
  obtain ⟨hk, -, -⟩ := pred_nlms_update_var_spec xcsf (pred_nlms_compute xcsf pred x) y x var
  have hpre1 : (pred_nlms_compute xcsf pred x).pre var =
      ∑ k in Finset.range (nlms_features xcsf x).length,
        pred.weights var k * (nlms_features xcsf x).getD k 0 := by
    rw [hp1 var, if_pos hvar]
    exact (pred_nlms_compute_var_spec xcsf pred x var).1
  have hrow : ∀ k, (pred_nlms_update xcsf (pred_nlms_compute xcsf pred x) y x).weights var k =
      if k < (nlms_features xcsf x).length then
        pred.weights var k +
          pred_nlms_correction xcsf (pred_nlms_compute xcsf pred x) y x var *
            (nlms_features xcsf x).getD k 0
      else pred.weights var k := by
    intro k
    rw [hw2 var, if_pos hvar, hk k, hw1]
  have hpre3 : (pred_nlms_compute xcsf
      (pred_nlms_update xcsf (pred_nlms_compute xcsf pred x) y x) x).pre var =
      (pred_nlms_compute xcsf pred x).pre var +
        pred_nlms_correction xcsf (pred_nlms_compute xcsf pred x) y x var *
          pred_nlms_norm xcsf x := by
    rw [hp3 var, if_pos hvar, (pred_nlms_compute_var_spec xcsf _ x var).1, hpre1,
      ← nlms_features_sq_sum_linear xcsf x hlin, Finset.mul_sum, ← Finset.sum_add_distrib]
    apply Finset.sum_congr rfl
    intro k hk'
    rw [hrow k, if_pos (Finset.mem_range.mp hk')]
    ring
  have hcorr : pred_nlms_correction xcsf (pred_nlms_compute xcsf pred x) y x var *
      pred_nlms_norm xcsf x =
      xcsf.XCSF_ETA * (y var - (pred_nlms_compute xcsf pred x).pre var) := by
    unfold pred_nlms_correction
    field_simp
  have hmain : y var - (pred_nlms_compute xcsf
        (pred_nlms_update xcsf (pred_nlms_compute xcsf pred x) y x) x).pre var =
      (1 - xcsf.XCSF_ETA) * (y var - (pred_nlms_compute xcsf pred x).pre var) := by
    rw [hpre3, hcorr]
    ring
  refine ⟨hmain, ?_, ?_⟩
  · intro h1
    rw [h1] at hmain
    linarith
  · intro h0
    funext k
    have hc0 : pred_nlms_correction xcsf (pred_nlms_compute xcsf pred x) y x var = 0 := by
      unfold pred_nlms_correction
      rw [h0]
      simp
    rw [hrow k, hc0, hw1]
    split_ifs <;> simp

/-- A concrete instance of C29: one input `[2]`, linear features, `X0 = 1`,
`ETA = 1/10`, weights `[1, 2]`, target `15`: the prediction goes from `5` to
`6`, and the error from `10` to `9 = (1 − 1/10)·10`. -/
theorem C29_nlms_error_contraction_witness :
    xcsf_unit.PRED_TYPE ≠ 1 ∧ pred_nlms_norm xcsf_unit x_sample ≠ 0 ∧
    (0 : Int) < xcsf_unit.num_y_vars ∧
    (15 : ℚ) - (pred_nlms_compute xcsf_unit
        (pred_nlms_update xcsf_unit (pred_nlms_compute xcsf_unit pred_sample x_sample)
          (fun _ => 15) x_sample) x_sample).pre 0 =
      (1 - xcsf_unit.XCSF_ETA) *
        (15 - (pred_nlms_compute xcsf_unit pred_sample x_sample).pre 0) := by
  have hlin : xcsf_unit.PRED_TYPE ≠ 1 := by decide
  have hn : pred_nlms_norm xcsf_unit x_sample ≠ 0 := by
    rw [pred_nlms_norm_eq]
    norm_num [xcsf_unit, x_sample, Finset.sum_range_succ]
  have hv : ((0 : Nat) : Int) < xcsf_unit.num_y_vars := by decide
  exact ⟨hlin, hn, by decide,
    (C29_nlms_error_contraction xcsf_unit pred_sample (fun _ => 15) x_sample 0 hlin hn hv).1⟩

/-! ### NLMS: the order of the quadratic features -/

theorem mem_quad_pairs_from (d : Nat) (l : List Nat) (p : Nat × Nat) :
    p ∈ quad_pairs_from d l ↔ p.1 ∈ l ∧ p.1 ≤ p.2 ∧ p.2 < d := by
  induction l with
  | nil => simp [quad_pairs_from]
  | cons i rest ih =>
    simp only [quad_pairs_from, List.mem_append, List.mem_map, List.mem_range', ih,
      List.mem_cons]
    constructor
    · rintro (⟨j, ⟨k, hk, rfl⟩, rfl⟩ | ⟨h1, h2, h3⟩)
      · exact ⟨Or.inl rfl, by simp, by simp; omega⟩
      · exact ⟨Or.inr h1, h2, h3⟩
    · rintro ⟨h1 | h1, h2, h3⟩
      · left
        refine ⟨p.2, ⟨p.2 - i, by omega, by omega⟩, ?_⟩
        rw [← h1]
      · exact Or.inr ⟨h1, h2, h3⟩

/-- C23 as stated fails: with two inputs `[2, 3]` the list of the claim is
`[1, 2, 3, 4, 9, 6]`, the squared diagonal first, but `pred_nlms_compute`
multiplies weight `4` by `x_0·x_1 = 6`, and `pred_nlms_update` moves weight `4`
by `correction·6`, not by `correction·x_1² = correction·9`. -/
theorem C23_diag_first_counterexample :
    nlms_features_diag_first xcsf_quad x_sample = [1, 2, 3, 4, 9, 6] ∧
    (pred_nlms_compute xcsf_quad pred_unit4 x_sample).pre 0 = 6 ∧
    (pred_nlms_update xcsf_quad pred_unit4 (fun _ => 140) x_sample).weights 0 4 =
      pred_unit4.weights 0 4 +
        pred_nlms_correction xcsf_quad pred_unit4 (fun _ => 140) x_sample 0 * 6 := by
  have hv : ((0 : Nat) : Int) < xcsf_quad.num_y_vars := by decide
  have hd : xcsf_quad.num_x_vars.toNat = 2 := by decide
  have hq : quad_pairs 2 = [(0, 0), (0, 1), (1, 1)] := by decide
  have hm : mixed_pairs_from 2 (List.range 2) = [(0, 1)] := by decide
  have hf : nlms_features xcsf_quad x_sample = [1, 2, 3, 4, 6, 9] := by
    unfold nlms_features
    rw [hd, hq]
    norm_num [xcsf_quad, xcsf_unit, x_sample, List.range_succ]
  refine ⟨?_, ?_, ?_⟩
  · unfold nlms_features_diag_first
    rw [hd, hm]
    norm_num [xcsf_quad, xcsf_unit, x_sample, List.range_succ]
  · rw [(pred_nlms_compute_spec xcsf_quad pred_unit4 x_sample).2.2 0, if_pos hv,
      (pred_nlms_compute_var_spec xcsf_quad pred_unit4 x_sample 0).1, hf]
    norm_num [Finset.sum_range_succ, pred_unit4]
  · rw [(pred_nlms_update_spec xcsf_quad pred_unit4 (fun _ => 140) x_sample).2.2 0, if_pos hv,
      (pred_nlms_update_var_spec xcsf_quad pred_unit4 (fun _ => 140) x_sample 0).1 4, hf]
    norm_num

/-- C23, amended: for `PRED_TYPE = 1` and every `d = num_x_vars`, weight index `k`
of `pred_nlms_compute` and of `pred_nlms_update` is paired with entry `k` of
`[X0, x_1..x_d, then x_i·x_j for i ≤ j row by row]`: the products come in the
order `x_1·x_1, x_1·x_2, …, x_1·x_d, x_2·x_2, …, x_d·x_d`, each pair `i ≤ j`
once. -/
theorem C23_quadratic_feature_order (xcsf : XCSF) (pred : PRED_NLMS) (y x : Nat → ℚ) (var : Nat)
    (hq : xcsf.PRED_TYPE = 1) (hvar : (var : Int) < xcsf.num_y_vars) :
    nlms_features xcsf x =
      xcsf.XCSF_X0 :: ((List.range xcsf.num_x_vars.toNat).map x ++
        (quad_pairs xcsf.num_x_vars.toNat).map (fun p => x p.1 * x p.2)) ∧
    (∀ p : Nat × Nat, p ∈ quad_pairs xcsf.num_x_vars.toNat ↔
      p.1 ≤ p.2 ∧ p.2 < xcsf.num_x_vars.toNat) ∧
    quad_pairs 3 = [(0, 0), (0, 1), (0, 2), (1, 1), (1, 2), (2, 2)] ∧
    (pred_nlms_compute xcsf pred x).pre var =
      ∑ k in Finset.range (nlms_features xcsf x).length,
        pred.weights var k * (nlms_features xcsf x).getD k 0 ∧
    (∀ k, k < (nlms_features xcsf x).length →
      (pred_nlms_update xcsf pred y x).weights var k =
        pred.weights var k +
          pred_nlms_correction xcsf pred y x var * (nlms_features xcsf x).getD k 0) := by
  obtain ⟨-, -, hw⟩ := pred_nlms_update_spec xcsf pred y x
  obtain ⟨-, -, hp⟩ := pred_nlms_compute_spec xcsf pred x
  obtain ⟨hk, -, -⟩ := pred_nlms_update_var_spec xcsf pred y x var
  refine ⟨?_, ?_, by decide, ?_, ?_⟩
  · unfold nlms_features
    rw [if_pos hq]
  · intro p
    unfold quad_pairs
    rw [mem_quad_pairs_from, List.mem_range]
    constructor
    · rintro ⟨-, h2, h3⟩
      exact ⟨h2, h3⟩
    · rintro ⟨h2, h3⟩
      exact ⟨by omega, h2, h3⟩
  · rw [hp var, if_pos hvar]
    exact (pred_nlms_compute_var_spec xcsf pred x var).1
  · intro k hlt
    rw [hw var, if_pos hvar, hk k, if_pos hlt]

/-- A concrete instance of the amended C23: two inputs `[2, 3]`: the features
are `[1, 2, 3, 4, 6, 9]`, with `x_0·x_1 = 6` at index `4`. -/
theorem C23_quadratic_feature_order_witness :
    xcsf_quad.PRED_TYPE = 1 ∧ (0 : Int) < xcsf_quad.num_y_vars ∧
    nlms_features xcsf_quad x_sample = [1, 2, 3, 4, 6, 9] := by
  have hq : xcsf_quad.PRED_TYPE = 1 := by decide
  have hv : ((0 : Nat) : Int) < xcsf_quad.num_y_vars := by decide
  have key := (C23_quadratic_feature_order xcsf_quad pred_sample (fun _ => 0) x_sample 0 hq hv).1
  have hd : xcsf_quad.num_x_vars.toNat = 2 := by decide
  have hp : quad_pairs 2 = [(0, 0), (0, 1), (1, 1)] := by decide
  refine ⟨hq, by decide, ?_⟩
  rw [key, hd, hp]
  norm_num [xcsf_quad, xcsf_unit, x_sample, List.range_succ]

/-! ### Tree conditions -/

/-- C24: `cond_gp_match` returns true exactly when `tree_eval`, run on the tree
with its position reset to `0`, gives more than `1/2`; the boolean is stored in
the match flag, so `cond_gp_match_state` returns it afterwards; and
`cond_gp_general` and `cond_gp_subsumes` return false on every pair. -/
theorem C24_gp_match_and_generality {Code : Type}
    (tree_eval : XCSF → GP_TREE Code → (Nat → ℚ) → ℚ × GP_TREE Code)
    (xcsf : XCSF) (cond c1 c2 : COND_GP (GP_TREE Code)) (state : Nat → ℚ) :
    ((cond_gp_match tree_eval xcsf cond state).1 = true ↔
      (tree_eval xcsf { code := cond.gp.code, p := 0 } state).1 > 1 / 2) ∧
    (cond_gp_match tree_eval xcsf cond state).2.m = (cond_gp_match tree_eval xcsf cond state).1 ∧
    cond_gp_match_state xcsf (cond_gp_match tree_eval xcsf cond state).2 =
      (cond_gp_match tree_eval xcsf cond state).1 ∧
    (cond_gp_match tree_eval xcsf cond state).2.gp =
      (tree_eval xcsf { code := cond.gp.code, p := 0 } state).2 ∧
    cond_gp_general xcsf c1 c2 = false ∧
    cond_gp_subsumes xcsf c1 c2 = false := by
  unfold cond_gp_match cond_gp_match_state
  dsimp only
  by_cases h : (tree_eval xcsf { code := cond.gp.code, p := 0 } state).1 > 1 / 2
  · rw [if_pos h]
    exact ⟨⟨fun _ => h, fun _ => rfl⟩, rfl, rfl, rfl, rfl, rfl⟩
  · rw [if_neg h]
    exact ⟨⟨fun hf => absurd hf Bool.false_ne_true, fun hh => absurd hh h⟩, rfl, rfl, rfl, rfl,
      rfl⟩

/-! ### Covering with trees -/

theorem cond_gp_match_spec {Code : Type}
    (tree_eval : XCSF → GP_TREE Code → (Nat → ℚ) → ℚ × GP_TREE Code)
    (xcsf : XCSF) (cond : COND_GP (GP_TREE Code)) (state : Nat → ℚ) :
    ((cond_gp_match tree_eval xcsf cond state).1 = true ↔
      (tree_eval xcsf { code := cond.gp.code, p := 0 } state).1 > 1 / 2) ∧
    (cond_gp_match tree_eval xcsf cond state).2.m = (cond_gp_match tree_eval xcsf cond state).1 ∧
    (cond_gp_match tree_eval xcsf cond state).2.gp =
      (tree_eval xcsf { code := cond.gp.code, p := 0 } state).2 := by
  unfold cond_gp_match
  dsimp only
  by_cases h : (tree_eval xcsf { code := cond.gp.code, p := 0 } state).1 > 1 / 2
  · rw [if_pos h]
    exact ⟨⟨fun _ => h, fun _ => rfl⟩, rfl, rfl⟩
  · rw [if_neg h]
    exact ⟨⟨fun hf => absurd hf Bool.false_ne_true, fun hh => absurd hh h⟩, rfl, rfl⟩

/-- Whenever the loop of `cond_gp_cover` returns, it has made at least one more
pass, and its last pass generated a tree with `tree_rand` that evaluates above
`1/2`. -/
theorem cond_gp_cover_loop_spec {Code : Type} (tree_rand : XCSF → Rng → GP_TREE Code × Rng)
    (tree_eval : XCSF → GP_TREE Code → (Nat → ℚ) → ℚ × GP_TREE Code)
    (xcsf : XCSF) (state : Nat → ℚ) :
    ∀ (fuel : Nat) (cond : COND_GP (GP_TREE Code)) (rng : Rng) (rounds : Nat)
      (r : GpCoverResult Code),
    cond_gp_cover_loop tree_rand tree_eval xcsf state fuel cond rng rounds = some r →
    rounds + 1 ≤ r.rounds ∧ r.cond.m = true ∧
    ∃ rng1 : Rng,
      (tree_eval xcsf { code := (tree_rand xcsf rng1).1.code, p := 0 } state).1 > 1 / 2 ∧
      r.cond.gp = (tree_eval xcsf { code := (tree_rand xcsf rng1).1.code, p := 0 } state).2 ∧
      r.rng = (tree_rand xcsf rng1).2 := by
  intro fuel
  induction fuel with
  | zero =>
    intro cond rng rounds r h
    simp [cond_gp_cover_loop] at h
  | succ fuel ih =>
    intro cond rng rounds r h
    unfold cond_gp_cover_loop at h
    dsimp only at h
    by_cases hm : (cond_gp_match tree_eval xcsf (cond_gp_rand tree_rand xcsf cond rng).1 state).1
        = true
    · rw [hm] at h
      simp only [Bool.not_true, Bool.false_eq_true, if_false, Option.some.injEq] at h
      have hC := cond_gp_match_spec tree_eval xcsf (cond_gp_rand tree_rand xcsf cond rng).1 state
      subst h
      refine ⟨le_refl _, ?_, rng, ?_, ?_, rfl⟩
      · exact hC.2.1.trans hm
      · exact hC.1.mp hm
      · exact hC.2.2
    · have hm' : (cond_gp_match tree_eval xcsf (cond_gp_rand tree_rand xcsf cond rng).1 state).1
          = false := by
        simpa using hm
      rw [hm'] at h
      simp only [Bool.not_false, if_true] at h
      obtain ⟨h1, h2, h3⟩ := ih _ _ _ r h
      exact ⟨by omega, h2, h3⟩

/-- C30: `cond_gp_cover` replaces the tree by a new random one in every pass of
its loop and makes at least one pass, so what it gives does not depend on the
tree the condition held before. Whenever it returns, the last
`cond_gp_match` on the covered input returned true: the match flag is true and
the tree generated last evaluates, from position `0`, to more than `1/2` on
that input. It does return, after one pass, when the first tree generated
evaluates to more than `1/2`. -/
theorem C30_gp_cover {Code : Type} (tree_rand : XCSF → Rng → GP_TREE Code × Rng)
    (tree_eval : XCSF → GP_TREE Code → (Nat → ℚ) → ℚ × GP_TREE Code)
    (xcsf : XCSF) (cond : COND_GP (GP_TREE Code)) (state : Nat → ℚ) (rng : Rng) (fuel : Nat) :
    (∀ r : GpCoverResult Code,
      cond_gp_cover tree_rand tree_eval xcsf cond state rng fuel = some r →
      1 ≤ r.rounds ∧ r.cond.m = true ∧ cond_gp_match_state xcsf r.cond = true ∧
      ∃ rng1 : Rng,
        (tree_eval xcsf { code := (tree_rand xcsf rng1).1.code, p := 0 } state).1 > 1 / 2 ∧
        r.cond.gp = (tree_eval xcsf { code := (tree_rand xcsf rng1).1.code, p := 0 } state).2 ∧
        r.rng = (tree_rand xcsf rng1).2) ∧
    (∀ t : GP_TREE Code,
      cond_gp_cover tree_rand tree_eval xcsf { cond with gp := t } state rng fuel =
        cond_gp_cover tree_rand tree_eval xcsf cond state rng fuel) ∧
    ((tree_eval xcsf { code := (tree_rand xcsf rng).1.code, p := 0 } state).1 > 1 / 2 →
      ∃ r : GpCoverResult Code,
        cond_gp_cover tree_rand tree_eval xcsf cond state rng (fuel + 1) = some r ∧
        r.rounds = 1 ∧ r.cond.m = true) := by
  refine ⟨?_, ?_, ?_⟩
  · intro r h
    obtain ⟨h1, h2, h3⟩ :=
      cond_gp_cover_loop_spec tree_rand tree_eval xcsf state fuel cond rng 0 r h
    exact ⟨by omega, h2, h2, h3⟩
  · intro t
    cases fuel with
    | zero => rfl
    | succ n => rfl
  · intro hgt
    have hC := cond_gp_match_spec tree_eval xcsf (cond_gp_rand tree_rand xcsf cond rng).1 state
    have hm : (cond_gp_match tree_eval xcsf (cond_gp_rand tree_rand xcsf cond rng).1 state).1
        = true := hC.1.mpr hgt
    have hcov : cond_gp_cover tree_rand tree_eval xcsf cond state rng (fuel + 1) =
        some ⟨(cond_gp_match tree_eval xcsf (cond_gp_rand tree_rand xcsf cond rng).1 state).2,
          (cond_gp_rand tree_rand xcsf cond rng).2, 1⟩ := by
      unfold cond_gp_cover cond_gp_cover_loop
      dsimp only
      rw [hm]
      rfl
    exact ⟨_, hcov, rfl, hC.2.1.trans hm⟩

/-- A concrete instance of C30: the tree value is the draw that generated it and
the draws are `0, 1, 1, …`. The first tree does not match, the second does:
the cover returns after two passes with a true match flag. -/
theorem C30_gp_cover_witness :
    ∃ r : GpCoverResult ℚ,
      cond_gp_cover tree_rand_sample tree_eval_sample xcsf_unit cond_gp_sample (fun _ => 0)
        rng_zero_then_one 5 = some r ∧
      r.rounds = 2 ∧ 1 ≤ r.rounds ∧ r.cond.m = true := by
  have hsome : cond_gp_cover tree_rand_sample tree_eval_sample xcsf_unit cond_gp_sample
      (fun _ => 0) rng_zero_then_one 5 =
      some ⟨⟨⟨1, 1⟩, true, fun _ => 0⟩, ⟨rng_zero_then_one.draws, 2⟩, 2⟩ := by
    simp [cond_gp_cover, cond_gp_cover_loop, cond_gp_rand, cond_gp_match, tree_rand_sample,
      tree_eval_sample, drand, rng_zero_then_one, cond_gp_sample]
    norm_num
  have key := (C30_gp_cover tree_rand_sample tree_eval_sample xcsf_unit cond_gp_sample
    (fun _ => 0) rng_zero_then_one 5).1 _ hsome
  exact ⟨_, hsome, rfl, key.1, key.2.1⟩

/-! ### The trials -/

theorem xcsf_predict_row_spec {S : Type} (ops : EngineOps S) (st : TrialState S) (x : Nat → ℚ) :
    (xcsf_predict_row ops st x).1.xcsf = st.xcsf ∧
    (xcsf_predict_row ops st x).1.calls = st.calls ++
      [EngineCall.set_match, EngineCall.set_pred, EngineCall.set_kill, EngineCall.set_free] :=
  ⟨rfl, rfl⟩

/-- The loop of `xcsf_predict` over a list of rows: the parameter record is as
before and the log has grown by the four calls of each row. -/
theorem xcsf_predict_fold_spec {S α : Type} (ops : EngineOps S) (inp : α → Nat → ℚ)
    (upd : α → (Nat → ℚ) → (Nat → ℚ) → (Nat → ℚ)) :
    ∀ (l : List α) (st : TrialState S) (output : Nat → ℚ),
    (l.foldl
      (fun (s : TrialState S × (Nat → ℚ)) (row : α) =>
        ((xcsf_predict_row ops s.1 (inp row)).1,
          upd row (xcsf_predict_row ops s.1 (inp row)).2 s.2))
      (st, output)).1.xcsf = st.xcsf ∧
    (l.foldl
      (fun (s : TrialState S × (Nat → ℚ)) (row : α) =>
        ((xcsf_predict_row ops s.1 (inp row)).1,
          upd row (xcsf_predict_row ops s.1 (inp row)).2 s.2))
      (st, output)).1.calls = st.calls ++ (List.replicate l.length
        [EngineCall.set_match, EngineCall.set_pred, EngineCall.set_kill,
          EngineCall.set_free]).flatten := by
  intro l
  induction l with
  | nil => intro st output; simp
  | cons a l ih =>
    intro st output
    rw [List.foldl_cons]
    obtain ⟨h1, h2⟩ := ih (xcsf_predict_row ops st (inp a)).1
      (upd a (xcsf_predict_row ops st (inp a)).2 output)
    constructor
    · rw [h1]
      exact (xcsf_predict_row_spec ops _ _).1
    · rw [h2, (xcsf_predict_row_spec ops _ _).2, List.append_assoc, List.length_cons,
        List.replicate_succ, List.flatten_cons]

/-- C25: `xcsf_test_trial` and every pass of the loop of `xcsf_predict` call
`set_match`, `set_pred`, `set_kill`, `set_free` and nothing else, so never
`set_update` or `ga`, and leave the parameter record, with the counter `time`,
as it was. `xcsf_learn_trial` calls `set_match`, `set_pred`, `set_update`, `ga`
in that order, then `set_kill` and `set_free`, and adds exactly `1` to `time`.
The engine functions act on the engine state only. -/
theorem C25_prediction_only_trials {S : Type} (ops : EngineOps S) (st : TrialState S)
    (x y input output : Nat → ℚ) (rows : Int) :
    ((xcsf_test_trial ops st x y).state.calls = st.calls ++
        [EngineCall.set_match, EngineCall.set_pred, EngineCall.set_kill, EngineCall.set_free] ∧
      (xcsf_test_trial ops st x y).state.xcsf = st.xcsf ∧
      (xcsf_test_trial ops st x y).state.xcsf.time = st.xcsf.time ∧
      (xcsf_test_trial ops st x y).state.engine =
        ops.set_free st.xcsf (ops.set_kill st.xcsf
          (ops.set_pred st.xcsf (ops.set_match st.xcsf st.engine x) x).1)) ∧
    (∃ added : List EngineCall,
      (xcsf_predict (xcsf_predict_row ops) st.xcsf st input output rows).1.calls =
        st.calls ++ added ∧
      added = (List.replicate rows.toNat
        [EngineCall.set_match, EngineCall.set_pred, EngineCall.set_kill,
          EngineCall.set_free]).flatten ∧
      EngineCall.set_update ∉ added ∧ EngineCall.ga ∉ added ∧
      (xcsf_predict (xcsf_predict_row ops) st.xcsf st input output rows).1.xcsf = st.xcsf ∧
      (xcsf_predict (xcsf_predict_row ops) st.xcsf st input output rows).1.xcsf.time =
        st.xcsf.time) ∧
    ((xcsf_learn_trial ops st x y).state.calls = st.calls ++
        [EngineCall.set_match, EngineCall.set_pred, EngineCall.set_update, EngineCall.ga,
          EngineCall.set_kill, EngineCall.set_free] ∧
      (xcsf_learn_trial ops st x y).state.xcsf.time = st.xcsf.time + 1 ∧
      (xcsf_learn_trial ops st x y).state.xcsf = { st.xcsf with time := st.xcsf.time + 1 } ∧
      (xcsf_learn_trial ops st x y).state.engine =
        ops.set_free { st.xcsf with time := st.xcsf.time + 1 }
          (ops.set_kill { st.xcsf with time := st.xcsf.time + 1 }
            (ops.ga st.xcsf (ops.set_update st.xcsf
              (ops.set_pred st.xcsf (ops.set_match st.xcsf st.engine x) x).1 x y)))) := by
  refine ⟨⟨rfl, rfl, rfl, rfl⟩, ?_, ⟨rfl, rfl, rfl, rfl⟩⟩
  have hF : (xcsf_predict (xcsf_predict_row ops) st.xcsf st input output rows).1.xcsf = st.xcsf ∧
      (xcsf_predict (xcsf_predict_row ops) st.xcsf st input output rows).1.calls =
        st.calls ++ (List.replicate rows.toNat
          [EngineCall.set_match, EngineCall.set_pred, EngineCall.set_kill,
            EngineCall.set_free]).flatten := by
    have hG := xcsf_predict_fold_spec ops
      (fun (row : Int) i => input ((row * st.xcsf.num_x_vars).toNat + i))
      (fun (row : Int) (p out : Nat → ℚ) k =>
        if (row * st.xcsf.num_y_vars).toNat ≤ k ∧
            ((k - (row * st.xcsf.num_y_vars).toNat : Nat) : Int) < st.xcsf.num_y_vars
        then p (k - (row * st.xcsf.num_y_vars).toNat) else out k)
      ((List.range rows.toNat).flatMap (fun (a : Nat) => [Int.ofNat a])) st output
    have hlen : ∀ l : List Nat, (l.flatMap (fun (a : Nat) => [Int.ofNat a])).length = l.length := by
      intro l
      induction l with
      | nil => rfl
      | cons a l ih =>
        rw [List.flatMap_cons, List.length_append, ih]
        simp only [List.length_cons, List.length_nil]
        omega
    rw [hlen, List.length_range] at hG
    unfold xcsf_predict
    simpa using hG
  refine ⟨_, hF.2, rfl, ?_, ?_, hF.1, by rw [hF.1]⟩
  · intro hmem
    obtain ⟨l, hl, hin⟩ := List.mem_flatten.mp hmem
    rw [(List.mem_replicate.mp hl).2] at hin
    simp at hin
  · intro hmem
    obtain ⟨l, hl, hin⟩ := List.mem_flatten.mp hmem
    rw [(List.mem_replicate.mp hl).2] at hin
    simp at hin

/-! ### The driver loop with a test set -/

theorem xcsf_fit2_step_shuffle_spec {S : Type} (ops : EngineOps S) (train_data test_data : INPUT)
    (s : FitState S) (cnt : Nat) :
    (xcsf_fit2_step ops train_data test_data true s cnt).irng.pos = s.irng.pos + 3 ∧
    (xcsf_fit2_step ops train_data test_data true s cnt).train_draws = s.train_draws + 1 ∧
    (xcsf_fit2_step ops train_data test_data true s cnt).test_draws = s.test_draws + 2 :=
  ⟨rfl, rfl, rfl⟩

theorem xcsf_fit2_fold_shuffle_spec {S : Type} (ops : EngineOps S) (train_data test_data : INPUT)
    (s : FitState S) (n : Nat) :
    ((List.range n).foldl (xcsf_fit2_step ops train_data test_data true) s).irng.pos =
      s.irng.pos + 3 * n ∧
    ((List.range n).foldl (xcsf_fit2_step ops train_data test_data true) s).train_draws =
      s.train_draws + n ∧
    ((List.range n).foldl (xcsf_fit2_step ops train_data test_data true) s).test_draws =
      s.test_draws + 2 * n := by
  induction n with
  | zero => simp
  | succ n ih =>
    rw [List.range_succ, List.foldl_append, List.foldl_cons, List.foldl_nil]
    obtain ⟨h1, h2, h3⟩ := xcsf_fit2_step_shuffle_spec ops train_data test_data
      ((List.range n).foldl (xcsf_fit2_step ops train_data test_data true) s) n
    rw [h1, h2, h3, ih.1, ih.2.1, ih.2.2]
    refine ⟨by ring, by ring, by ring⟩

/-- C26: in `xcsf_fit2` with `shuffle` true, every trial calls `irand` three
times: once for the training row and twice for the test row, the first of the
two being the call before the `if`. After `MAX_TRIALS` trials the random source
has been called `3 · MAX_TRIALS` times, `2 · MAX_TRIALS` of them for test rows.
In the sample run of one trial over three rows, with the raw
values `5, 7, 9`, the source is called three times, the training row is `2` and
the test row is `0`, from the third value; the second value gives row `1`. -/
theorem C26_fit2_shuffle_draws {S : Type} (ops : EngineOps S) (train_data test_data : INPUT)
    (s : FitState S) :
    ((xcsf_fit2 ops train_data test_data true s).irng.pos =
        s.irng.pos + 3 * s.trial.xcsf.MAX_TRIALS.toNat ∧
      (xcsf_fit2 ops train_data test_data true s).train_draws =
        s.train_draws + s.trial.xcsf.MAX_TRIALS.toNat ∧
      (xcsf_fit2 ops train_data test_data true s).test_draws =
        s.test_draws + 2 * s.trial.xcsf.MAX_TRIALS.toNat) ∧
    ((xcsf_fit2 engine_ops_sample input_sample input_sample true fit_state_sample).irng.pos = 3 ∧
      (xcsf_fit2 engine_ops_sample input_sample input_sample true fit_state_sample).test_draws = 2 ∧
      (xcsf_fit2 engine_ops_sample input_sample input_sample true fit_state_sample).train_rows
        = [2] ∧
      (xcsf_fit2 engine_ops_sample input_sample input_sample true fit_state_sample).test_rows
        = [0] ∧
      (irand (irand fit_state_sample.irng 0 3).2 0 3).1 = 1) := by
  refine ⟨xcsf_fit2_fold_shuffle_spec ops train_data test_data s _, ?_, ?_, ?_, ?_, ?_⟩ <;>
    simp [xcsf_fit2, xcsf_fit2_step, fit_state_sample, xcsf_one_trial,
      xcsf_unit, input_sample, irand, List.range_succ, xcsf_learn_trial, xcsf_test_trial]

/-! ### The clamp as a projection -/

/-- A pair inside the legal range and in order is left as it is. -/
theorem cond_rectangle_bounds_fixed (xcsf : XCSF) (l u : ℚ)
    (h : xcsf.MIN_CON ≤ l ∧ l ≤ u ∧ u ≤ xcsf.MAX_CON) :
    cond_rectangle_bounds xcsf l u = (l, u) := by
  obtain ⟨h1, h2, h3⟩ := h
  rw [cond_rectangle_bounds_in_range xcsf l u ⟨h1, le_trans h2 h3⟩ ⟨le_trans h1 h2, h3⟩,
    if_neg (not_lt.mpr h2)]

/-- C35: `cond_rectangle_bounds` projects onto the legal intervals. If
`MIN_CON ≤ MAX_CON`, the result `(l', u')` for any pair `(l, u)` has
`MIN_CON ≤ l' ≤ u' ≤ MAX_CON`, applying the function to its own result gives
that result again, and a pair with `MIN_CON ≤ l ≤ u ≤ MAX_CON` is returned as
it is. -/
theorem C35_bounds_projection (xcsf : XCSF) (h : xcsf.MIN_CON ≤ xcsf.MAX_CON) (l u : ℚ) :
    (xcsf.MIN_CON ≤ (cond_rectangle_bounds xcsf l u).1 ∧
      (cond_rectangle_bounds xcsf l u).1 ≤ (cond_rectangle_bounds xcsf l u).2 ∧
      (cond_rectangle_bounds xcsf l u).2 ≤ xcsf.MAX_CON) ∧
    cond_rectangle_bounds xcsf (cond_rectangle_bounds xcsf l u).1
      (cond_rectangle_bounds xcsf l u).2 = cond_rectangle_bounds xcsf l u ∧
    (xcsf.MIN_CON ≤ l ∧ l ≤ u ∧ u ≤ xcsf.MAX_CON → cond_rectangle_bounds xcsf l u = (l, u)) :=
  ⟨cond_rectangle_bounds_spec xcsf h l u,
    cond_rectangle_bounds_fixed xcsf _ _ (cond_rectangle_bounds_spec xcsf h l u),
    cond_rectangle_bounds_fixed xcsf l u⟩

/-- A concrete instance of C35 with `MIN_CON = 0` and `MAX_CON = 1`: the pair
`(3, -2)` is sent to `(0, 1)`, which is sent to itself, and `(1/4, 3/4)` is
left as it is. -/
theorem C35_bounds_projection_witness :
    xcsf_unit.MIN_CON ≤ xcsf_unit.MAX_CON ∧
    cond_rectangle_bounds xcsf_unit 3 (-2) = (0, 1) ∧
    cond_rectangle_bounds xcsf_unit (cond_rectangle_bounds xcsf_unit 3 (-2)).1
      (cond_rectangle_bounds xcsf_unit 3 (-2)).2 = cond_rectangle_bounds xcsf_unit 3 (-2) ∧
    cond_rectangle_bounds xcsf_unit (1 / 4) (3 / 4) = (1 / 4, 3 / 4) := by
  have h : xcsf_unit.MIN_CON ≤ xcsf_unit.MAX_CON := by norm_num [xcsf_unit]
  refine ⟨h, ?_, (C35_bounds_projection xcsf_unit h 3 (-2)).2.1,
    (C35_bounds_projection xcsf_unit h (1 / 4) (3 / 4)).2.2 (by norm_num [xcsf_unit])⟩
  norm_num [cond_rectangle_bounds, xcsf_unit]

/-! ### Mutation: the returned flag -/

theorem cond_rectangle_mutate_step_draws (xcsf : XCSF) (step : ℚ) (s : MutateState) (i : Nat) :
    (cond_rectangle_mutate_step xcsf step s i).rng.draws = s.rng.draws := by
  unfold cond_rectangle_mutate_step
  dsimp only [drand]
  split_ifs <;> rfl

/-- The flag after one iteration: it is true when it was true before, or when the
draw for the lower bound or the draw for the upper bound is below
`P_MUTATION`. The draw for the upper bound is the one after the draw for the
lower bound, or two after it when the lower bound took a draw for its step. -/
theorem cond_rectangle_mutate_step_changed (xcsf : XCSF) (step : ℚ) (s : MutateState)
    (i : Nat) :
    (cond_rectangle_mutate_step xcsf step s i).changed = true ↔
      (s.changed = true ∨ s.rng.draws s.rng.pos < xcsf.P_MUTATION ∨
        s.rng.draws (if s.rng.draws s.rng.pos < xcsf.P_MUTATION then s.rng.pos + 2
          else s.rng.pos + 1) < xcsf.P_MUTATION) := by
  unfold cond_rectangle_mutate_step
  dsimp only [drand]
  by_cases h1 : s.rng.draws s.rng.pos < xcsf.P_MUTATION
  · simp only [h1, if_true]
    by_cases h2 : s.rng.draws (s.rng.pos + 1 + 1) < xcsf.P_MUTATION
    · simp [h2]
    · simp [h2]
  · simp only [h1, if_false]
    by_cases h2 : s.rng.draws (s.rng.pos + 1) < xcsf.P_MUTATION
    · simp [h2]
    · simp [h2]

/-- An iteration in which neither draw is below `P_MUTATION` takes two draws,
keeps the flag and only clamps the pair. -/
theorem cond_rectangle_mutate_step_quiet (xcsf : XCSF) (step : ℚ) (s : MutateState) (i : Nat)
    (h1 : ¬ s.rng.draws s.rng.pos < xcsf.P_MUTATION)
    (h2 : ¬ s.rng.draws (s.rng.pos + 1) < xcsf.P_MUTATION) :
    (cond_rectangle_mutate_step xcsf step s i).changed = s.changed ∧
    (cond_rectangle_mutate_step xcsf step s i).cond = cond_rectangle_bounds_at xcsf s.cond i ∧
    (cond_rectangle_mutate_step xcsf step s i).rng.pos = s.rng.pos + 2 := by
  unfold cond_rectangle_mutate_step
  dsimp only [drand]
  simp only [h1, if_false, h2, and_self]

/-- The loop over the first `n` dimensions when none of the first `2·n` draws is
below `P_MUTATION`. -/
theorem cond_rectangle_mutate_fold_quiet (xcsf : XCSF) (step : ℚ) (s : MutateState) (n : Nat)
    (h : ∀ k : Nat, k < 2 * n → ¬ s.rng.draws (s.rng.pos + k) < xcsf.P_MUTATION) :
    ((List.range n).foldl (cond_rectangle_mutate_step xcsf step) s).changed = s.changed ∧
    ((List.range n).foldl (cond_rectangle_mutate_step xcsf step) s).cond =
      (List.range n).foldl (cond_rectangle_bounds_at xcsf) s.cond ∧
    ((List.range n).foldl (cond_rectangle_mutate_step xcsf step) s).rng.pos = s.rng.pos + 2 * n ∧
    ((List.range n).foldl (cond_rectangle_mutate_step xcsf step) s).rng.draws = s.rng.draws := by
  induction n with
  | zero => simp
  | succ n ih =>
    obtain ⟨i1, i2, i3, i4⟩ := ih (fun k hk => h k (by omega))
    rw [List.range_succ, List.foldl_append, List.foldl_cons, List.foldl_nil,
      List.foldl_append, List.foldl_cons, List.foldl_nil]
    have q1 : ¬ ((List.range n).foldl (cond_rectangle_mutate_step xcsf step) s).rng.draws
        ((List.range n).foldl (cond_rectangle_mutate_step xcsf step) s).rng.pos
        < xcsf.P_MUTATION := by
      rw [i3, i4]
      exact h (2 * n) (by omega)
    have q2 : ¬ ((List.range n).foldl (cond_rectangle_mutate_step xcsf step) s).rng.draws
        (((List.range n).foldl (cond_rectangle_mutate_step xcsf step) s).rng.pos + 1)
        < xcsf.P_MUTATION := by
      rw [i3, i4, Nat.add_assoc]
      exact h (2 * n + 1) (by omega)
    obtain ⟨s1, s2, s3⟩ := cond_rectangle_mutate_step_quiet xcsf step _ n q1 q2
    refine ⟨s1.trans i1, ?_, ?_, ?_⟩
    · rw [s2, i2]
    · rw [s3, i3]
      omega
    · rw [cond_rectangle_mutate_step_draws, i4]

/-- The loop over the first `n` dimensions when one of the first `2·n` draws is
below `P_MUTATION`: the flag is true. -/
theorem cond_rectangle_mutate_fold_hit (xcsf : XCSF) (step : ℚ) (s : MutateState) (n : Nat)
    (h : ∃ k : Nat, k < 2 * n ∧ s.rng.draws (s.rng.pos + k) < xcsf.P_MUTATION) :
    ((List.range n).foldl (cond_rectangle_mutate_step xcsf step) s).changed = true := by
  induction n with
  | zero =>
    obtain ⟨k, hk, -⟩ := h
    omega
  | succ n ih =>
    rw [List.range_succ, List.foldl_append, List.foldl_cons, List.foldl_nil]
    rw [cond_rectangle_mutate_step_changed]
    by_cases hq : ∃ k : Nat, k < 2 * n ∧ s.rng.draws (s.rng.pos + k) < xcsf.P_MUTATION
    · exact Or.inl (ih hq)
    · have hq' : ∀ k : Nat, k < 2 * n → ¬ s.rng.draws (s.rng.pos + k) < xcsf.P_MUTATION :=
        fun k hk hlt => hq ⟨k, hk, hlt⟩
      obtain ⟨-, -, i3, i4⟩ := cond_rectangle_mutate_fold_quiet xcsf step s n hq'
      obtain ⟨k, hk, hlt⟩ := h
      have hk2 : k = 2 * n ∨ k = 2 * n + 1 := by
        by_contra hne
        exact hq' k (by omega) hlt
      right
      rw [i3, i4]
      rcases hk2 with rfl | rfl
      · exact Or.inl hlt
      · by_cases h0 : s.rng.draws (s.rng.pos + 2 * n) < xcsf.P_MUTATION
        · exact Or.inl h0
        · right
          rw [if_neg h0, Nat.add_assoc]
          exact hlt

/-- A condition that satisfies the bounds law is left as it is by the clamp of
each of its dimensions. -/
theorem cond_rectangle_bounds_fold_fixed (xcsf : XCSF) (cond : COND_RECTANGLE)
    (h : RectBounded xcsf cond) :
    ∀ l : List Nat, (∀ i ∈ l, (i : Int) < xcsf.num_x_vars) →
      l.foldl (cond_rectangle_bounds_at xcsf) cond = cond := by
  have one : ∀ i : Nat, (i : Int) < xcsf.num_x_vars →
      cond_rectangle_bounds_at xcsf cond i = cond := by
    intro i hi
    obtain ⟨h1, h2, h3⟩ := h i hi
    unfold cond_rectangle_bounds_at
    dsimp only
    rw [cond_rectangle_bounds_in_range xcsf _ _ ⟨h1, le_trans h2 h3⟩ ⟨le_trans h1 h2, h3⟩,
      if_neg (not_lt.mpr h2)]
    dsimp only
    rw [Function.update_eq_self, Function.update_eq_self]
  intro l
  induction l with
  | nil => intro _; rfl
  | cons a rest ih =>
    intro hl
    rw [List.foldl_cons, one a (hl a (List.mem_cons_self a rest))]
    exact ih (fun i hi => hl i (List.mem_cons_of_mem a hi))

/-- The loop of `cond_rectangle_mutate`: the flag returned, and the condition
when the flag is false. -/
theorem cond_rectangle_mutate_loop_changed (xcsf : XCSF) (step : ℚ) (cond : COND_RECTANGLE)
    (rng : Rng) :
    ((cond_rectangle_mutate_loop xcsf step cond rng).changed = true ↔
      ∃ k : Nat, k < 2 * xcsf.num_x_vars.toNat ∧
        rng.draws (rng.pos + k) < xcsf.P_MUTATION) ∧
    ((cond_rectangle_mutate_loop xcsf step cond rng).changed = false →
      RectBounded xcsf cond → (cond_rectangle_mutate_loop xcsf step cond rng).cond = cond) := by
  have hquiet : (¬ ∃ k : Nat, k < 2 * xcsf.num_x_vars.toNat ∧
      rng.draws (rng.pos + k) < xcsf.P_MUTATION) →
      (cond_rectangle_mutate_loop xcsf step cond rng).changed = false ∧
      (RectBounded xcsf cond → (cond_rectangle_mutate_loop xcsf step cond rng).cond = cond) := by
    intro hq
    obtain ⟨i1, i2, -, -⟩ := cond_rectangle_mutate_fold_quiet xcsf step
      { changed := false, cond := cond, rng := rng } xcsf.num_x_vars.toNat
      (fun k hk hlt => hq ⟨k, hk, hlt⟩)
    refine ⟨i1, fun hb => ?_⟩
    show ((List.range xcsf.num_x_vars.toNat).foldl (cond_rectangle_mutate_step xcsf step)
      { changed := false, cond := cond, rng := rng }).cond = cond
    rw [i2]
    exact cond_rectangle_bounds_fold_fixed xcsf cond hb _
      (fun i hi => (mem_range_toNat _ i).mp hi)
  constructor
  · constructor
    · intro hc
      by_contra hq
      rw [(hquiet hq).1] at hc
      exact Bool.false_ne_true hc
    · intro hex
      exact cond_rectangle_mutate_fold_hit xcsf step
        { changed := false, cond := cond, rng := rng } xcsf.num_x_vars.toNat hex
  · intro hc hb
    by_cases hq : ∃ k : Nat, k < 2 * xcsf.num_x_vars.toNat ∧
        rng.draws (rng.pos + k) < xcsf.P_MUTATION
    · have := cond_rectangle_mutate_fold_hit xcsf step
        { changed := false, cond := cond, rng := rng } xcsf.num_x_vars.toNat hq
      have ht : (cond_rectangle_mutate_loop xcsf step cond rng).changed = true := this
      rw [ht] at hc
      exact absurd hc (by decide)
    · exact (hquiet hq).2 hb

/-- C34: `cond_rectangle_mutate` returns true exactly when one of the
`2·num_x_vars` per-bound draws is below the mutation probability in use (the
`P_MUTATION` the function leaves in the parameter record). The draws start at
the random source as `sam_adapt` leaves it when `NUM_SAM > 0`, else at the
source given; the draws before the first one below the probability are per-bound
draws, one per bound in order, and so is that one. In one iteration the flag
becomes true exactly when the draw for the lower or for the upper bound is
below the probability. When the function returns false, `NUM_SAM = 0` and the
condition satisfied the bounds law, the condition is as it was. -/
theorem C34_mutate_returns_changed (sam_adapt : XCSF → (Nat → ℚ) → Rng → (Nat → ℚ) × Rng)
    (xcsf : XCSF) (cond : COND_RECTANGLE) (rng : Rng) :
    ((cond_rectangle_mutate sam_adapt xcsf cond rng).changed = true ↔
      ∃ k : Nat, k < 2 * xcsf.num_x_vars.toNat ∧
        (if xcsf.NUM_SAM > 0 then (sam_adapt xcsf cond.mu rng).2 else rng).draws
          ((if xcsf.NUM_SAM > 0 then (sam_adapt xcsf cond.mu rng).2 else rng).pos + k) <
            (cond_rectangle_mutate sam_adapt xcsf cond rng).xcsf.P_MUTATION) ∧
    (∀ (xc : XCSF) (step : ℚ) (s : MutateState) (i : Nat),
      (cond_rectangle_mutate_step xc step s i).changed = true ↔
        (s.changed = true ∨ s.rng.draws s.rng.pos < xc.P_MUTATION ∨
          s.rng.draws (if s.rng.draws s.rng.pos < xc.P_MUTATION then s.rng.pos + 2
            else s.rng.pos + 1) < xc.P_MUTATION)) ∧
    ((cond_rectangle_mutate sam_adapt xcsf cond rng).changed = false → xcsf.NUM_SAM = 0 →
      RectBounded xcsf cond → (cond_rectangle_mutate sam_adapt xcsf cond rng).cond = cond) := by
  refine ⟨?_, cond_rectangle_mutate_step_changed, ?_⟩
  · unfold cond_rectangle_mutate
    by_cases hs : xcsf.NUM_SAM > 0
    · simp only [hs, if_true]
      exact (cond_rectangle_mutate_loop_changed _ _ _ _).1
    · simp only [hs, if_false]
      exact (cond_rectangle_mutate_loop_changed _ _ _ _).1
  · intro hc h0 hb
    have hs : ¬ xcsf.NUM_SAM > 0 := by omega
    unfold cond_rectangle_mutate at hc ⊢
    simp only [hs, if_false] at hc ⊢
    exact (cond_rectangle_mutate_loop_changed _ _ _ _).2 hc hb

/-- A concrete instance of C34 with one dimension, `P_MUTATION = 1/25` and
`NUM_SAM = 0` on the condition `(0, 1)`: when every draw is `1` the function
returns false and leaves the condition as it was; when every draw is `0` it
returns true. -/
theorem C34_mutate_returns_changed_witness :
    (cond_rectangle_mutate sam_adapt_id xcsf_unit (rect 0 1) (rng_const 1)).changed = false ∧
    xcsf_unit.NUM_SAM = 0 ∧ RectBounded xcsf_unit (rect 0 1) ∧
    (cond_rectangle_mutate sam_adapt_id xcsf_unit (rect 0 1) (rng_const 1)).cond = rect 0 1 ∧
    (cond_rectangle_mutate sam_adapt_id xcsf_unit (rect 0 1) (rng_const 0)).changed = true := by
  have hb : RectBounded xcsf_unit (rect 0 1) := by
    intro i _
    norm_num [rect, xcsf_unit]
  have hc : (cond_rectangle_mutate sam_adapt_id xcsf_unit (rect 0 1) (rng_const 1)).changed
      = false := by
    norm_num [cond_rectangle_mutate, cond_rectangle_mutate_loop, cond_rectangle_mutate_step,
      xcsf_unit, rng_const, drand, List.range_succ]
  refine ⟨hc, rfl, hb,
    (C34_mutate_returns_changed sam_adapt_id xcsf_unit (rect 0 1) (rng_const 1)).2.2 hc rfl hb,
    (C34_mutate_returns_changed sam_adapt_id xcsf_unit (rect 0 1) (rng_const 0)).1.mpr
      ⟨0, by decide, ?_⟩⟩
  norm_num [cond_rectangle_mutate, cond_rectangle_mutate_loop, xcsf_unit, rng_const]

/-! ### The error a trial returns -/

theorem foldl_add_eq_sum (f : Nat → ℚ) (n : Nat) (a : ℚ) :
    (List.range n).foldl (fun error i => error + f i) a = a + ∑ i in Finset.range n, f i := by
  induction n with
  | zero => simp
  | succ n ih =>
    rw [List.range_succ, List.foldl_append, List.foldl_cons, List.foldl_nil, ih,
      Finset.sum_range_succ, add_assoc]

/-- The value `trial_error` computes is the mean of the squared differences; with
at least one output it is not negative, and it is zero exactly when the
prediction equals the target at every output. -/
theorem trial_error_spec (xcsf : XCSF) (y pred : Nat → ℚ) (hn : 1 ≤ xcsf.num_y_vars) :
    trial_error xcsf y pred =
      (∑ i in Finset.range xcsf.num_y_vars.toNat, (y i - pred i) ^ 2) / (xcsf.num_y_vars : ℚ) ∧
    0 ≤ trial_error xcsf y pred ∧
    (trial_error xcsf y pred = 0 ↔ ∀ i : Nat, (i : Int) < xcsf.num_y_vars → pred i = y i) := by
  have hE : trial_error xcsf y pred =
      (∑ i in Finset.range xcsf.num_y_vars.toNat, (y i - pred i) ^ 2) /
        (xcsf.num_y_vars : ℚ) := by
    unfold trial_error
    rw [foldl_add_eq_sum (fun i => (y i - pred i) * (y i - pred i)), zero_add]
    congr 1
    exact Finset.sum_congr rfl (fun i _ => (sq (y i - pred i)).symm)
  have hpos : (0 : ℚ) < (xcsf.num_y_vars : ℚ) := by
    have : (0 : Int) < xcsf.num_y_vars := by omega
    exact_mod_cast this
  have hsum : 0 ≤ ∑ i in Finset.range xcsf.num_y_vars.toNat, (y i - pred i) ^ 2 :=
    Finset.sum_nonneg (fun i _ => sq_nonneg _)
  refine ⟨hE, ?_, ?_⟩
  · rw [hE]
    exact div_nonneg hsum hpos.le
  · rw [hE, div_eq_zero_iff, Finset.sum_eq_zero_iff_of_nonneg (fun i _ => sq_nonneg _)]
    constructor
    · rintro (h | h)
      · intro i hi
        have := h i (Finset.mem_range.mpr (by omega))
        have h2 : y i - pred i = 0 := by simpa using this
        linarith
      · exact absurd h hpos.ne'
    · intro h
      left
      intro i hi
      rw [h i (by have := Finset.mem_range.mp hi; omega)]
      simp

/-- C32: with `num_y_vars ≥ 1`, `xcsf_learn_trial` and `xcsf_test_trial` return the
mean squared error of the system prediction that `set_pred` wrote to `pred`:
`(1/num_y_vars)·Σ_i (y[i] − pred[i])²`. The value is not negative, and it is
zero exactly when `pred[i] = y[i]` at every output `i < num_y_vars`. -/
theorem C32_trial_error_is_mse {S : Type} (ops : EngineOps S) (st : TrialState S)
    (x y : Nat → ℚ) (hn : 1 ≤ st.xcsf.num_y_vars) :
    ((xcsf_learn_trial ops st x y).pred =
        (ops.set_pred st.xcsf (ops.set_match st.xcsf st.engine x) x).2 ∧
      (xcsf_learn_trial ops st x y).error =
        (∑ i in Finset.range st.xcsf.num_y_vars.toNat,
          (y i - (xcsf_learn_trial ops st x y).pred i) ^ 2) / (st.xcsf.num_y_vars : ℚ) ∧
      0 ≤ (xcsf_learn_trial ops st x y).error ∧
      ((xcsf_learn_trial ops st x y).error = 0 ↔
        ∀ i : Nat, (i : Int) < st.xcsf.num_y_vars →
          (xcsf_learn_trial ops st x y).pred i = y i)) ∧
    ((xcsf_test_trial ops st x y).pred =
        (ops.set_pred st.xcsf (ops.set_match st.xcsf st.engine x) x).2 ∧
      (xcsf_test_trial ops st x y).error =
        (∑ i in Finset.range st.xcsf.num_y_vars.toNat,
          (y i - (xcsf_test_trial ops st x y).pred i) ^ 2) / (st.xcsf.num_y_vars : ℚ) ∧
      0 ≤ (xcsf_test_trial ops st x y).error ∧
      ((xcsf_test_trial ops st x y).error = 0 ↔
        ∀ i : Nat, (i : Int) < st.xcsf.num_y_vars →
          (xcsf_test_trial ops st x y).pred i = y i)) := by
  have hL := trial_error_spec { st.xcsf with time := st.xcsf.time + 1 } y
    (ops.set_pred st.xcsf (ops.set_match st.xcsf st.engine x) x).2 hn
  have hT := trial_error_spec st.xcsf y
    (ops.set_pred st.xcsf (ops.set_match st.xcsf st.engine x) x).2 hn
  exact ⟨⟨rfl, hL.1, hL.2.1, hL.2.2⟩, ⟨rfl, hT.1, hT.2.1, hT.2.2⟩⟩

/-- A concrete instance of C32: one output, the row `x = [1]` with target `[5]`
and the system prediction `10·x[0] = 10`; both trials return `(5 − 10)² = 25`,
which is not zero, and the prediction differs from the target. -/
theorem C32_trial_error_is_mse_witness :
    1 ≤ xcsf_unit.num_y_vars ∧
    (xcsf_learn_trial engine_ops_sample trial_state_sample (fun _ => 1) (fun _ => 5)).error
      = 25 ∧
    (xcsf_test_trial engine_ops_sample trial_state_sample (fun _ => 1) (fun _ => 5)).error
      = 25 ∧
    0 ≤ (xcsf_learn_trial engine_ops_sample trial_state_sample (fun _ => 1)
      (fun _ => 5)).error ∧
    ((xcsf_test_trial engine_ops_sample trial_state_sample (fun _ => 1) (fun _ => 5)).error = 0 ↔
      ∀ i : Nat, (i : Int) < xcsf_unit.num_y_vars →
        (xcsf_test_trial engine_ops_sample trial_state_sample (fun _ => 1) (fun _ => 5)).pred i
          = (fun _ => (5 : ℚ)) i) := by
  have h : 1 ≤ trial_state_sample.xcsf.num_y_vars := by decide
  have key := C32_trial_error_is_mse engine_ops_sample trial_state_sample (fun _ => 1)
    (fun _ => 5) h
  refine ⟨h, ?_, ?_, key.1.2.2.1, key.2.2.2.2⟩
  · rw [key.1.2.1]
    norm_num [xcsf_learn_trial, engine_ops_sample, trial_state_sample, xcsf_unit]
  · rw [key.2.2.1]
    norm_num [xcsf_test_trial, engine_ops_sample, trial_state_sample, xcsf_unit]

/-! ### Rows in sequence -/

/-- The row expression of the drivers without shuffling: for a counter `cnt ≥ 0`
and `rows > 0` it is the remainder `cnt mod rows`. -/
theorem seq_row_eq (cnt : Nat) (rows : Int) (h : 0 < rows) :
    (((cnt : Int).tmod rows) + rows).tmod rows = (cnt : Int) % rows := by
  have h1 : (cnt : Int).tmod rows = (cnt : Int) % rows :=
    Int.tmod_eq_emod (Int.natCast_nonneg cnt) h.le
  have h2 : 0 ≤ (cnt : Int) % rows := Int.emod_nonneg _ h.ne'
  rw [h1, Int.tmod_eq_emod (by omega) h.le, Int.add_emod_self, Int.emod_emod]

theorem xcsf_fit1_fold_rows {S : Type} (ops : EngineOps S) (train_data : INPUT)
    (s : Fit1State S) (h : 0 < train_data.rows) (n : Nat) :
    ((List.range n).foldl (xcsf_fit1_step ops train_data false) s).train_rows =
      s.train_rows ++ (List.range n).map (fun cnt => (Int.ofNat cnt) % train_data.rows) ∧
    ((List.range n).foldl (xcsf_fit1_step ops train_data false) s).irng = s.irng := by
  induction n with
  | zero => simp
  | succ n ih =>
    rw [List.range_succ, List.foldl_append, List.foldl_cons, List.foldl_nil, List.map_append,
      List.map_cons, List.map_nil, ← List.append_assoc, ← ih.1]
    refine ⟨?_, ih.2⟩
    show _ ++ [(((n : Int).tmod train_data.rows) + train_data.rows).tmod train_data.rows] = _
    rw [seq_row_eq n _ h]
    rfl

theorem xcsf_fit2_fold_rows {S : Type} (ops : EngineOps S) (train_data test_data : INPUT)
    (s : FitState S) (h : 0 < train_data.rows) (ht : 0 < test_data.rows) (n : Nat) :
    ((List.range n).foldl (xcsf_fit2_step ops train_data test_data false) s).train_rows =
      s.train_rows ++ (List.range n).map (fun cnt => (Int.ofNat cnt) % train_data.rows) ∧
    ((List.range n).foldl (xcsf_fit2_step ops train_data test_data false) s).test_rows =
      s.test_rows ++ (List.range n).map (fun cnt => (Int.ofNat cnt) % test_data.rows) := by
  induction n with
  | zero => simp
  | succ n ih =>
    rw [List.range_succ, List.foldl_append, List.foldl_cons, List.foldl_nil, List.map_append,
      List.map_append, List.map_cons, List.map_nil, List.map_cons, List.map_nil,
      ← List.append_assoc, ← List.append_assoc, ← ih.1, ← ih.2]
    constructor
    · show _ ++ [(((n : Int).tmod train_data.rows) + train_data.rows).tmod train_data.rows] = _
      rw [seq_row_eq n _ h]
      rfl
    · show _ ++ [(((n : Int).tmod test_data.rows) + test_data.rows).tmod test_data.rows] = _
      rw [seq_row_eq n _ ht]
      rfl

/-- The remainders `cnt mod rows` run through `0, 1, …, rows − 1` and start
again at `0`. -/
theorem emod_succ_cyclic (cnt : Nat) (rows : Int) (h : 0 < rows) :
    (0 : Int) % rows = 0 ∧ 0 ≤ (cnt : Int) % rows ∧ (cnt : Int) % rows < rows ∧
    ((cnt : Int) + 1) % rows =
      if (cnt : Int) % rows + 1 = rows then 0 else (cnt : Int) % rows + 1 := by
  have h0 : 0 ≤ (cnt : Int) % rows := Int.emod_nonneg _ h.ne'
  have h1 : (cnt : Int) % rows < rows := Int.emod_lt_of_pos _ h
  refine ⟨Int.zero_emod _, h0, h1, ?_⟩
  rw [Int.add_emod]
  split_ifs with hc
  · by_cases h1r : rows = 1
    · subst h1r
      simp
    · rw [Int.emod_eq_of_lt (a := 1) (by norm_num) (by omega), hc, Int.emod_self]
  · by_cases h1r : rows = 1
    · subst h1r
      omega
    · rw [Int.emod_eq_of_lt (a := 1) (by norm_num) (by omega)]
      exact Int.emod_eq_of_lt (by omega) (by omega)

/-- C33: without shuffling and with `rows > 0`, the row selected for the trial
with counter `cnt ≥ 0`, `(cnt % rows + rows) % rows` in C arithmetic, is
`cnt mod rows`: it lies in `[0, rows)`, it is `0` for the first trial, and from
one trial to the next it goes up by one and falls back to `0` after
`rows − 1`. So `xcsf_fit1` and `xcsf_fit2` take the training rows, and
`xcsf_fit2` the test rows, in the order `0, 1, …, rows − 1, 0, …`. -/
theorem C33_sequential_rows {S : Type} (ops : EngineOps S) (train_data test_data : INPUT)
    (s1 : Fit1State S) (s2 : FitState S) (h : 0 < train_data.rows) (ht : 0 < test_data.rows) :
    (∀ cnt : Nat,
      (xcsf_fit1_step ops train_data false s1 cnt).row = (cnt : Int) % train_data.rows ∧
      (xcsf_fit2_step ops train_data test_data false s2 cnt).row =
        (cnt : Int) % test_data.rows ∧
      0 ≤ (cnt : Int) % train_data.rows ∧ (cnt : Int) % train_data.rows < train_data.rows ∧
      ((cnt : Int) + 1) % train_data.rows =
        (if (cnt : Int) % train_data.rows + 1 = train_data.rows then 0
         else (cnt : Int) % train_data.rows + 1)) ∧
    (0 : Int) % train_data.rows = 0 ∧
    (xcsf_fit1 ops train_data false s1).train_rows = s1.train_rows ++
      (List.range s1.trial.xcsf.MAX_TRIALS.toNat).map
        (fun cnt => (Int.ofNat cnt) % train_data.rows) ∧
    (xcsf_fit2 ops train_data test_data false s2).train_rows = s2.train_rows ++
      (List.range s2.trial.xcsf.MAX_TRIALS.toNat).map
        (fun cnt => (Int.ofNat cnt) % train_data.rows) ∧
    (xcsf_fit2 ops train_data test_data false s2).test_rows = s2.test_rows ++
      (List.range s2.trial.xcsf.MAX_TRIALS.toNat).map
        (fun cnt => (Int.ofNat cnt) % test_data.rows) := by
  refine ⟨?_, Int.zero_emod _, (xcsf_fit1_fold_rows ops train_data s1 h _).1,
    (xcsf_fit2_fold_rows ops train_data test_data s2 h ht _).1,
    (xcsf_fit2_fold_rows ops train_data test_data s2 h ht _).2⟩
  intro cnt
  obtain ⟨-, c1, c2, c3⟩ := emod_succ_cyclic cnt train_data.rows h
  exact ⟨seq_row_eq cnt _ h, seq_row_eq cnt _ ht, c1, c2, c3⟩

/-- A concrete instance of C33: five trials over the three rows of the sample
data take the rows `0, 1, 2, 0, 1`, for training and for testing. -/
theorem C33_sequential_rows_witness :
    0 < input_sample.rows ∧
    (xcsf_fit1 engine_ops_sample input_sample false fit1_state_five).train_rows
      = [0, 1, 2, 0, 1] ∧
    (xcsf_fit2 engine_ops_sample input_sample input_sample false fit_state_five).train_rows
      = [0, 1, 2, 0, 1] ∧
    (xcsf_fit2 engine_ops_sample input_sample input_sample false fit_state_five).test_rows
      = [0, 1, 2, 0, 1] := by
  have h : 0 < input_sample.rows := by decide
  have key := C33_sequential_rows engine_ops_sample input_sample input_sample
    fit1_state_five fit_state_five h h
  refine ⟨h, ?_, ?_, ?_⟩
  · rw [key.2.2.1]
    decide
  · rw [key.2.2.2.1]
    decide
  · rw [key.2.2.2.2]
    decide

/-! ### The window of the moving average -/

/-- The buffer index `cnt % P` of the drivers, for a counter `cnt ≥ 0` and
`P > 0`, is the remainder of `cnt` by `P`. -/
theorem slot_eq (p t : Nat) : ((t : Int).tmod (p : Int)).toNat = t % p := by
  rw [Int.tmod_eq_emod (Int.natCast_nonneg t) (Int.natCast_nonneg p), ← Int.natCast_mod,
    Int.toNat_natCast]

theorem slot_range (P : Int) (hP : 0 < P) (cnt : Nat) :
    0 ≤ (cnt : Int).tmod P ∧ (cnt : Int).tmod P < P := by
  rw [Int.tmod_eq_emod (Int.natCast_nonneg cnt) hP.le]
  exact ⟨Int.emod_nonneg _ hP.ne', Int.emod_lt_of_pos _ hP⟩

/-- Two trials less than `P` apart use different slots. -/
theorem slot_ne (P : Int) (t n : Nat) (h1 : t < n) (h2 : (n : Int) < t + P) :
    ((t : Int).tmod P).toNat ≠ ((n : Int).tmod P).toNat := by
  obtain ⟨p, rfl⟩ := Int.eq_ofNat_of_zero_le (show 0 ≤ P by omega)
  rw [slot_eq, slot_eq]
  intro he
  have hd : p ∣ n - t := (Nat.modEq_iff_dvd' h1.le).mp he
  have hz : n - t = 0 := Nat.eq_zero_of_dvd_of_lt hd (by omega)
  omega

/-- Every slot `k < P` is the slot of exactly one trial of the window
`c − P + 1 … c` that ends at a report `c`. -/
theorem slot_window (P : Int) (hP : 0 < P) (c : Nat) (hc : 0 < c) (hdiv : (c : Int).tmod P = 0)
    (k : Nat) (hk : (k : Int) < P) :
    ∃ t : Nat, ((c : Int) - P + 1 ≤ t ∧ t ≤ c ∧ ((t : Int).tmod P).toNat = k) ∧
      ∀ t2 : Nat, (c : Int) - P + 1 ≤ t2 → t2 ≤ c → ((t2 : Int).tmod P).toNat = k → t2 = t := by
  obtain ⟨p, rfl⟩ := Int.eq_ofNat_of_zero_le hP.le
  have hc0 : c % p = 0 := by
    have := slot_eq p c
    rw [hdiv] at this
    simpa using this.symm
  have hpc : p ≤ c := Nat.le_of_dvd hc (Nat.dvd_of_mod_eq_zero hc0)
  have huniq : ∀ a b : Nat, (c : Int) - (p : Int) + 1 ≤ a → a ≤ c → (c : Int) - (p : Int) + 1 ≤ b →
      b ≤ c → ((a : Int).tmod (p : Int)).toNat = ((b : Int).tmod (p : Int)).toNat → a = b := by
    intro a b ha1 ha2 hb1 hb2 he
    rcases Nat.lt_trichotomy a b with hlt | heq | hgt
    · exact absurd he (slot_ne _ a b hlt (by omega))
    · exact heq
    · exact absurd he.symm (slot_ne _ b a hgt (by omega))
  by_cases hk0 : k = 0
  · subst hk0
    have hs : ((c : Int).tmod (p : Int)).toNat = 0 := by rw [slot_eq]; exact hc0
    refine ⟨c, ⟨by omega, le_refl c, hs⟩, ?_⟩
    intro t2 h1 h2 h3
    exact huniq t2 c h1 h2 (by omega) (le_refl c) (h3.trans hs.symm)
  · have hs : (((c - p + k : Nat) : Int).tmod (p : Int)).toNat = k := by
      rw [slot_eq]
      obtain ⟨q, hq⟩ := Nat.dvd_of_mod_eq_zero hc0
      have hq1 : 1 ≤ q := by
        rcases Nat.eq_zero_or_pos q with h0 | h0
        · subst h0
          omega
        · exact h0
      obtain ⟨q2, rfl⟩ : ∃ q2, q = q2 + 1 := ⟨q - 1, by omega⟩
      have : c - p + k = k + p * q2 := by
        rw [hq, Nat.mul_add, Nat.mul_one]
        omega
      rw [this, Nat.add_mul_mod_self_left]
      exact Nat.mod_eq_of_lt (by omega)
    refine ⟨c - p + k, ⟨by omega, by omega, hs⟩, ?_⟩
    intro t2 h1 h2 h3
    exact huniq t2 (c - p + k) h1 h2 (by omega) (by omega) (h3.trans hs.symm)

/-- A buffer written at slot `n % P` in step `n` holds, after `n` steps, the
values of the last `P` steps (of all steps when `n < P`), each at its slot. -/
theorem window_buffer (P : Int) (buf : Nat → Nat → ℚ) (e : Nat → ℚ)
    (hbuf : ∀ n, buf (n + 1) = Function.update (buf n) ((n : Int).tmod P).toNat (e n)) :
    ∀ n t : Nat, t < n → (n : Int) ≤ t + P → buf n ((t : Int).tmod P).toNat = e t := by
  intro n
  induction n with
  | zero => intro t ht; exact absurd ht (Nat.not_lt_zero t)
  | succ n ih =>
    intro t ht hw
    rw [hbuf]
    by_cases htn : t = n
    · subst htn
      rw [Function.update_same]
    · rw [Function.update_noteq (slot_ne P t n (by omega) (by push_cast at hw; omega))]
      exact ih t (by omega) (by push_cast at hw; omega)

theorem errors_trace (e : Nat → ℚ) (errors : Nat → List ℚ) (h0 : errors 0 = [])
    (herr : ∀ n, errors (n + 1) = errors n ++ [e n]) :
    ∀ N t : Nat, t < N → (errors N).getD t 0 = e t := by
  have hall : ∀ N, errors N = (List.range N).map e := by
    intro N
    induction N with
    | zero => rw [h0]; rfl
    | succ N ih => rw [herr, ih, List.range_succ, List.map_append]; rfl
  intro N t ht
  rw [hall, getD_map_of_lt _ _ _ _ (by rw [List.length_range]; exact ht),
    getD_range_of_lt _ _ ht]

/-- The reports of a driver loop, in general: a report is made exactly at the
counters `c > 0` divisible by `P`, and the buffer it shows holds at each slot the
error of the one trial of the window `c − P + 1 … c` that has this slot. -/
theorem window_reports (P : Int) (buf : Nat → Nat → ℚ) (e : Nat → ℚ)
    (errors : Nat → List ℚ) (reps : Nat → List (Int × (Nat → ℚ)))
    (h0e : errors 0 = []) (h0r : reps 0 = [])
    (hbuf : ∀ n, buf (n + 1) = Function.update (buf n) ((n : Int).tmod P).toNat (e n))
    (herr : ∀ n, errors (n + 1) = errors n ++ [e n])
    (hrep : ∀ n, reps (n + 1) =
      if (n : Int).tmod P = 0 ∧ (n : Int) > 0 then reps n ++ [((n : Int), buf (n + 1))]
      else reps n) (N : Nat) :
    (∀ r ∈ reps N, 0 < r.1 ∧ r.1 < N ∧ r.1.tmod P = 0 ∧
      ∀ t : Nat, r.1 - P + 1 ≤ t → (t : Int) ≤ r.1 →
        r.2 ((t : Int).tmod P).toNat = (errors N).getD t 0) ∧
    (∀ c : Nat, c < N → 0 < c → (c : Int).tmod P = 0 → ∃ r ∈ reps N, r.1 = c) := by
  have hmem : ∀ N, ∀ r ∈ reps N, ∃ c : Nat, c < N ∧ 0 < c ∧ (c : Int).tmod P = 0 ∧
      r = ((c : Int), buf (c + 1)) := by
    intro N
    induction N with
    | zero => intro r hr; rw [h0r] at hr; exact absurd hr (List.not_mem_nil r)
    | succ N ih =>
      intro r hr
      rw [hrep] at hr
      by_cases hc : (N : Int).tmod P = 0 ∧ (N : Int) > 0
      · rw [if_pos hc] at hr
        rcases List.mem_append.mp hr with h | h
        · obtain ⟨c, c1, c2, c3, c4⟩ := ih r h
          exact ⟨c, by omega, c2, c3, c4⟩
        · rw [List.mem_singleton] at h
          exact ⟨N, by omega, by omega, hc.1, h⟩
      · rw [if_neg hc] at hr
        obtain ⟨c, c1, c2, c3, c4⟩ := ih r hr
        exact ⟨c, by omega, c2, c3, c4⟩
  constructor
  · intro r hr
    obtain ⟨c, c1, c2, c3, rfl⟩ := hmem N r hr
    refine ⟨by omega, by omega, c3, ?_⟩
    intro t h1 h2
    dsimp only at h1 h2 ⊢
    rw [window_buffer P buf e hbuf (c + 1) t (by omega) (by push_cast; omega),
      errors_trace e errors h0e herr N t (by omega)]
  · induction N with
    | zero => intro c hc; exact absurd hc (Nat.not_lt_zero c)
    | succ N ih =>
      intro c hc h0 hd
      rw [hrep]
      by_cases hcN : c = N
      · subst hcN
        rw [if_pos ⟨hd, by omega⟩]
        exact ⟨_, List.mem_append_right _ (List.mem_singleton_self _), rfl⟩
      · obtain ⟨r, hr, hr1⟩ := ih c (by omega) h0 hd
        refine ⟨r, ?_, hr1⟩
        split
        · exact List.mem_append_left _ hr
        · exact hr

theorem foldl_range_succ {σ : Type} (f : σ → Nat → σ) (s : σ) (n : Nat) :
    (List.range (n + 1)).foldl f s = f ((List.range n).foldl f s) n := by
  rw [List.range_succ, List.foldl_append, List.foldl_cons, List.foldl_nil]

theorem xcsf_fit1_fold_perf {S : Type} (ops : EngineOps S) (train_data : INPUT)
    (shuffle : Bool) (s : Fit1State S) (n : Nat) :
    ((List.range n).foldl (xcsf_fit1_step ops train_data shuffle) s).trial.xcsf.PERF_AVG_TRIALS =
      s.trial.xcsf.PERF_AVG_TRIALS := by
  induction n with
  | zero => rfl
  | succ n ih =>
    rw [foldl_range_succ]
    exact Eq.trans rfl ih

theorem xcsf_fit2_fold_perf {S : Type} (ops : EngineOps S) (train_data test_data : INPUT)
    (shuffle : Bool) (s : FitState S) (n : Nat) :
    ((List.range n).foldl (xcsf_fit2_step ops train_data test_data shuffle)
      s).trial.xcsf.PERF_AVG_TRIALS = s.trial.xcsf.PERF_AVG_TRIALS := by
  induction n with
  | zero => rfl
  | succ n ih =>
    rw [foldl_range_succ]
    exact Eq.trans rfl ih

theorem xcsf_fit1_step_window {S : Type} (ops : EngineOps S) (train_data : INPUT)
    (shuffle : Bool) (s : Fit1State S) (cnt : Nat) :
    (xcsf_fit1_step ops train_data shuffle s cnt).err =
      Function.update s.err ((cnt : Int).tmod s.trial.xcsf.PERF_AVG_TRIALS).toNat
        ((xcsf_fit1_step ops train_data shuffle s cnt).err
          ((cnt : Int).tmod s.trial.xcsf.PERF_AVG_TRIALS).toNat) ∧
    (xcsf_fit1_step ops train_data shuffle s cnt).train_errors =
      s.train_errors ++ [(xcsf_fit1_step ops train_data shuffle s cnt).err
        ((cnt : Int).tmod s.trial.xcsf.PERF_AVG_TRIALS).toNat] ∧
    (xcsf_fit1_step ops train_data shuffle s cnt).reports =
      (if (cnt : Int).tmod s.trial.xcsf.PERF_AVG_TRIALS = 0 ∧ (cnt : Int) > 0 then
        s.reports ++ [((cnt : Int), (xcsf_fit1_step ops train_data shuffle s cnt).err)]
      else s.reports) := by
  unfold xcsf_fit1_step
  dsimp only
  rw [Function.update_same]
  exact ⟨rfl, rfl, rfl⟩

theorem xcsf_fit2_step_window {S : Type} (ops : EngineOps S) (train_data test_data : INPUT)
    (shuffle : Bool) (s : FitState S) (cnt : Nat) :
    ((xcsf_fit2_step ops train_data test_data shuffle s cnt).err =
      Function.update s.err ((cnt : Int).tmod s.trial.xcsf.PERF_AVG_TRIALS).toNat
        ((xcsf_fit2_step ops train_data test_data shuffle s cnt).err
          ((cnt : Int).tmod s.trial.xcsf.PERF_AVG_TRIALS).toNat) ∧
    (xcsf_fit2_step ops train_data test_data shuffle s cnt).train_errors =
      s.train_errors ++ [(xcsf_fit2_step ops train_data test_data shuffle s cnt).err
        ((cnt : Int).tmod s.trial.xcsf.PERF_AVG_TRIALS).toNat]) ∧
    ((xcsf_fit2_step ops train_data test_data shuffle s cnt).terr =
      Function.update s.terr ((cnt : Int).tmod s.trial.xcsf.PERF_AVG_TRIALS).toNat
        ((xcsf_fit2_step ops train_data test_data shuffle s cnt).terr
          ((cnt : Int).tmod s.trial.xcsf.PERF_AVG_TRIALS).toNat) ∧
    (xcsf_fit2_step ops train_data test_data shuffle s cnt).test_errors =
      s.test_errors ++ [(xcsf_fit2_step ops train_data test_data shuffle s cnt).terr
        ((cnt : Int).tmod s.trial.xcsf.PERF_AVG_TRIALS).toNat]) ∧
    (xcsf_fit2_step ops train_data test_data shuffle s cnt).reports =
      (if (cnt : Int).tmod s.trial.xcsf.PERF_AVG_TRIALS = 0 ∧ (cnt : Int) > 0 then
        s.reports ++ [((cnt : Int), (xcsf_fit2_step ops train_data test_data shuffle s cnt).err,
          (xcsf_fit2_step ops train_data test_data shuffle s cnt).terr)]
      else s.reports) := by
  unfold xcsf_fit2_step
  dsimp only
  rw [Function.update_same, Function.update_same]
  exact ⟨⟨rfl, rfl⟩, ⟨rfl, rfl⟩, rfl⟩

/-- The reports of `xcsf_fit1` after `N` trials. -/
theorem xcsf_fit1_window {S : Type} (ops : EngineOps S) (train_data : INPUT) (shuffle : Bool)
    (s : Fit1State S) (h0e : s.train_errors = []) (h0r : s.reports = []) (N : Nat) :
    (∀ r ∈ ((List.range N).foldl (xcsf_fit1_step ops train_data shuffle) s).reports,
      0 < r.1 ∧ r.1 < N ∧ r.1.tmod s.trial.xcsf.PERF_AVG_TRIALS = 0 ∧
      ∀ t : Nat, r.1 - s.trial.xcsf.PERF_AVG_TRIALS + 1 ≤ t → (t : Int) ≤ r.1 →
        r.2 ((t : Int).tmod s.trial.xcsf.PERF_AVG_TRIALS).toNat =
          ((List.range N).foldl (xcsf_fit1_step ops train_data shuffle) s).train_errors.getD
            t 0) ∧
    (∀ c : Nat, c < N → 0 < c → (c : Int).tmod s.trial.xcsf.PERF_AVG_TRIALS = 0 →
      ∃ r ∈ ((List.range N).foldl (xcsf_fit1_step ops train_data shuffle) s).reports,
        r.1 = c) := by
  have hstep : ∀ n, _ := fun n => xcsf_fit1_step_window ops train_data shuffle
    ((List.range n).foldl (xcsf_fit1_step ops train_data shuffle) s) n
  simp only [xcsf_fit1_fold_perf, ← foldl_range_succ] at hstep
  exact window_reports s.trial.xcsf.PERF_AVG_TRIALS
    (fun n => ((List.range n).foldl (xcsf_fit1_step ops train_data shuffle) s).err)
    (fun n => ((List.range (n + 1)).foldl
      (xcsf_fit1_step ops train_data shuffle) s).err
        ((n : Int).tmod s.trial.xcsf.PERF_AVG_TRIALS).toNat)
    (fun n => ((List.range n).foldl (xcsf_fit1_step ops train_data shuffle) s).train_errors)
    (fun n => ((List.range n).foldl (xcsf_fit1_step ops train_data shuffle) s).reports)
    h0e h0r (fun n => (hstep n).1) (fun n => (hstep n).2.1) (fun n => (hstep n).2.2) N

/-- The reports of `xcsf_fit2` after `N` trials. -/
theorem xcsf_fit2_window {S : Type} (ops : EngineOps S) (train_data test_data : INPUT)
    (shuffle : Bool) (s : FitState S) (h0e : s.train_errors = []) (h0t : s.test_errors = [])
    (h0r : s.reports = []) (N : Nat) :
    (∀ r ∈ ((List.range N).foldl (xcsf_fit2_step ops train_data test_data shuffle) s).reports,
      0 < r.1 ∧ r.1 < N ∧ r.1.tmod s.trial.xcsf.PERF_AVG_TRIALS = 0 ∧
      ∀ t : Nat, r.1 - s.trial.xcsf.PERF_AVG_TRIALS + 1 ≤ t → (t : Int) ≤ r.1 →
        r.2.1 ((t : Int).tmod s.trial.xcsf.PERF_AVG_TRIALS).toNat =
          ((List.range N).foldl (xcsf_fit2_step ops train_data test_data shuffle)
            s).train_errors.getD t 0 ∧
        r.2.2 ((t : Int).tmod s.trial.xcsf.PERF_AVG_TRIALS).toNat =
          ((List.range N).foldl (xcsf_fit2_step ops train_data test_data shuffle)
            s).test_errors.getD t 0) ∧
    (∀ c : Nat, c < N → 0 < c → (c : Int).tmod s.trial.xcsf.PERF_AVG_TRIALS = 0 →
      ∃ r ∈ ((List.range N).foldl (xcsf_fit2_step ops train_data test_data shuffle) s).reports,
        r.1 = c) := by
  have hstep : ∀ n, _ := fun n => xcsf_fit2_step_window ops train_data test_data shuffle
    ((List.range n).foldl (xcsf_fit2_step ops train_data test_data shuffle) s) n
  simp only [xcsf_fit2_fold_perf, ← foldl_range_succ] at hstep
  have hA := window_reports s.trial.xcsf.PERF_AVG_TRIALS
    (fun n => ((List.range n).foldl (xcsf_fit2_step ops train_data test_data shuffle) s).err)
    (fun n => ((List.range (n + 1)).foldl
      (xcsf_fit2_step ops train_data test_data shuffle) s).err
        ((n : Int).tmod s.trial.xcsf.PERF_AVG_TRIALS).toNat)
    (fun n => ((List.range n).foldl (xcsf_fit2_step ops train_data test_data shuffle)
      s).train_errors)
    (fun n => (((List.range n).foldl (xcsf_fit2_step ops train_data test_data shuffle)
      s).reports).map (fun r => (r.1, r.2.1)))
    h0e (by dsimp only [List.range_zero, List.foldl_nil]; rw [h0r]; rfl)
    (fun n => (hstep n).1.1) (fun n => (hstep n).1.2)
    (fun n => by
      dsimp only
      rw [(hstep n).2.2]
      split <;> simp)
    N
  have hB := window_reports s.trial.xcsf.PERF_AVG_TRIALS
    (fun n => ((List.range n).foldl (xcsf_fit2_step ops train_data test_data shuffle) s).terr)
    (fun n => ((List.range (n + 1)).foldl
      (xcsf_fit2_step ops train_data test_data shuffle) s).terr
        ((n : Int).tmod s.trial.xcsf.PERF_AVG_TRIALS).toNat)
    (fun n => ((List.range n).foldl (xcsf_fit2_step ops train_data test_data shuffle)
      s).test_errors)
    (fun n => (((List.range n).foldl (xcsf_fit2_step ops train_data test_data shuffle)
      s).reports).map (fun r => (r.1, r.2.2)))
    h0t (by dsimp only [List.range_zero, List.foldl_nil]; rw [h0r]; rfl)
    (fun n => (hstep n).2.1.1) (fun n => (hstep n).2.1.2)
    (fun n => by
      dsimp only
      rw [(hstep n).2.2]
      split <;> simp)
    N
  constructor
  · intro r hr
    obtain ⟨a1, a2, a3, a4⟩ := hA.1 (r.1, r.2.1) (List.mem_map_of_mem _ hr)
    obtain ⟨-, -, -, b4⟩ := hB.1 (r.1, r.2.2) (List.mem_map_of_mem _ hr)
    exact ⟨a1, a2, a3, fun t h1 h2 => ⟨a4 t h1 h2, b4 t h1 h2⟩⟩
  · intro c hc h0 hd
    obtain ⟨r, hr, hr1⟩ := hA.2 c hc h0 hd
    obtain ⟨r0, hr0, rfl⟩ := List.mem_map.mp hr
    exact ⟨r0, hr0, hr1⟩

/-- C31: the window of the moving average in `xcsf_fit1` and `xcsf_fit2` when
`PERF_AVG_TRIALS > 0`. The index `cnt % PERF_AVG_TRIALS` at which an error is
stored lies in `[0, PERF_AVG_TRIALS)`. A report is made at every counter
`cnt > 0` that `PERF_AVG_TRIALS` divides, and the buffers it shows hold the
errors of the trials `cnt − PERF_AVG_TRIALS + 1 … cnt`, the error of trial `t`
in slot `t % PERF_AVG_TRIALS`; every slot is the slot of exactly one trial of
that window. The ghost lists `train_errors` and `test_errors`, empty at entry,
record the error of every trial in order. -/
theorem C31_moving_average_window {S : Type} (ops : EngineOps S) (train_data test_data : INPUT)
    (shuffle : Bool) (s1 : Fit1State S) (s2 : FitState S)
    (hP1 : 0 < s1.trial.xcsf.PERF_AVG_TRIALS) (hP2 : 0 < s2.trial.xcsf.PERF_AVG_TRIALS)
    (h1 : s1.train_errors = [] ∧ s1.reports = [])
    (h2 : s2.train_errors = [] ∧ s2.test_errors = [] ∧ s2.reports = []) :
    (∀ cnt : Nat,
      (0 ≤ (cnt : Int).tmod s1.trial.xcsf.PERF_AVG_TRIALS ∧
        (cnt : Int).tmod s1.trial.xcsf.PERF_AVG_TRIALS < s1.trial.xcsf.PERF_AVG_TRIALS) ∧
      (0 ≤ (cnt : Int).tmod s2.trial.xcsf.PERF_AVG_TRIALS ∧
        (cnt : Int).tmod s2.trial.xcsf.PERF_AVG_TRIALS < s2.trial.xcsf.PERF_AVG_TRIALS)) ∧
    ((∀ r ∈ (xcsf_fit1 ops train_data shuffle s1).reports,
        0 < r.1 ∧ r.1 < s1.trial.xcsf.MAX_TRIALS ∧
        r.1.tmod s1.trial.xcsf.PERF_AVG_TRIALS = 0 ∧
        ∀ t : Nat, r.1 - s1.trial.xcsf.PERF_AVG_TRIALS + 1 ≤ t → (t : Int) ≤ r.1 →
          r.2 ((t : Int).tmod s1.trial.xcsf.PERF_AVG_TRIALS).toNat =
            (xcsf_fit1 ops train_data shuffle s1).train_errors.getD t 0) ∧
      (∀ c : Nat, (c : Int) < s1.trial.xcsf.MAX_TRIALS → 0 < c →
        (c : Int).tmod s1.trial.xcsf.PERF_AVG_TRIALS = 0 →
        ∃ r ∈ (xcsf_fit1 ops train_data shuffle s1).reports, r.1 = c)) ∧
    ((∀ r ∈ (xcsf_fit2 ops train_data test_data shuffle s2).reports,
        0 < r.1 ∧ r.1 < s2.trial.xcsf.MAX_TRIALS ∧
        r.1.tmod s2.trial.xcsf.PERF_AVG_TRIALS = 0 ∧
        ∀ t : Nat, r.1 - s2.trial.xcsf.PERF_AVG_TRIALS + 1 ≤ t → (t : Int) ≤ r.1 →
          r.2.1 ((t : Int).tmod s2.trial.xcsf.PERF_AVG_TRIALS).toNat =
            (xcsf_fit2 ops train_data test_data shuffle s2).train_errors.getD t 0 ∧
          r.2.2 ((t : Int).tmod s2.trial.xcsf.PERF_AVG_TRIALS).toNat =
            (xcsf_fit2 ops train_data test_data shuffle s2).test_errors.getD t 0) ∧
      (∀ c : Nat, (c : Int) < s2.trial.xcsf.MAX_TRIALS → 0 < c →
        (c : Int).tmod s2.trial.xcsf.PERF_AVG_TRIALS = 0 →
        ∃ r ∈ (xcsf_fit2 ops train_data test_data shuffle s2).reports, r.1 = c)) ∧
    (∀ (P : Int) (c k : Nat), 0 < P → 0 < c → (c : Int).tmod P = 0 → (k : Int) < P →
      ∃ t : Nat, ((c : Int) - P + 1 ≤ t ∧ t ≤ c ∧ ((t : Int).tmod P).toNat = k) ∧
        ∀ t2 : Nat, (c : Int) - P + 1 ≤ t2 → t2 ≤ c → ((t2 : Int).tmod P).toNat = k →
          t2 = t) := by
  have w1 := xcsf_fit1_window ops train_data shuffle s1 h1.1 h1.2 s1.trial.xcsf.MAX_TRIALS.toNat
  have w2 := xcsf_fit2_window ops train_data test_data shuffle s2 h2.1 h2.2.1 h2.2.2
    s2.trial.xcsf.MAX_TRIALS.toNat
  refine ⟨fun cnt => ⟨slot_range _ hP1 cnt, slot_range _ hP2 cnt⟩, ⟨?_, ?_⟩, ⟨?_, ?_⟩,
    fun P c k hP hc hd hk => slot_window P hP c hc hd k hk⟩
  · intro r hr
    obtain ⟨a1, a2, a3, a4⟩ := w1.1 r hr
    exact ⟨a1, by omega, a3, a4⟩
  · intro c hc h0 hd
    exact w1.2 c (by omega) h0 hd
  · intro r hr
    obtain ⟨a1, a2, a3, a4⟩ := w2.1 r hr
    exact ⟨a1, by omega, a3, a4⟩
  · intro c hc h0 hd
    exact w2.2 c (by omega) h0 hd

/-- A concrete instance of C31: five trials without shuffling over the three
sample rows, with a window of two. The errors of the trials are
`1, 49, 225, 1, 49`; the reports are made at the counters `2` and `4` and show
the buffers `[225, 49]` (trials `2` and `1`) and `[49, 1]` (trials `4` and
`3`). -/
theorem C31_moving_average_window_witness :
    0 < fit1_state_five.trial.xcsf.PERF_AVG_TRIALS ∧
    0 < fit_state_five.trial.xcsf.PERF_AVG_TRIALS ∧
    (fit1_state_five.train_errors = [] ∧ fit1_state_five.reports = []) ∧
    (fit_state_five.train_errors = [] ∧ fit_state_five.test_errors = [] ∧
      fit_state_five.reports = []) ∧
    (xcsf_fit1 engine_ops_sample input_sample false fit1_state_five).train_errors =
      [1, 49, 225, 1, 49] ∧
    (xcsf_fit1 engine_ops_sample input_sample false fit1_state_five).reports.map
      (fun r => (r.1, r.2 0, r.2 1)) = [(2, 225, 49), (4, 49, 1)] ∧
    (∃ r ∈ (xcsf_fit1 engine_ops_sample input_sample false fit1_state_five).reports,
      r.1 = (4 : Nat)) ∧
    (∃ r ∈ (xcsf_fit2 engine_ops_sample input_sample input_sample false fit_state_five).reports,
      r.1 = (4 : Nat)) ∧
    (∀ r ∈ (xcsf_fit2 engine_ops_sample input_sample input_sample false fit_state_five).reports,
      0 < r.1 ∧ r.1 < 5 ∧ r.1.tmod 2 = 0) := by
  have hP1 : 0 < fit1_state_five.trial.xcsf.PERF_AVG_TRIALS := by decide
  have hP2 : 0 < fit_state_five.trial.xcsf.PERF_AVG_TRIALS := by decide
  have h1 : fit1_state_five.train_errors = [] ∧ fit1_state_five.reports = [] := ⟨rfl, rfl⟩
  have h2 : fit_state_five.train_errors = [] ∧ fit_state_five.test_errors = [] ∧
      fit_state_five.reports = [] := ⟨rfl, rfl, rfl⟩
  have key := C31_moving_average_window engine_ops_sample input_sample input_sample false
    fit1_state_five fit_state_five hP1 hP2 h1 h2
  have h5 : (5 : Int).toNat = 5 := rfl
  have n2 : (2 : Int).toNat = 2 := rfl
  have m13 : Int.tmod 1 3 = 1 := by decide
  have m23 : Int.tmod 2 3 = 2 := by decide
  have m33 : Int.tmod 3 3 = 0 := by decide
  have m43 : Int.tmod 4 3 = 1 := by decide
  have m53 : Int.tmod 5 3 = 2 := by decide
  have m12 : Int.tmod 1 2 = 1 := by decide
  have m22 : Int.tmod 2 2 = 0 := by decide
  have m32 : Int.tmod 3 2 = 1 := by decide
  have m42 : Int.tmod 4 2 = 0 := by decide
  refine ⟨hP1, hP2, h1, h2, ?_, ?_, key.2.1.2 4 (by decide) (by decide) (by decide),
    key.2.2.1.2 4 (by decide) (by decide) (by decide), ?_⟩
  · norm_num [xcsf_fit1, xcsf_fit1_step, fit1_state_five, xcsf_five_trials, xcsf_unit,
      input_sample, engine_ops_sample, xcsf_learn_trial, trial_error, row_ptr,
      List.range_succ, h5, n2, m13, m23, m33, m43, m53, m12, m22, m32, m42]
  · norm_num [xcsf_fit1, xcsf_fit1_step, fit1_state_five, xcsf_five_trials, xcsf_unit,
      input_sample, engine_ops_sample, xcsf_learn_trial, trial_error, row_ptr,
      List.range_succ, Function.update_apply, h5, n2, m13, m23, m33, m43, m53, m12, m22, m32,
      m42]
  · intro r hr
    obtain ⟨a1, a2, a3, -⟩ := key.2.2.1.1 r hr
    exact ⟨a1, a2, a3⟩

/-! ### RLS: the two multiplication loops -/

/-- A loop that keeps adding to one cell. -/
theorem foldl_accumulate_cell (f : Nat → ℚ) (p : Nat) :
    ∀ (l : List Nat) (d : Nat → ℚ),
    l.foldl (fun d k => Function.update d p (d p + f k)) d =
      Function.update d p (d p + (l.map f).sum) := by
  intro l
  induction l with
  | nil => intro d; simp
  | cons a rest ih =>
    intro d
    rw [List.foldl_cons, ih]
    simp only [Function.update_same, Function.update_idem, List.map_cons, List.sum_cons,
      add_assoc]

theorem sum_map_range (f : Nat → ℚ) (n : Nat) :
    ((List.range n).map f).sum = ∑ k in Finset.range n, f k := by
  induction n with
  | zero => simp
  | succ n ih => rw [List.range_succ, List.map_append, List.sum_append, ih,
      Finset.sum_range_succ]; simp

theorem sum_map_range'_one (f : Nat → ℚ) (n : Nat) :
    ((List.range' 1 n).map f).sum = ∑ k in Finset.range n, f (k + 1) := by
  induction n with
  | zero => simp
  | succ n ih =>
    rw [List.range'_concat, List.map_append, List.sum_append, ih, Finset.sum_range_succ]
    simp [Nat.add_comm]

/-- The index `i*state_length + j` when the stride is `n ≥ 0`. -/
theorem rls_index_eq (cons : RLS_CONS) (N : Nat) (hs : cons.state_length = (N : Int))
    (i j : Nat) : rls_index cons i j = i * N + j := by
  unfold rls_index
  rw [hs]
  have : (i : Int) * (N : Int) + (j : Int) = ((i * N + j : Nat) : Int) := by push_cast; ring
  rw [this, Int.toNat_natCast]

theorem index_injective (N i j i2 j2 : Nat) (hj : j < N) (hj2 : j2 < N)
    (h : i * N + j = i2 * N + j2) : i = i2 ∧ j = j2 := by
  have key : i = i2 := by
    rcases Nat.lt_trichotomy i i2 with hlt | heq | hgt
    · have := Nat.mul_le_mul_right N (show i + 1 ≤ i2 from hlt)
      rw [Nat.add_mul, Nat.one_mul] at this
      omega
    · exact heq
    · have := Nat.mul_le_mul_right N (show i2 + 1 ≤ i from hgt)
      rw [Nat.add_mul, Nat.one_mul] at this
      omega
  subst key
  exact ⟨rfl, by omega⟩

/-- A loop over `j < m` that writes the value `val j` to the cell `key j`, the
keys being distinct: the cells written hold their values and the others are as
before. -/
theorem foldl_write_cells (key : Nat → Nat) (val : Nat → ℚ) (d : Nat → ℚ) (m : Nat)
    (hinj : ∀ j j2 : Nat, j < m → j2 < m → key j = key j2 → j = j2) :
    (∀ j : Nat, j < m →
      ((List.range m).foldl (fun d j => Function.update d (key j) (val j)) d) (key j) = val j) ∧
    (∀ p : Nat, (∀ j : Nat, j < m → key j ≠ p) →
      ((List.range m).foldl (fun d j => Function.update d (key j) (val j)) d) p = d p) := by
  induction m with
  | zero =>
    exact ⟨fun j hj => absurd hj (Nat.not_lt_zero j), fun p _ => rfl⟩
  | succ m ih =>
    obtain ⟨ih1, ih2⟩ := ih (fun j j2 h1 h2 => hinj j j2 (by omega) (by omega))
    rw [List.range_succ, List.foldl_append, List.foldl_cons, List.foldl_nil]
    constructor
    · intro j hj
      by_cases hjm : j = m
      · subst hjm
        rw [Function.update_same]
      · have hne : key j ≠ key m := fun he => hjm (hinj j m hj (by omega) he)
        rw [Function.update_noteq hne]
        exact ih1 j (by omega)
    · intro p hp
      rw [Function.update_noteq (fun he => hp m (by omega) he.symm)]
      exact ih2 p (fun j hj => hp j (by omega))

/-- What `matrix_vector_multiply` leaves in `dest`, whatever the stride: entry
`i < n` is the sum over `j < n` of `srcm[i*state_length + j]·srcv[j]`, and the
other entries are as before. -/
theorem matrix_vector_multiply_spec (cons : RLS_CONS) (srcm srcv dest : Nat → ℚ) (n : Int)
    (i : Nat) :
    matrix_vector_multiply cons srcm srcv dest n i =
      if i < n.toNat then
        ∑ j in Finset.range n.toNat, srcm (rls_index cons i j) * srcv j
      else dest i := by
  have hrow : ∀ (d : Nat → ℚ) (r : Nat),
      (List.range' 1 (n.toNat - 1)).foldl
        (fun dest j => Function.update dest r (dest r + srcm (rls_index cons r j) * srcv j))
        (Function.update d r (srcm (rls_index cons r 0) * srcv 0)) =
      Function.update d r
        (srcm (rls_index cons r 0) * srcv 0 +
          ∑ k in Finset.range (n.toNat - 1), srcm (rls_index cons r (k + 1)) * srcv (k + 1)) := by
    intro d r
    rw [foldl_accumulate_cell (fun j => srcm (rls_index cons r j) * srcv j) r,
      Function.update_idem, Function.update_same, sum_map_range'_one]
  unfold matrix_vector_multiply
  simp only [hrow]
  rw [foldl_update_rows (fun (_ : ℚ) (r : Nat) => srcm (rls_index cons r 0) * srcv 0 +
    ∑ k in Finset.range (n.toNat - 1), srcm (rls_index cons r (k + 1)) * srcv (k + 1))]
  by_cases hi : i < n.toNat
  · rw [if_pos hi, if_pos hi]
    obtain ⟨m, hm⟩ : ∃ m, n.toNat = m + 1 := ⟨n.toNat - 1, by omega⟩
    rw [hm, Finset.sum_range_succ', Nat.add_sub_cancel, add_comm]
  · rw [if_neg hi, if_neg hi]

/-- What `matrix_matrix_multiply` leaves in `dest` when the stride
`state_length` is `n`: entry `(i, j)` with `i, j < n` is the product
`srca[i][0]·srcb[0][j]` that the cell is set to first, plus the sum over all
`k < n` of `srca[i][k]·srcb[k][j]`. -/
theorem matrix_matrix_multiply_spec (cons : RLS_CONS) (srca srcb dest : Nat → ℚ) (N : Nat)
    (hs : cons.state_length = (N : Int)) (i j : Nat) (hi : i < N) (hj : j < N) :
    matrix_matrix_multiply cons srca srcb dest (N : Int) (i * N + j) =
      srca (i * N) * srcb j + ∑ k in Finset.range N, srca (i * N + k) * srcb (k * N + j) := by
  have hcell : ∀ (d : Nat → ℚ) (r c : Nat),
      (List.range N).foldl
        (fun dest k => Function.update dest (rls_index cons r c)
          (dest (rls_index cons r c) + srca (rls_index cons r k) * srcb (rls_index cons k c)))
        (Function.update d (rls_index cons r c) (srca (rls_index cons r 0) * srcb c)) =
      Function.update d (r * N + c)
        (srca (r * N) * srcb c + ∑ k in Finset.range N, srca (r * N + k) * srcb (k * N + c)) := by
    intro d r c
    rw [foldl_accumulate_cell
      (fun k => srca (rls_index cons r k) * srcb (rls_index cons k c)) (rls_index cons r c),
      Function.update_idem, Function.update_same, sum_map_range]
    simp only [rls_index_eq cons N hs, Nat.add_zero]
  unfold matrix_matrix_multiply
  rw [Int.toNat_natCast]
  simp only [hcell]
  -- the rows one after the other
  have hrows : ∀ m : Nat, m ≤ N → ∀ r c : Nat, r < m → c < N →
      ((List.range m).foldl
        (fun dest r => (List.range N).foldl
          (fun dest c => Function.update dest (r * N + c)
            (srca (r * N) * srcb c +
              ∑ k in Finset.range N, srca (r * N + k) * srcb (k * N + c)))
          dest)
        dest) (r * N + c) =
        srca (r * N) * srcb c + ∑ k in Finset.range N, srca (r * N + k) * srcb (k * N + c) := by
    intro m
    induction m with
    | zero => intro _ r c hr; exact absurd hr (Nat.not_lt_zero r)
    | succ m ih =>
      intro hm r c hr hc
      rw [List.range_succ, List.foldl_append, List.foldl_cons, List.foldl_nil]
      obtain ⟨w1, w2⟩ := foldl_write_cells (fun c => m * N + c)
        (fun c => srca (m * N) * srcb c +
          ∑ k in Finset.range N, srca (m * N + k) * srcb (k * N + c))
        ((List.range m).foldl
          (fun dest r => (List.range N).foldl
            (fun dest c => Function.update dest (r * N + c)
              (srca (r * N) * srcb c +
                ∑ k in Finset.range N, srca (r * N + k) * srcb (k * N + c)))
            dest)
          dest) N (fun j j2 _ _ h => Nat.add_left_cancel h)
      by_cases hrm : r = m
      · subst hrm
        exact w1 c hc
      · rw [w2 (r * N + c) (fun c2 hc2 he => hrm (index_injective N m c2 r c hc2 hc he).1.symm)]
        exact ih (by omega) r c (by omega) hc
  exact hrows N (le_refl N) i j hi hj

/-- C36: the two multiplication loops when the stride `state_length` is `n`.
For `i, j < n`, `matrix_matrix_multiply` leaves in `dest[i][j]` the product
`srca[i][0]·srcb[0][j]` it sets the cell to first, plus the whole sum
`Σ_{k<n} srca[i][k]·srcb[k][j]`: its inner loop starts at `k = 0`, so the
`k = 0` term is counted twice and the result is not the matrix product.
`matrix_vector_multiply`, whose inner loop starts at `j = 1`, leaves in
`dest[i]` the product `Σ_{j<n} srcm[i][j]·srcv[j]`. -/
theorem C36_multiply_loops (cons : RLS_CONS) (n : Int) (hs : cons.state_length = n)
    (srca srcb srcv dest : Nat → ℚ) (i j : Nat) (hi : i < n.toNat) (hj : j < n.toNat) :
    matrix_matrix_multiply cons srca srcb dest n (rls_index cons i j) =
      rls_entry n.toNat srca i 0 * rls_entry n.toNat srcb 0 j +
        ∑ k in Finset.range n.toNat,
          rls_entry n.toNat srca i k * rls_entry n.toNat srcb k j ∧
    matrix_vector_multiply cons srca srcv dest n i =
      ∑ k in Finset.range n.toNat, rls_entry n.toNat srca i k * srcv k := by
  have hn : n = (n.toNat : Int) := by omega
  have hs2 : cons.state_length = (n.toNat : Int) := hs.trans hn
  constructor
  · have h := matrix_matrix_multiply_spec cons srca srcb dest n.toNat hs2 i j hi hj
    rw [← hn] at h
    rw [rls_index_eq cons n.toNat hs2, h]
    simp only [rls_entry, Nat.add_zero, Nat.zero_mul, Nat.zero_add]
  · rw [matrix_vector_multiply_spec, if_pos hi]
    simp only [rls_entry, rls_index_eq cons n.toNat hs2]

/-- A concrete instance of C36 with `n = state_length = 2`: the loop for two
matrices gives `2` at entry `(0, 0)` for the identity times the identity, where
the matrix product has `1`; the loop for a matrix and a vector gives the
identity times `[5, 7]` as `[5, 7]`. -/
theorem C36_multiply_loops_witness :
    rls_cons2.state_length = 2 ∧
    matrix_matrix_multiply rls_cons2 matrix_id2 matrix_id2 (fun _ => 0) 2
      (rls_index rls_cons2 0 0) = 2 ∧
    (∑ k in Finset.range 2, rls_entry 2 matrix_id2 0 k * rls_entry 2 matrix_id2 k 0) = 1 ∧
    matrix_vector_multiply rls_cons2 matrix_id2 (fun k => if k = 0 then 5 else 7)
      (fun _ => 0) 2 0 = 5 ∧
    matrix_vector_multiply rls_cons2 matrix_id2 (fun k => if k = 0 then 5 else 7)
      (fun _ => 0) 2 1 = 7 := by
  have h2 : (2 : Int).toNat = 2 := rfl
  have k00 := C36_multiply_loops rls_cons2 2 rfl matrix_id2 matrix_id2
    (fun k => if k = 0 then 5 else 7) (fun _ => 0) 0 0 (by decide) (by decide)
  have k10 := C36_multiply_loops rls_cons2 2 rfl matrix_id2 matrix_id2
    (fun k => if k = 0 then 5 else 7) (fun _ => 0) 1 0 (by decide) (by decide)
  rw [h2] at k00 k10
  refine ⟨rfl, ?_, ?_, ?_, ?_⟩
  · rw [k00.1]
    norm_num [rls_entry, matrix_id2, Finset.sum_range_succ]
  · norm_num [rls_entry, matrix_id2, Finset.sum_range_succ]
  · rw [k00.2]
    norm_num [rls_entry, matrix_id2, Finset.sum_range_succ]
  · rw [k10.2]
    norm_num [rls_entry, matrix_id2, Finset.sum_range_succ]

/-! ### NLMS: the length stored by `pred_nlms_init` -/

/-- A result inside the range of `int` is stored as it is. -/
theorem int_wrap_of_range (z : Int) (h1 : -2147483648 ≤ z) (h2 : z ≤ INT_MAX) :
    int_wrap z = z := by
  unfold INT_MAX at h2
  unfold int_wrap
  omega

/-- While no operation leaves the range of `int`, `pred_nlms_init` stores the
exact value of its expression: this is so for `0 ≤ num_x_vars ≤ 46341` with
quadratic features and for `0 ≤ num_x_vars < INT_MAX` with linear ones. -/
theorem pred_nlms_init_length_eq (xcsf : XCSF) (hd : 0 ≤ xcsf.num_x_vars)
    (hq : xcsf.PRED_TYPE = 1 → xcsf.num_x_vars ≤ 46341)
    (hl : xcsf.PRED_TYPE ≠ 1 → xcsf.num_x_vars < INT_MAX) :
    pred_nlms_init_length xcsf = pred_nlms_weights_length xcsf := by
  unfold pred_nlms_init_length pred_nlms_weights_length
  by_cases hp : xcsf.PRED_TYPE = 1
  · have hb := hq hp
    rw [if_pos hp, if_pos hp]
    have h1 : 0 ≤ xcsf.num_x_vars * (xcsf.num_x_vars - 1) := by
      rcases (by omega : xcsf.num_x_vars = 0 ∨ 1 ≤ xcsf.num_x_vars) with h0 | h1
      · rw [h0]; norm_num
      · exact mul_nonneg hd (by omega)
    have h2 : xcsf.num_x_vars * (xcsf.num_x_vars - 1) ≤ 2147441940 := by nlinarith
    have h3 : 0 ≤ (xcsf.num_x_vars * (xcsf.num_x_vars - 1)).tdiv 2 :=
      Int.tdiv_nonneg h1 (by norm_num)
    have h4 : (xcsf.num_x_vars * (xcsf.num_x_vars - 1)).tdiv 2 ≤ 2147441940 := by
      rw [Int.tdiv_eq_ediv h1 (by norm_num)]
      omega
    have h5 : (xcsf.num_x_vars * (xcsf.num_x_vars - 1)).tdiv 2 ≤ 1073720970 := by
      rw [Int.tdiv_eq_ediv h1 (by norm_num)]
      omega
    rw [int_wrap_of_range (xcsf.num_x_vars - 1) (by omega) (by unfold INT_MAX; omega),
      int_wrap_of_range (xcsf.num_x_vars * (xcsf.num_x_vars - 1)) (by omega)
        (by unfold INT_MAX; omega),
      int_wrap_of_range (2 * xcsf.num_x_vars) (by omega) (by unfold INT_MAX; omega),
      int_wrap_of_range (1 + 2 * xcsf.num_x_vars) (by omega) (by unfold INT_MAX; omega),
      int_wrap_of_range _ (by omega) (by unfold INT_MAX; omega)]
  · have hb := hl hp
    rw [if_neg hp, if_neg hp]
    exact int_wrap_of_range _ (by omega) (by unfold INT_MAX at hb ⊢; omega)

/-- C9 as stated fails: with quadratic features and `d = 46342` inputs the
product `d·(d−1) = 2147534622` exceeds `INT_MAX = 2147483647`, while for
`d = 46341` it does not. `pred_nlms_init` then stores `-1073623652` in
`weights_length`, not `1 + 2·d + d·(d−1)/2 = 1073859996`, and the running index
of `pred_nlms_compute` and of `pred_nlms_update` starts at `0`, which is not
below that `weights_length`. -/
theorem C9_int_overflow_counterexample :
    (0 : Int) ≤ xcsf_quad_large.num_x_vars ∧ xcsf_quad_large.PRED_TYPE = 1 ∧
    (46341 : Int) * (46341 - 1) ≤ INT_MAX ∧
    INT_MAX < xcsf_quad_large.num_x_vars * (xcsf_quad_large.num_x_vars - 1) ∧
    (pred_nlms_init xcsf_quad_large pred_sample).weights_length = -1073623652 ∧
    1 + 2 * xcsf_quad_large.num_x_vars +
      xcsf_quad_large.num_x_vars * (xcsf_quad_large.num_x_vars - 1) / 2 = 1073859996 ∧
    0 ∈ (pred_nlms_compute_var xcsf_quad_large pred_sample x_sample 0).visited ∧
    0 ∈ (pred_nlms_update_var xcsf_quad_large pred_sample (fun _ => 0) x_sample 0).visited ∧
    ¬ ((0 : Nat) : Int) < (pred_nlms_init xcsf_quad_large pred_sample).weights_length := by
  have hL : (pred_nlms_init xcsf_quad_large pred_sample).weights_length = -1073623652 := by
    show pred_nlms_init_length xcsf_quad_large = -1073623652
    decide
  have hpos : 0 < (nlms_features xcsf_quad_large x_sample).length := by
    rw [nlms_features_length]
    omega
  refine ⟨by decide, rfl, by decide, by decide, hL, by decide, ?_, ?_, ?_⟩
  · rw [(pred_nlms_compute_var_spec xcsf_quad_large pred_sample x_sample 0).2.2]
    exact List.mem_range.mpr hpos
  · rw [(pred_nlms_update_var_spec xcsf_quad_large pred_sample (fun _ => 0) x_sample 0).2.2]
    exact List.mem_range.mpr hpos
  · rw [hL]
    decide

/-- C9, amended: let `d = num_x_vars` with `0 ≤ d ≤ 46341` when `PRED_TYPE = 1`
(the values for which `d·(d−1)` fits an `int`) and `0 ≤ d < INT_MAX` otherwise.
Then `pred_nlms_init` sets `weights_length` to `1 + 2·d + d·(d−1)/2` when
`PRED_TYPE = 1` (and `2` divides `d·(d−1)`) and to `1 + d` otherwise. If
`num_x_vars` and `PRED_TYPE` are as they were at `init`, the weight indices that
the running index of `pred_nlms_compute` and of `pred_nlms_update` goes through
are exactly `0, 1, …, weights_length − 1`, in this order: each one once, none at
or beyond `weights_length`. -/
theorem C9_weights_length_and_indices (xcsf xcsf1 : XCSF) (fresh pred : PRED_NLMS)
    (y x : Nat → ℚ) (var : Nat) (hd : 0 ≤ xcsf.num_x_vars)
    (hq : xcsf.PRED_TYPE = 1 → xcsf.num_x_vars ≤ 46341)
    (hl : xcsf.PRED_TYPE ≠ 1 → xcsf.num_x_vars < INT_MAX)
    (hn : xcsf1.num_x_vars = xcsf.num_x_vars) (hp : xcsf1.PRED_TYPE = xcsf.PRED_TYPE) :
    (pred_nlms_init xcsf fresh).weights_length =
      (if xcsf.PRED_TYPE = 1 then
        1 + 2 * xcsf.num_x_vars + xcsf.num_x_vars * (xcsf.num_x_vars - 1) / 2
      else 1 + xcsf.num_x_vars) ∧
    (2 : Int) ∣ xcsf.num_x_vars * (xcsf.num_x_vars - 1) ∧
    (pred_nlms_compute_var xcsf1 pred x var).visited =
      List.range (pred_nlms_init xcsf fresh).weights_length.toNat ∧
    (pred_nlms_update_var xcsf1 pred y x var).visited =
      List.range (pred_nlms_init xcsf fresh).weights_length.toNat ∧
    (pred_nlms_compute_var xcsf1 pred x var).visited.Nodup ∧
    (pred_nlms_update_var xcsf1 pred y x var).visited.Nodup ∧
    (∀ k : Nat, k ∈ (pred_nlms_compute_var xcsf1 pred x var).visited ↔
      (k : Int) < (pred_nlms_init xcsf fresh).weights_length) ∧
    (∀ k : Nat, k ∈ (pred_nlms_update_var xcsf1 pred y x var).visited ↔
      (k : Int) < (pred_nlms_init xcsf fresh).weights_length) := by
  have hL : (pred_nlms_init xcsf fresh).weights_length = pred_nlms_weights_length xcsf :=
    pred_nlms_init_length_eq xcsf hd hq hl
  have hlen := nlms_features_length_toNat xcsf xcsf1 x hd hn hp
  have hc : (pred_nlms_compute_var xcsf1 pred x var).visited =
      List.range (pred_nlms_init xcsf fresh).weights_length.toNat := by
    rw [(pred_nlms_compute_var_spec xcsf1 pred x var).2.2, hlen, hL]
  have hu : (pred_nlms_update_var xcsf1 pred y x var).visited =
      List.range (pred_nlms_init xcsf fresh).weights_length.toNat := by
    rw [(pred_nlms_update_var_spec xcsf1 pred y x var).2.2, hlen, hL]
  have hnonneg : 0 ≤ xcsf.num_x_vars * (xcsf.num_x_vars - 1) := by
    rcases (by omega : xcsf.num_x_vars = 0 ∨ 1 ≤ xcsf.num_x_vars) with h0 | h1
    · rw [h0]; norm_num
    · exact mul_nonneg hd (by omega)
  refine ⟨?_, (Int.even_mul_pred_self xcsf.num_x_vars).two_dvd, hc, hu, ?_, ?_, ?_, ?_⟩
  · rw [hL]
    unfold pred_nlms_weights_length
    split_ifs
    · rw [Int.tdiv_eq_ediv hnonneg (by norm_num)]
    · ring
  · rw [hc]; exact List.nodup_range _
  · rw [hu]; exact List.nodup_range _
  · intro k
    rw [hc, mem_range_toNat]
  · intro k
    rw [hu, mem_range_toNat]

/-- A concrete instance of the amended C9: two inputs with quadratic features
give `weights_length = 6` and the index sequence `0, …, 5` in both functions. -/
theorem C9_weights_length_and_indices_witness :
    (0 : Int) ≤ xcsf_quad.num_x_vars ∧ xcsf_quad.num_x_vars ≤ 46341 ∧
    (pred_nlms_init xcsf_quad pred_sample).weights_length = 6 ∧
    (pred_nlms_compute_var xcsf_quad pred_sample x_sample 0).visited = [0, 1, 2, 3, 4, 5] ∧
    (pred_nlms_update_var xcsf_quad pred_sample (fun _ => 140) x_sample 0).visited =
      [0, 1, 2, 3, 4, 5] := by
  have hd : (0 : Int) ≤ xcsf_quad.num_x_vars := by decide
  have hb : xcsf_quad.num_x_vars ≤ 46341 := by decide
  obtain ⟨hL, -, hc, hu, -, -, -, -⟩ :=
    C9_weights_length_and_indices xcsf_quad xcsf_quad pred_sample pred_sample
      (fun _ => 140) x_sample 0 hd (fun _ => hb) (fun h => absurd rfl h) rfl rfl
  have h6 : (pred_nlms_init xcsf_quad pred_sample).weights_length = 6 := by
    rw [hL]
    decide
  refine ⟨hd, hb, h6, ?_, ?_⟩
  · rw [hc, h6]; rfl
  · rw [hu, h6]; rfl

/-! ### NLMS: the cached prediction -/

/-- C11: `pred_nlms_update` consumes the cached `pre[var]` and does not compute
the prediction again. For every predictor `p`, whatever its cache holds, the
update moves weight `k` of an output `var < num_y_vars` by
`ETA·(y[var] − p.pre[var])/norm` times feature `k`. So, called right after
`pred_nlms_compute(x)` on the same predictor, it moves weight `k` by
`ETA·(y[var] − Σ_j w[var][j]·φ_j(x))/norm` times feature `k`, with the weights
`w` before the update; with another value `c` in the cache it uses `c`. The
update leaves the cached `pre` and `weights_length` as they are. -/
theorem C11_update_uses_cached_pre (xcsf : XCSF) (pred : PRED_NLMS) (y x : Nat → ℚ) (var : Nat)
    (hvar : (var : Int) < xcsf.num_y_vars) :
    (∀ k, k < (nlms_features xcsf x).length →
      (pred_nlms_update xcsf (pred_nlms_compute xcsf pred x) y x).weights var k =
        pred.weights var k +
          xcsf.XCSF_ETA *
            (y var - ∑ j in Finset.range (nlms_features xcsf x).length,
              pred.weights var j * (nlms_features xcsf x).getD j 0) / pred_nlms_norm xcsf x *
            (nlms_features xcsf x).getD k 0) ∧
    (∀ (p : PRED_NLMS) (k : Nat), k < (nlms_features xcsf x).length →
      (pred_nlms_update xcsf p y x).weights var k =
        p.weights var k +
          xcsf.XCSF_ETA * (y var - p.pre var) / pred_nlms_norm xcsf x *
            (nlms_features xcsf x).getD k 0) ∧
    (∀ (c : Nat → ℚ) (k : Nat), k < (nlms_features xcsf x).length →
      (pred_nlms_update xcsf { pred with pre := c } y x).weights var k =
        pred.weights var k +
          xcsf.XCSF_ETA * (y var - c var) / pred_nlms_norm xcsf x *
            (nlms_features xcsf x).getD k 0) ∧
    (pred_nlms_compute xcsf pred x).pre var =
      ∑ j in Finset.range (nlms_features xcsf x).length,
        pred.weights var j * (nlms_features xcsf x).getD j 0 ∧
    (∀ p : PRED_NLMS, (pred_nlms_update xcsf p y x).pre = p.pre ∧
      (pred_nlms_update xcsf p y x).weights_length = p.weights_length) := by
  obtain ⟨hcw, -, hp⟩ := pred_nlms_compute_spec xcsf pred x
  have hpre : (pred_nlms_compute xcsf pred x).pre var =
      ∑ j in Finset.range (nlms_features xcsf x).length,
        pred.weights var j * (nlms_features xcsf x).getD j 0 := by
    rw [hp var, if_pos hvar]
    exact (pred_nlms_compute_var_spec xcsf pred x var).1
  have hgen : ∀ (p : PRED_NLMS) (k : Nat), k < (nlms_features xcsf x).length →
      (pred_nlms_update xcsf p y x).weights var k =
        p.weights var k +
          xcsf.XCSF_ETA * (y var - p.pre var) / pred_nlms_norm xcsf x *
            (nlms_features xcsf x).getD k 0 := by
    intro p k hk
    rw [(pred_nlms_update_spec xcsf p y x).2.2 var, if_pos hvar,
      (pred_nlms_update_var_spec xcsf p y x var).1 k, if_pos hk]
    rfl
  refine ⟨?_, hgen, fun c k hk => hgen { pred with pre := c } k hk, hpre, ?_⟩
  · intro k hk
    rw [hgen (pred_nlms_compute xcsf pred x) k hk, hpre, hcw]
  · intro p
    exact ⟨(pred_nlms_update_spec xcsf p y x).1, (pred_nlms_update_spec xcsf p y x).2.1⟩

/-- A concrete instance of C11: inputs `[2, 3]`, quadratic features, weights
`1, …, 6`, target `128`, `ETA = 1/10`. Compute caches `114`, so the error is
`14`, `norm` is `14`, and the update moves weight `4` (feature `x_0·x_1 = 6`)
from `5` to `5 + 6/10`. With a stale cache holding `100` in place of `114` the
same call moves it to `5 + 12/10`. -/
theorem C11_update_uses_cached_pre_witness :
    (0 : Int) < xcsf_quad.num_y_vars ∧
    (pred_nlms_compute xcsf_quad pred_sample x_sample).pre 0 = 114 ∧
    pred_sample.weights 0 4 = 5 ∧
    (pred_nlms_update xcsf_quad (pred_nlms_compute xcsf_quad pred_sample x_sample)
      (fun _ => 128) x_sample).weights 0 4 = 28 / 5 ∧
    (pred_nlms_update xcsf_quad { pred_sample with pre := fun _ => 100 }
      (fun _ => 128) x_sample).weights 0 4 = 31 / 5 := by
  have hv : ((0 : Nat) : Int) < xcsf_quad.num_y_vars := by norm_num [xcsf_quad, xcsf_unit]
  obtain ⟨h1, -, h3, h4, -⟩ :=
    C11_update_uses_cached_pre xcsf_quad pred_sample (fun _ => 128) x_sample 0 hv
  have hd : xcsf_quad.num_x_vars.toNat = 2 := by decide
  have hq : quad_pairs 2 = [(0, 0), (0, 1), (1, 1)] := by decide
  have hf : nlms_features xcsf_quad x_sample = [1, 2, 3, 4, 6, 9] := by
    unfold nlms_features
    rw [hd, hq]
    norm_num [xcsf_quad, xcsf_unit, x_sample, List.range_succ]
  have hnorm : pred_nlms_norm xcsf_quad x_sample = 14 := by
    rw [pred_nlms_norm_eq, hd]
    norm_num [Finset.sum_range_succ, xcsf_quad, xcsf_unit, x_sample]
  refine ⟨by norm_num [xcsf_quad, xcsf_unit], ?_, ?_, ?_, ?_⟩
  · rw [h4, hf]
    norm_num [Finset.sum_range_succ, pred_sample]
  · norm_num [pred_sample]
  · rw [h1 4 (by rw [hf]; decide), hnorm, hf]
    norm_num [Finset.sum_range_succ, xcsf_quad, xcsf_unit, pred_sample]
  · rw [h3 (fun _ => 100) 4 (by rw [hf]; decide), hnorm, hf]
    norm_num [xcsf_quad, xcsf_unit, pred_sample]

/-! ### Mutation: the rates in use, dimension by dimension -/

theorem cond_rectangle_mutate_step_other (xcsf : XCSF) (step : ℚ) (s : MutateState)
    (i j : Nat) (hji : j ≠ i) :
    (cond_rectangle_mutate_step xcsf step s i).cond.lower j = s.cond.lower j ∧
    (cond_rectangle_mutate_step xcsf step s i).cond.upper j = s.cond.upper j := by
  unfold cond_rectangle_mutate_step
  dsimp only [drand]
  split_ifs <;> simp [cond_rectangle_bounds_at, Function.update_noteq hji]

theorem cond_rectangle_mutate_step_mu (xcsf : XCSF) (step : ℚ) (s : MutateState) (i : Nat) :
    (cond_rectangle_mutate_step xcsf step s i).cond.mu = s.cond.mu := by
  unfold cond_rectangle_mutate_step
  dsimp only [drand]
  split_ifs <;> rfl

/-- The random source after one iteration: each of the two bounds takes one
draw, and one more when it is perturbed. -/
theorem cond_rectangle_mutate_step_pos (xcsf : XCSF) (step : ℚ) (s : MutateState) (i : Nat) :
    (cond_rectangle_mutate_step xcsf step s i).rng.pos =
      (if s.rng.draws s.rng.pos < xcsf.P_MUTATION then s.rng.pos + 2 else s.rng.pos + 1) +
      (if s.rng.draws
          (if s.rng.draws s.rng.pos < xcsf.P_MUTATION then s.rng.pos + 2 else s.rng.pos + 1)
          < xcsf.P_MUTATION then 2 else 1) := by
  unfold cond_rectangle_mutate_step
  dsimp only [drand]
  by_cases h1 : s.rng.draws s.rng.pos < xcsf.P_MUTATION
  · simp only [h1, if_true]
    by_cases h2 : s.rng.draws (s.rng.pos + 1 + 1) < xcsf.P_MUTATION
    · have h2' : s.rng.draws (s.rng.pos + 2) < xcsf.P_MUTATION := h2
      simp only [h2, h2', if_true]
    · have h2' : ¬ s.rng.draws (s.rng.pos + 2) < xcsf.P_MUTATION := h2
      simp only [h2, h2', if_false]
  · simp only [h1, if_false]
    by_cases h2 : s.rng.draws (s.rng.pos + 1) < xcsf.P_MUTATION
    · simp only [h2, if_true]
    · simp only [h2, if_false]

/-- The loop of `cond_rectangle_mutate` over the first `n` dimensions, from the
state `s`: the dimensions below `n` hold the clamped, perturbed bounds of `s`,
each perturbed from the draws at the position the source had when the loop
reached it, and the other dimensions are as in `s`. -/
theorem cond_rectangle_mutate_fold_spec (xcsf : XCSF) (step : ℚ) (s : MutateState) (n : Nat) :
    ((List.range n).foldl (cond_rectangle_mutate_step xcsf step) s).rng.draws = s.rng.draws ∧
    ((List.range n).foldl (cond_rectangle_mutate_step xcsf step) s).cond.mu = s.cond.mu ∧
    (∀ j : Nat, n ≤ j →
      ((List.range n).foldl (cond_rectangle_mutate_step xcsf step) s).cond.lower j =
        s.cond.lower j ∧
      ((List.range n).foldl (cond_rectangle_mutate_step xcsf step) s).cond.upper j =
        s.cond.upper j) ∧
    (∀ i : Nat, i < n →
      ((List.range n).foldl (cond_rectangle_mutate_step xcsf step) s).cond.lower i =
        (cond_rectangle_mutate_step xcsf step
          { changed := false, cond := s.cond,
            rng := ((List.range i).foldl (cond_rectangle_mutate_step xcsf step) s).rng }
          i).cond.lower i ∧
      ((List.range n).foldl (cond_rectangle_mutate_step xcsf step) s).cond.upper i =
        (cond_rectangle_mutate_step xcsf step
          { changed := false, cond := s.cond,
            rng := ((List.range i).foldl (cond_rectangle_mutate_step xcsf step) s).rng }
          i).cond.upper i) := by
  induction n with
  | zero =>
    exact ⟨rfl, rfl, fun j _ => ⟨rfl, rfl⟩, fun i hi => absurd hi (Nat.not_lt_zero i)⟩
  | succ n ih =>
    obtain ⟨i1, i2, i3, i4⟩ := ih
    rw [List.range_succ, List.foldl_append, List.foldl_cons, List.foldl_nil]
    refine ⟨?_, ?_, ?_, ?_⟩
    · rw [cond_rectangle_mutate_step_draws, i1]
    · rw [cond_rectangle_mutate_step_mu, i2]
    · intro j hj
      obtain ⟨o1, o2⟩ := cond_rectangle_mutate_step_other xcsf step
        ((List.range n).foldl (cond_rectangle_mutate_step xcsf step) s) n j (by omega)
      rw [o1, o2]
      exact i3 j (by omega)
    · intro i hi
      by_cases hin : i = n
      · subst hin
        obtain ⟨a1, a2⟩ := cond_rectangle_mutate_step_spec xcsf step
          ((List.range i).foldl (cond_rectangle_mutate_step xcsf step) s) i
        obtain ⟨b1, b2⟩ := cond_rectangle_mutate_step_spec xcsf step
          { changed := false, cond := s.cond,
            rng := ((List.range i).foldl (cond_rectangle_mutate_step xcsf step) s).rng } i
        rw [a1, a2, b1, b2, (i3 i (le_refl i)).1, (i3 i (le_refl i)).2]
        exact ⟨rfl, rfl⟩
      · obtain ⟨o1, o2⟩ := cond_rectangle_mutate_step_other xcsf step
          ((List.range n).foldl (cond_rectangle_mutate_step xcsf step) s) n i hin
        rw [o1, o2]
        exact i4 i (by omega)

/-- What the loop of `cond_rectangle_mutate` leaves, written out: `pos i` is the
position of the random source when the loop reaches dimension `i`. The draw at
`pos i` decides the lower bound, which a draw below `P_MUTATION` moves by
`(2·draw − 1)·step` with the next draw; the draw after that decides the upper
bound in the same way; the pair is then clamped. -/
theorem cond_rectangle_mutate_loop_spec (xcsf : XCSF) (step : ℚ) (cond : COND_RECTANGLE)
    (rng : Rng) :
    ∃ pos : Nat → Nat, pos 0 = rng.pos ∧
      (∀ i : Nat, pos (i + 1) =
        (if rng.draws (pos i) < xcsf.P_MUTATION then pos i + 2 else pos i + 1) +
        (if rng.draws (if rng.draws (pos i) < xcsf.P_MUTATION then pos i + 2 else pos i + 1)
            < xcsf.P_MUTATION then 2 else 1)) ∧
      (cond_rectangle_mutate_loop xcsf step cond rng).rng.pos = pos xcsf.num_x_vars.toNat ∧
      (cond_rectangle_mutate_loop xcsf step cond rng).rng.draws = rng.draws ∧
      (cond_rectangle_mutate_loop xcsf step cond rng).cond.mu = cond.mu ∧
      (cond_rectangle_mutate_loop xcsf step cond rng).xcsf = xcsf ∧
      (∀ i : Nat, (i : Int) < xcsf.num_x_vars →
        (cond_rectangle_mutate_loop xcsf step cond rng).cond.lower i =
          (cond_rectangle_bounds xcsf
            (if rng.draws (pos i) < xcsf.P_MUTATION then
              cond.lower i + ((rng.draws (pos i + 1) * 2) - 1) * step
             else cond.lower i)
            (if rng.draws
                (if rng.draws (pos i) < xcsf.P_MUTATION then pos i + 2 else pos i + 1)
                < xcsf.P_MUTATION then
              cond.upper i + ((rng.draws
                ((if rng.draws (pos i) < xcsf.P_MUTATION then pos i + 2 else pos i + 1)
                  + 1) * 2) - 1) * step
             else cond.upper i)).1 ∧
        (cond_rectangle_mutate_loop xcsf step cond rng).cond.upper i =
          (cond_rectangle_bounds xcsf
            (if rng.draws (pos i) < xcsf.P_MUTATION then
              cond.lower i + ((rng.draws (pos i + 1) * 2) - 1) * step
             else cond.lower i)
            (if rng.draws
                (if rng.draws (pos i) < xcsf.P_MUTATION then pos i + 2 else pos i + 1)
                < xcsf.P_MUTATION then
              cond.upper i + ((rng.draws
                ((if rng.draws (pos i) < xcsf.P_MUTATION then pos i + 2 else pos i + 1)
                  + 1) * 2) - 1) * step
             else cond.upper i)).2) ∧
      (∀ i : Nat, ¬ (i : Int) < xcsf.num_x_vars →
        (cond_rectangle_mutate_loop xcsf step cond rng).cond.lower i = cond.lower i ∧
        (cond_rectangle_mutate_loop xcsf step cond rng).cond.upper i = cond.upper i) := by
  have hdraws : ∀ i : Nat,
      ((List.range i).foldl (cond_rectangle_mutate_step xcsf step)
        { changed := false, cond := cond, rng := rng }).rng.draws = rng.draws :=
    fun i => (cond_rectangle_mutate_fold_spec xcsf step
      { changed := false, cond := cond, rng := rng } i).1
  refine ⟨fun i => ((List.range i).foldl (cond_rectangle_mutate_step xcsf step)
    { changed := false, cond := cond, rng := rng }).rng.pos, rfl, ?_, rfl, ?_, ?_, rfl, ?_, ?_⟩
  · intro i
    dsimp only
    rw [List.range_succ, List.foldl_append, List.foldl_cons, List.foldl_nil,
      cond_rectangle_mutate_step_pos, hdraws i]
  · exact hdraws _
  · exact (cond_rectangle_mutate_fold_spec xcsf step
      { changed := false, cond := cond, rng := rng } xcsf.num_x_vars.toNat).2.1
  · intro i hi
    obtain ⟨-, -, -, h4⟩ := cond_rectangle_mutate_fold_spec xcsf step
      { changed := false, cond := cond, rng := rng } xcsf.num_x_vars.toNat
    obtain ⟨c1, c2⟩ := h4 i (by omega)
    obtain ⟨b1, b2⟩ := cond_rectangle_mutate_step_spec xcsf step
      { changed := false, cond := cond,
        rng := ((List.range i).foldl (cond_rectangle_mutate_step xcsf step)
          { changed := false, cond := cond, rng := rng }).rng } i
    dsimp only at b1 b2 c1 c2 ⊢
    rw [hdraws i] at b1 b2
    exact ⟨c1.trans b1, c2.trans b2⟩
  · intro i hi
    exact (cond_rectangle_mutate_fold_spec xcsf step
      { changed := false, cond := cond, rng := rng } xcsf.num_x_vars.toNat).2.2.1 i (by omega)

/-- C21: the rates `cond_rectangle_mutate` works with. Let `P`, `S`, `rng0` and
`mu` be the probability, the step, the random source and the rates in use: with
`NUM_SAM ≤ 0` the global `P_MUTATION` and `S_MUTATION`, the source given and the
rates as they are; with `NUM_SAM ≥ 1` the adapted `mu[0]`, the adapted `mu[1]`
when `NUM_SAM ≥ 2` and `S_MUTATION` otherwise, the source as `sam_adapt` leaves
it, and the adapted rates. Then the function leaves `P` in `P_MUTATION` and `mu`
in the condition, and in every dimension `i < num_x_vars` the bounds it leaves
are the clamped pair of: `lower[i]`, moved by `(2·draw − 1)·S` exactly when its
draw is below `P`, and `upper[i]`, moved by `(2·draw − 1)·S` exactly when its
draw is below `P`. Here `pos i` is the position of the source when the loop
reaches dimension `i`: a bound takes one draw, and the next one when it is
moved. The other dimensions are as they were. -/
theorem C21_self_adaptive_rates (sam_adapt : XCSF → (Nat → ℚ) → Rng → (Nat → ℚ) × Rng)
    (xcsf : XCSF) (cond : COND_RECTANGLE) (rng : Rng) (P S : ℚ) (rng0 : Rng) (mu : Nat → ℚ)
    (hP : P = if 1 ≤ xcsf.NUM_SAM then (sam_adapt xcsf cond.mu rng).1 0 else xcsf.P_MUTATION)
    (hS : S = if 2 ≤ xcsf.NUM_SAM then (sam_adapt xcsf cond.mu rng).1 1 else xcsf.S_MUTATION)
    (hr : rng0 = if 1 ≤ xcsf.NUM_SAM then (sam_adapt xcsf cond.mu rng).2 else rng)
    (hmu : mu = if 1 ≤ xcsf.NUM_SAM then (sam_adapt xcsf cond.mu rng).1 else cond.mu) :
    (cond_rectangle_mutate sam_adapt xcsf cond rng).xcsf.P_MUTATION = P ∧
    (cond_rectangle_mutate sam_adapt xcsf cond rng).cond.mu = mu ∧
    ∃ pos : Nat → Nat, pos 0 = rng0.pos ∧
      (∀ i : Nat, pos (i + 1) =
        (if rng0.draws (pos i) < P then pos i + 2 else pos i + 1) +
        (if rng0.draws (if rng0.draws (pos i) < P then pos i + 2 else pos i + 1) < P
          then 2 else 1)) ∧
      (cond_rectangle_mutate sam_adapt xcsf cond rng).rng.pos = pos xcsf.num_x_vars.toNat ∧
      (cond_rectangle_mutate sam_adapt xcsf cond rng).rng.draws = rng0.draws ∧
      (∀ i : Nat, (i : Int) < xcsf.num_x_vars →
        (cond_rectangle_mutate sam_adapt xcsf cond rng).cond.lower i =
          (cond_rectangle_bounds xcsf
            (if rng0.draws (pos i) < P then
              cond.lower i + ((rng0.draws (pos i + 1) * 2) - 1) * S
             else cond.lower i)
            (if rng0.draws (if rng0.draws (pos i) < P then pos i + 2 else pos i + 1) < P then
              cond.upper i + ((rng0.draws
                ((if rng0.draws (pos i) < P then pos i + 2 else pos i + 1) + 1) * 2) - 1) * S
             else cond.upper i)).1 ∧
        (cond_rectangle_mutate sam_adapt xcsf cond rng).cond.upper i =
          (cond_rectangle_bounds xcsf
            (if rng0.draws (pos i) < P then
              cond.lower i + ((rng0.draws (pos i + 1) * 2) - 1) * S
             else cond.lower i)
            (if rng0.draws (if rng0.draws (pos i) < P then pos i + 2 else pos i + 1) < P then
              cond.upper i + ((rng0.draws
                ((if rng0.draws (pos i) < P then pos i + 2 else pos i + 1) + 1) * 2) - 1) * S
             else cond.upper i)).2) ∧
      (∀ i : Nat, ¬ (i : Int) < xcsf.num_x_vars →
        (cond_rectangle_mutate sam_adapt xcsf cond rng).cond.lower i = cond.lower i ∧
        (cond_rectangle_mutate sam_adapt xcsf cond rng).cond.upper i = cond.upper i) := by
  by_cases h1 : 1 ≤ xcsf.NUM_SAM
  · rw [if_pos h1] at hP hr hmu
    have hstep : (if xcsf.NUM_SAM > 1 then (sam_adapt xcsf cond.mu rng).1 1
        else xcsf.S_MUTATION) = S := by
      rw [hS]
      by_cases h2 : 2 ≤ xcsf.NUM_SAM
      · rw [if_pos h2, if_pos (by omega)]
      · rw [if_neg h2, if_neg (by omega)]
    have hm : cond_rectangle_mutate sam_adapt xcsf cond rng =
        cond_rectangle_mutate_loop { xcsf with P_MUTATION := P } S { cond with mu := mu }
          rng0 := by
      unfold cond_rectangle_mutate
      rw [if_pos (by omega)]
      dsimp only
      rw [hstep, hP, hmu, hr]
    obtain ⟨pos, p0, prec, ppos, pdr, pmu, pxc, pdim, poth⟩ :=
      cond_rectangle_mutate_loop_spec { xcsf with P_MUTATION := P } S { cond with mu := mu } rng0
    rw [hm]
    refine ⟨by rw [pxc], pmu, pos, p0, prec, ppos, pdr, pdim, poth⟩
  · rw [if_neg h1] at hP hr hmu
    have hS2 : S = xcsf.S_MUTATION := by rw [hS, if_neg (by omega)]
    have hm : cond_rectangle_mutate sam_adapt xcsf cond rng =
        cond_rectangle_mutate_loop xcsf xcsf.S_MUTATION cond rng := by
      unfold cond_rectangle_mutate
      rw [if_neg (by omega)]
    obtain ⟨pos, p0, prec, ppos, pdr, pmu, pxc, pdim, poth⟩ :=
      cond_rectangle_mutate_loop_spec xcsf xcsf.S_MUTATION cond rng
    rw [hm, hP, hS2, hr, hmu]
    exact ⟨by rw [pxc], pmu, pos, p0, prec, ppos, pdr, pdim, poth⟩

/-- A concrete instance of C21 on the condition `(0, 1)` with one dimension,
`MIN_CON = 0` and `MAX_CON = 1`. With `NUM_SAM = 2`, adapted rates `[1/2, 1/2]`
and every draw `1/4`: both draws are below `1/2`, both bounds move by
`(2·1/4 − 1)·1/2 = −1/4`, and the clamped pair is `(0, 3/4)`. With `NUM_SAM = 0`
(`P_MUTATION = 1/25`, `S_MUTATION = 1/10`) and every draw `0`: both bounds move
by `−1/10`, and the clamped pair is `(0, 9/10)`. -/
theorem C21_self_adaptive_rates_witness :
    (cond_rectangle_mutate sam_adapt_half xcsf_sam2 (rect 0 1)
      (rng_const (1 / 4))).xcsf.P_MUTATION = 1 / 2 ∧
    (cond_rectangle_mutate sam_adapt_half xcsf_sam2 (rect 0 1) (rng_const (1 / 4))).cond.lower 0
      = 0 ∧
    (cond_rectangle_mutate sam_adapt_half xcsf_sam2 (rect 0 1) (rng_const (1 / 4))).cond.upper 0
      = 3 / 4 ∧
    (cond_rectangle_mutate sam_adapt_half xcsf_unit (rect 0 1) (rng_const 0)).cond.lower 0
      = 0 ∧
    (cond_rectangle_mutate sam_adapt_half xcsf_unit (rect 0 1) (rng_const 0)).cond.upper 0
      = 9 / 10 := by
  have h1 : (1 : Int) ≤ xcsf_sam2.NUM_SAM := by decide
  have h2 : (2 : Int) ≤ xcsf_sam2.NUM_SAM := by decide
  have n1 : ¬ (1 : Int) ≤ xcsf_unit.NUM_SAM := by decide
  have n2 : ¬ (2 : Int) ≤ xcsf_unit.NUM_SAM := by decide
  obtain ⟨a1, -, pos, -, -, -, -, adim, -⟩ :=
    C21_self_adaptive_rates sam_adapt_half xcsf_sam2 (rect 0 1) (rng_const (1 / 4))
      (1 / 2) (1 / 2) (rng_const (1 / 4)) (fun _ => 1 / 2)
      (by rw [if_pos h1]; rfl) (by rw [if_pos h2]; rfl) (by rw [if_pos h1]; rfl)
      (by rw [if_pos h1]; rfl)
  obtain ⟨-, -, pos0, -, -, -, -, bdim, -⟩ :=
    C21_self_adaptive_rates sam_adapt_half xcsf_unit (rect 0 1) (rng_const 0)
      (1 / 25) (1 / 10) (rng_const 0) (fun _ => 0)
      (by rw [if_neg n1]; rfl) (by rw [if_neg n2]; rfl) (by rw [if_neg n1])
      (by rw [if_neg n1]; rfl)
  obtain ⟨al, au⟩ := adim 0 (by decide)
  obtain ⟨bl, bu⟩ := bdim 0 (by decide)
  refine ⟨a1, ?_, ?_, ?_, ?_⟩
  · rw [al]
    norm_num [rng_const, rect, cond_rectangle_bounds, xcsf_sam2, xcsf_unit]
  · rw [au]
    norm_num [rng_const, rect, cond_rectangle_bounds, xcsf_sam2, xcsf_unit]
  · rw [bl]
    norm_num [rng_const, rect, cond_rectangle_bounds, xcsf_unit]
  · rw [bu]
    norm_num [rng_const, rect, cond_rectangle_bounds, xcsf_unit]

end Xcsf
